import Mathlib

/-!
Verification of the OpenAPI evaluator's rule-evaluation engine.

The TypeScript sources are shallowly embedded: the parsed OpenAPI document
is modelled by the inductive type `Json` (the object graph the rules walk),
JavaScript numbers are modelled as exact rationals (`ℚ`), and code paths on
which the JavaScript code would throw a `TypeError` (property access on
`null`, calling a method of `undefined`, …) are modelled by the `err`
constructor of the `JsOut` result monad.  Recursion through `$ref`
indirection is not structurally decreasing, so the recursive schema
validator takes an explicit fuel argument; `JsOut.diverge` marks fuel
exhaustion (the real code would recurse forever / overflow the stack).

JavaScript object enumeration (`Object.entries` / `Object.keys`) is
modelled as enumeration of the field list in insertion order; the engine's
documents use non-integer keys almost everywhere, and none of the proved
statements depends on enumeration order.
-/

set_option maxRecDepth 8000

/-- A JSON value / JavaScript object-graph node.  `nul` is JSON `null`.
Absent properties are represented by `Option.none` at the lookup level
(JavaScript `undefined`). -/
inductive Json where
  | nul : Json
  | bool (b : Bool) : Json
  | num (q : ℚ) : Json
  | str (s : String) : Json
  | arr (elems : List Json) : Json
  | obj (fields : List (String × Json)) : Json
deriving Inhabited

/-- JavaScript truthiness of a value: `null`, `false`, `0` and `""` are
falsy, every other value (in particular every object and array) is truthy. -/
def Json.truthy : Json → Bool
  | .nul => false
  | .bool b => b
  | .num q => decide (q ≠ 0)
  | .str s => decide (s ≠ "")
  | .arr _ => true
  | .obj _ => true

/-- Decimal value of a digit list (used for canonical array indices). -/
def digitsToNat (cs : List Char) : Nat :=
  cs.foldl (fun n c => n * 10 + (c.toNat - 48)) 0

/-- Whether a string is a canonical array-index string: `"0"`, or digits
without a leading zero (JavaScript exposes array elements and string
characters only under canonical index keys). -/
def isCanonicalIndex (s : String) : Option Nat :=
  let cs := s.data
  if cs ≠ [] ∧ cs.all Char.isDigit ∧ (cs = ['0'] ∨ cs.head? ≠ some '0') then
    some (digitsToNat cs)
  else
    none

/-- JavaScript property read `j[k]`, returning `none` for `undefined`.
Objects are looked up by key (first binding wins); arrays and strings
expose their elements under canonical index keys and their size under
`"length"`.  Reading a property of `null` throws in JavaScript and is
never modelled here: call sites that could reach a `null` receiver model
the thrown `TypeError` explicitly. -/
def Json.getProp : Json → String → Option Json
  | .obj fields, k => (fields.find? (fun p => p.1 = k)).map Prod.snd
  | .arr elems, k =>
      if k = "length" then some (.num elems.length)
      else match isCanonicalIndex k with
        | some i => elems.get? i
        | none => none
  | .str s, k =>
      if k = "length" then some (.num s.length)
      else match isCanonicalIndex k with
        | some i => (s.data.get? i).map (fun c => .str (String.mk [c]))
        | none => none
  | _, _ => none

/-- JavaScript `k in j` for object or array receivers; `none` when the
receiver is a primitive (where the `in` operator throws a `TypeError`). -/
def Json.hasProp : Json → String → Option Bool
  | .obj fields, k => some (fields.any (fun p => p.1 = k))
  | .arr elems, k =>
      some (k = "length" ∨ (isCanonicalIndex k).any (fun i => i < elems.length))
  | _, _ => none

/-- `Object.entries` of a value: field list of an object, indexed elements
of an array, indexed one-character strings of a string, `[]` for number and
boolean primitives.  (`Object.entries(null)` throws; call sites guard.) -/
def jsEntries : Json → List (String × Json)
  | .obj fields => fields
  | .arr elems => (elems.enum).map (fun p => (toString p.1, p.2))
  | .str s => (s.data.enum).map (fun p => (toString p.1, Json.str (String.mk [p.2])))
  | _ => []

/-- `Object.keys` of a value. -/
def jsKeys (j : Json) : List String := (jsEntries j).map Prod.fst

/-- `Object.values` of a value. -/
def jsValues (j : Json) : List Json := (jsEntries j).map Prod.snd

/-- Result of running a piece of JavaScript: normal value, thrown
exception (`err`), or non-termination / fuel exhaustion (`diverge`). -/
inductive JsOut (α : Type) where
  | ok (a : α) : JsOut α
  | err : JsOut α
  | diverge : JsOut α
deriving Inhabited

namespace JsOut

def bind : JsOut α → (α → JsOut β) → JsOut β
  | .ok a, f => f a
  | .err, _ => .err
  | .diverge, _ => .diverge

instance : Monad JsOut where
  pure := .ok
  bind := JsOut.bind

@[simp] theorem bind_ok (a : α) (f : α → JsOut β) : JsOut.bind (.ok a) f = f a := rfl

@[simp] theorem bind_err (f : α → JsOut β) : JsOut.bind .err f = .err := rfl

@[simp] theorem bind_diverge (f : α → JsOut β) : JsOut.bind .diverge f = .diverge := rfl

@[simp] theorem pure_eq_ok (a : α) : (pure a : JsOut α) = .ok a := rfl

@[simp] theorem bind_eq (x : JsOut α) (f : α → JsOut β) :
    x >>= f = JsOut.bind x f := rfl

end JsOut

/-- Monadic fold over a list in `JsOut`, used to model `forEach` loops that
thread mutable state. -/
def jsFoldM (f : σ → α → JsOut σ) : σ → List α → JsOut σ
  | st, [] => .ok st
  | st, a :: as => JsOut.bind (f st a) (fun st2 => jsFoldM f st2 as)

@[simp] theorem jsFoldM_nil (f : σ → α → JsOut σ) (st : σ) : jsFoldM f st [] = .ok st := rfl

@[simp] theorem jsFoldM_cons (f : σ → α → JsOut σ) (st : σ) (a : α) (as : List α) :
    jsFoldM f st (a :: as) = JsOut.bind (f st a) (fun st2 => jsFoldM f st2 as) := rfl

/-- `Math.round` on JavaScript numbers: round half toward positive
infinity. -/
def jround (q : ℚ) : ℤ := ⌊q + 1 / 2⌋

/-- `Math.round` as a number-to-number function. -/
def jroundQ (q : ℚ) : ℚ := (jround q : ℚ)

/-- Severity of a rule violation. -/
inductive Severity where
  | error : Severity
  | warning : Severity
  | info : Severity
deriving DecidableEq, Inhabited

/-- The engine's `RuleViolation` record (src/scoring-engine/types.ts). -/
structure RuleViolation where
  path : String
  operation : Option String := none
  location : String
  message : String
  severity : Severity
  suggestion : String
deriving DecidableEq, Inhabited

/-- The engine's `RuleResult` record: a score, the rule's configured
weight as the maximum score, and the detected violations. -/
structure RuleResult where
  score : ℚ
  maxScore : ℚ
  violations : List RuleViolation
deriving DecidableEq, Inhabited

/-- Severity score weights from src/scoring-engine/constants.ts:
error = 1.0, warning = 0.2, info = 0.0. -/
def SEVERITY_SCORE_WEIGHTS (s : Severity) : ℚ :=
  match s with
  | .error => 1
  | .warning => 1 / 5
  | .info => 0

/-- Rule weights from src/scoring-engine/constants.ts
(`CRITERIA_WEIGHTS`). -/
def CRITERIA_WEIGHTS_schema_types : ℚ := 20

def CRITERIA_WEIGHTS_description_docs : ℚ := 20

def CRITERIA_WEIGHTS_paths_operations : ℚ := 15

def CRITERIA_WEIGHTS_response_codes : ℚ := 15

def CRITERIA_WEIGHTS_examples : ℚ := 10

def CRITERIA_WEIGHTS_security : ℚ := 10

def CRITERIA_WEIGHTS_miscellaneous : ℚ := 10

/-- The shared scoring helper `calculateScore` from
src/scoring-engine/helper-functions.ts:

```
totalItems = Math.max(1, totalItems);
const errorViolations = violations.filter(v => v.severity === 'error').length;
const warningViolations = violations.filter(v => v.severity === 'warning').length;
const infoViolations = violations.filter(v => v.severity === 'info').length;
const weightedViolationPercentage =
    (errorViolations * 1.0 + warningViolations * 0.2 + infoViolations * 0.0) / totalItems;
let score = Math.round(weight * (1 - weightedViolationPercentage));
if (errorViolations > 0 && score > weight - 2) { score = weight - 2; }
return Math.max(0, score);
```
-/
def calculateScore (violations : List RuleViolation) (totalItems weight : ℚ) : ℚ :=
  let totalItems2 := max 1 totalItems
  let errorViolations : ℚ := (violations.filter (fun v => v.severity = .error)).length
  let warningViolations : ℚ := (violations.filter (fun v => v.severity = .warning)).length
  let infoViolations : ℚ := (violations.filter (fun v => v.severity = .info)).length
  let weightedViolationPercentage :=
    (errorViolations * SEVERITY_SCORE_WEIGHTS .error +
      warningViolations * SEVERITY_SCORE_WEIGHTS .warning +
      infoViolations * SEVERITY_SCORE_WEIGHTS .info) / totalItems2
  let score := jroundQ (weight * (1 - weightedViolationPercentage))
  let score2 := if 0 < errorViolations ∧ weight - 2 < score then weight - 2 else score
  max 0 score2

/-- The scoring formula exactly as the specification states it: the
weighted violation share `p`, the rounded score `round(weight * (1 - p))`
clamped to be non-negative, additionally capped at `weight - 2` when at
least one error-severity violation is present. -/
def claimCalculateScore (violations : List RuleViolation) (totalItems weight : ℚ) : ℚ :=
  let errors : ℚ := (violations.filter (fun v => v.severity = .error)).length
  let warnings : ℚ := (violations.filter (fun v => v.severity = .warning)).length
  let infos : ℚ := (violations.filter (fun v => v.severity = .info)).length
  let p := (errors * 1 + warnings * (1 / 5) + infos * 0) / max 1 totalItems
  let s := jroundQ (weight * (1 - p))
  if 0 < errors then max 0 (min s (weight - 2)) else max 0 s

/-- A sample error-severity violation, used for concrete evaluations. -/
def sampleErrorViolation : RuleViolation :=
  { path := ""
    location := "loc"
    message := "boom"
    severity := .error
    suggestion := "fix it" }

/-- C1 counterexample: with the non-integer weight 5/2, one error
violation and 100 items examined the helper returns 1/2, which is not an
integer, so the sentence "the result is an integer" does not hold for
every weight. -/
theorem calculateScore_not_always_integer :
    calculateScore [sampleErrorViolation] 100 (5 / 2) = 1 / 2 ∧
    ∀ n : ℤ, (n : ℚ) ≠ 1 / 2 := by
  constructor
  · have hw : (decide (Severity.error = Severity.warning)) = false := rfl
    have hi : (decide (Severity.error = Severity.info)) = false := rfl
    norm_num [calculateScore, sampleErrorViolation, SEVERITY_SCORE_WEIGHTS, jroundQ, jround,
      List.filter, hw, hi]
  · intro n h
    have h2 : ((2 * n : ℤ) : ℚ) = ((1 : ℤ) : ℚ) := by push_cast; linarith [h]
    have h4 : (2 * n : ℤ) = 1 := by exact_mod_cast h2
    omega

/-- C1 (amended): for every violation list, every totalItemsExamined and
every weight, `calculateScore` returns exactly the specification's
formula — `max(0, round(weight * (1 - p)))` with the error cap at
`weight - 2` — the divisor `max(1, totalItemsExamined)` is never zero,
and whenever the weight is an integer the result is an integer. -/
theorem calculateScore_matches_spec_formula :
    ∀ (violations : List RuleViolation) (totalItems weight : ℚ),
      calculateScore violations totalItems weight =
        claimCalculateScore violations totalItems weight ∧
      0 < max 1 totalItems ∧
      ∀ W : ℤ, ∃ n : ℤ, calculateScore violations totalItems (W : ℚ) = (n : ℚ) := by
  intro violations totalItems weight
  have aux : ∀ e s w : ℚ, max 0 (if 0 < e ∧ w - 2 < s then w - 2 else s) =
      if 0 < e then max 0 (min s (w - 2)) else max 0 s := by
    intro e s w
    by_cases he : 0 < e
    · by_cases hlt : w - 2 < s
      · rw [if_pos ⟨he, hlt⟩, if_pos he, min_eq_right hlt.le]
      · rw [if_neg (by tauto), if_pos he, min_eq_left (not_lt.mp hlt)]
    · rw [if_neg (by tauto), if_neg he]
  have key : ∀ (C : Prop) (inst : Decidable C) (a b : ℤ),
      ∃ n : ℤ, (max 0 (if C then (a : ℚ) else (b : ℚ))) = (n : ℚ) := by
    intro C inst a b
    refine ⟨max 0 (if C then a else b), ?_⟩
    split <;> · push_cast; rfl
  refine ⟨?_, by positivity, ?_⟩
  · simp only [calculateScore, claimCalculateScore, SEVERITY_SCORE_WEIGHTS]
    exact aux _ _ _
  · intro W
    simp only [calculateScore, SEVERITY_SCORE_WEIGHTS, jroundQ]
    rw [show ((W : ℚ) - 2) = (((W - 2 : ℤ)) : ℚ) by push_cast; ring]
    exact key _ _ _ _

/-! ### Character-list string operations

Lean's built-in `String` functions (`splitOn`, `replace`, `trim`, …) do
not reduce inside the kernel, so the JavaScript string operations the
engine uses are implemented here over `String.data` character lists. -/

/-- JavaScript `s.startsWith(p)`. -/
def jsStartsWith (s p : String) : Bool := List.isPrefixOf p.data s.data

/-- JavaScript `s.endsWith(p)`. -/
def jsEndsWith (s p : String) : Bool := List.isPrefixOf p.data.reverse s.data.reverse

/-- Split a character list at every occurrence of a separator character;
like JavaScript `String.split` with a one-character separator, the result
always has one more piece than there are separators (the empty string
splits to `[""]`). -/
def splitOnChar (sep : Char) : List Char → List (List Char)
  | [] => [[]]
  | c :: rest =>
      let r := splitOnChar sep rest
      if c = sep then [] :: r
      else
        match r with
        | h :: t => (c :: h) :: t
        | [] => [[c]]

/-- JavaScript `s.split(sep)` for a one-character separator. -/
def jsSplit (s : String) (sep : Char) : List String :=
  (splitOnChar sep s.data).map String.mk

/-- Replace every (non-overlapping, left-to-right) occurrence of `pat` by
`rep`, as JavaScript `s.replace(/pat/g, rep)` does for a literal pattern.
The first argument is fuel; `replaceAll` supplies the list length, which
always suffices because each step consumes at least one character. -/
def replaceAllAux (pat rep : List Char) : Nat → List Char → List Char
  | 0, s => s
  | _ + 1, [] => []
  | fuel + 1, c :: cs =>
      if pat ≠ [] ∧ List.isPrefixOf pat (c :: cs) then
        rep ++ replaceAllAux pat rep fuel ((c :: cs).drop pat.length)
      else
        c :: replaceAllAux pat rep fuel cs

/-- Global literal replacement on character lists. -/
def replaceAll (pat rep s : List Char) : List Char := replaceAllAux pat rep s.length s

/-- Whether `pat` occurs as a contiguous substring of `cs`. -/
def containsSub (pat : List Char) : List Char → Bool
  | [] => List.isPrefixOf pat []
  | c :: rest => List.isPrefixOf pat (c :: rest) || containsSub pat rest

/-- JavaScript `s.includes(p)`. -/
def jsIncludes (s p : String) : Bool := containsSub p.data s.data

/-- The whitespace characters JavaScript `trim` removes (ASCII subset;
the engine's documents contain no exotic Unicode spaces). -/
def isJsSpace (c : Char) : Bool :=
  c = ' ' ∨ c = '\t' ∨ c = '\n' ∨ c = '\r' ∨ c = '\x0b' ∨ c = '\x0c'

/-- JavaScript `s.trim()`. -/
def jsTrim (s : String) : String :=
  String.mk ((((s.data.dropWhile isJsSpace).reverse).dropWhile isJsSpace).reverse)

/-- JavaScript `s.toUpperCase()` (ASCII). -/
def jsToUpper (s : String) : String := String.mk (s.data.map Char.toUpper)

/-- JavaScript `s.toLowerCase()` (ASCII). -/
def jsToLower (s : String) : String := String.mk (s.data.map Char.toLower)

/-! ### The two reference resolvers -/

/-- RFC 6901 segment decoding as implemented in
src/src/rules/response-code-rule.ts (line 436):
`part.replace(/~1/g, '/').replace(/~0/g, '~')`. -/
def rfc6901Unescape (s : String) : String :=
  String.mk (replaceAll ['~', '0'] ['~'] (replaceAll ['~', '1'] ['/'] s.data))

/-- The walk loop of `resolveReference<T>` as implemented identically in
src/scoring-engine/helper-functions.ts, in part_004's `SchemaTypesRule`
and in src/src/rules/schema-rule.ts:

```
for (const part of parts) {
    if (!current[part]) return undefined;
    current = current[part];
}
return current;
```

The segment is used verbatim (no RFC 6901 unescaping) and a falsy stored
value is treated like an absent one.  Property access on a `null` current
value would throw; that can only happen at the first step, with a `null`
document root. -/
def resolveRefWalk : Json → List String → JsOut (Option Json)
  | cur, [] => .ok (some cur)
  | cur, part :: parts =>
      match cur with
      | .nul => .err
      | _ =>
          match cur.getProp part with
          | some v => if v.truthy then resolveRefWalk v parts else .ok none
          | none => .ok none

/-- `resolveReference(ref, spec)` of src/scoring-engine/helper-functions.ts
(also `SchemaTypesRule.resolveReference`): `undefined` unless the pointer
starts with `#/`; otherwise walk `ref.substring(2).split('/')`. -/
def resolveReference (ref : String) (spec : Json) : JsOut (Option Json) :=
  if jsStartsWith ref "#/" then
    resolveRefWalk spec ((splitOnChar '/' (ref.data.drop 2)).map String.mk)
  else
    .ok none

/-- The walk loop of `ResponseCodesRule.resolveReference` from
src/src/rules/response-code-rule.ts (lines 428-445):

```
for (const part of parts) {
    const decodedPart = part.replace(/~1/g, '/').replace(/~0/g, '~');
    if (!current || typeof current !== 'object' || !(decodedPart in current)) {
        return null;
    }
    current = current[decodedPart];
}
```
-/
def rcResolveWalk : Json → List String → Option Json
  | cur, [] => some cur
  | cur, part :: parts =>
      let decodedPart := rfc6901Unescape part
      if cur.truthy = false then none
      else
        match cur with
        | .obj _ =>
            if (cur.hasProp decodedPart).getD false then
              match cur.getProp decodedPart with
              | some v => rcResolveWalk v parts
              | none => none
            else none
        | .arr _ =>
            if (cur.hasProp decodedPart).getD false then
              match cur.getProp decodedPart with
              | some v => rcResolveWalk v parts
              | none => none
            else none
        | _ => none

/-- `ResponseCodesRule.resolveReference` (src/src/rules/response-code-rule.ts):
the variant that decodes RFC 6901 escapes and checks `in` membership; it
returns `null` (here `none`) on any failure and never throws. -/
def rcResolveReference (ref : String) (spec : Json) : Option Json :=
  if jsStartsWith ref "#/" then
    rcResolveWalk spec ((splitOnChar '/' (ref.data.drop 2)).map String.mk)
  else
    none

/-- The resolution contract in the specification's words: walk the
document segment by segment, each segment unescaped per RFC 6901, where
every intermediate node must be an indexable container (an object or an
array of the document graph); absence otherwise, or when the pointer does
not start with `#/`, or when a segment is missing. -/
def rfcPointerWalk (ref : String) (root : Json) : Option Json :=
  if jsStartsWith ref "#/" then
    ((splitOnChar '/' (ref.data.drop 2)).map String.mk).foldlM
      (fun cur seg =>
        match cur with
        | Json.obj _ => cur.getProp (rfc6901Unescape seg)
        | Json.arr _ => cur.getProp (rfc6901Unescape seg)
        | _ => none)
      root
  else
    none

/-- C2 counterexample: the resolver shared by the Schema & Types rule does
not unescape `~0`, so on a document with the key `a~b` the pointer
`#/a~0b` resolves per RFC 6901 to the stored node but `resolveReference`
reports absence. -/
theorem resolveReference_unescape_counterexample :
    resolveReference "#/a~0b" (Json.obj [("a~b", Json.str "hit")]) = .ok none ∧
    rfcPointerWalk "#/a~0b" (Json.obj [("a~b", Json.str "hit")]) =
      some (Json.str "hit") ∧
    rcResolveReference "#/a~0b" (Json.obj [("a~b", Json.str "hit")]) =
      some (Json.str "hit") := by
  refine ⟨rfl, rfl, rfl⟩

theorem truthy_ne_nul {v : Json} (h : v.truthy = true) : v ≠ Json.nul := by
  intro hv
  subst hv
  simp [Json.truthy] at h

theorem splitOnChar_ne_nil (sep : Char) (cs : List Char) : splitOnChar sep cs ≠ [] := by
  induction cs with
  | nil => simp [splitOnChar]
  | cons c rest ih =>
      simp only [splitOnChar]
      split
      · simp
      · match hr : splitOnChar sep rest with
        | [] => exact absurd hr ih
        | h :: t => simp

theorem mem_splitOnChar (sep : Char) (cs piece : List Char)
    (hp : piece ∈ splitOnChar sep cs) : ∀ c ∈ piece, c ∈ cs := by
  induction cs generalizing piece with
  | nil =>
      simp [splitOnChar] at hp
      subst hp
      simp
  | cons c rest ih =>
      simp only [splitOnChar] at hp
      by_cases hc : c = sep
      · rw [if_pos hc] at hp
        rcases List.mem_cons.mp hp with h | h
        · subst h; simp
        · intro x hx
          exact List.mem_cons_of_mem _ (ih piece h x hx)
      · rw [if_neg hc] at hp
        rcases hr : splitOnChar sep rest with _ | ⟨h, t⟩
        · exact absurd hr (splitOnChar_ne_nil sep rest)
        · rw [hr] at hp
          rcases List.mem_cons.mp hp with hh | hh
          · subst hh
            intro x hx
            rcases List.mem_cons.mp hx with h1 | h1
            · subst h1; simp
            · have : h ∈ splitOnChar sep rest := by rw [hr]; exact List.mem_cons_self _ _
              exact List.mem_cons_of_mem _ (ih h this x h1)
          · have : piece ∈ splitOnChar sep rest := by
              rw [hr]; exact List.mem_cons_of_mem _ hh
            intro x hx
            exact List.mem_cons_of_mem _ (ih piece this x hx)

theorem replaceAllAux_no_tilde (x : Char) (rep : List Char) :
    ∀ (fuel : Nat) (cs : List Char), '~' ∉ cs →
      replaceAllAux ['~', x] rep fuel cs = cs := by
  intro fuel
  induction fuel with
  | zero => intro cs _; rfl
  | succ n ih =>
      intro cs hcs
      match cs with
      | [] => rfl
      | c :: rest =>
          have hc : c ≠ '~' := by
            intro h; exact hcs (by simp [h])
          have hpre : List.isPrefixOf ['~', x] (c :: rest) = false := by
            simp [List.isPrefixOf]
            intro h
            exact absurd h.symm hc
          rw [replaceAllAux, if_neg]
          · have : '~' ∉ rest := fun h => hcs (List.mem_cons_of_mem _ h)
            rw [ih rest this]
          · rw [hpre]; simp

theorem rfc6901Unescape_no_tilde (s : String) (hs : '~' ∉ s.data) :
    rfc6901Unescape s = s := by
  unfold rfc6901Unescape replaceAll
  rw [replaceAllAux_no_tilde _ _ _ _ hs, replaceAllAux_no_tilde _ _ _ _ hs]

theorem hasProp_getD_eq_isSome_obj (fields : List (String × Json)) (k : String) :
    ((Json.obj fields).hasProp k).getD false = ((Json.obj fields).getProp k).isSome := by
  simp only [Json.hasProp, Json.getProp, Option.getD_some, Option.isSome_map]
  induction fields with
  | nil => rfl
  | cons f fs ih =>
      by_cases h : f.1 = k
      · simp [List.find?, List.any, h]
      · simp only [List.any_cons, List.find?]
        rw [show (decide (f.1 = k)) = false by simpa using h]
        simpa [h] using ih

theorem hasProp_getD_eq_isSome_arr (elems : List Json) (k : String) :
    ((Json.arr elems).hasProp k).getD false = ((Json.arr elems).getProp k).isSome := by
  simp only [Json.hasProp, Json.getProp, Option.getD_some]
  by_cases hk : k = "length"
  · simp [hk]
  · rw [if_neg hk]
    simp only [hk, false_or]
    cases h : isCanonicalIndex k with
    | none => simp [h]
    | some i =>
        simp only [h, Option.any_some]
        by_cases hi : i < elems.length
        · simp [hi, List.get?_eq_get hi]
        · rw [List.get?_eq_none.mpr (Nat.le_of_not_lt hi)]
          simp [hi]

theorem rcWalk_eq_rfcFold (parts : List String) : ∀ cur : Json,
    rcResolveWalk cur parts =
      parts.foldlM
        (fun cur seg =>
          match cur with
          | Json.obj _ => cur.getProp (rfc6901Unescape seg)
          | Json.arr _ => cur.getProp (rfc6901Unescape seg)
          | _ => none)
        cur := by
  induction parts with
  | nil => intro cur; rfl
  | cons p ps ih =>
      intro cur
      rw [List.foldlM_cons]
      cases cur with
      | nul => rfl
      | bool b => cases b <;> rfl
      | num q =>
          simp only [rcResolveWalk]
          split <;> rfl
      | str s =>
          simp only [rcResolveWalk]
          split <;> rfl
      | arr elems =>
          simp only [rcResolveWalk, Json.truthy]
          rw [if_neg (by simp)]
          rw [hasProp_getD_eq_isSome_arr]
          cases h : (Json.arr elems).getProp (rfc6901Unescape p) with
          | none => simp [h]
          | some v => simp [h, ih v]
      | obj fields =>
          simp only [rcResolveWalk, Json.truthy]
          rw [if_neg (by simp)]
          rw [hasProp_getD_eq_isSome_obj]
          cases h : (Json.obj fields).getProp (rfc6901Unescape p) with
          | none => simp [h]
          | some v => simp [h, ih v]

theorem resolveRefWalk_no_throw (parts : List String) : ∀ cur : Json, cur ≠ Json.nul →
    ∃ o, resolveRefWalk cur parts = .ok o := by
  induction parts with
  | nil => intro cur _; exact ⟨some cur, rfl⟩
  | cons p ps ih =>
      intro cur hcur
      match cur, hcur with
      | .bool b, _ | .num _, _ | .str _, _ | .arr _, _ | .obj _, _ =>
          simp only [resolveRefWalk]
          rename_i x
          cases hg : (Json.getProp _ p) with
          | none => exact ⟨none, rfl⟩
          | some v =>
              by_cases hv : v.truthy = true
              · simp only [hg, hv, if_true]
                exact ih v (truthy_ne_nul hv)
              · simp only [hg]
                rw [if_neg hv]
                exact ⟨none, rfl⟩

theorem resolveRefWalk_agrees (parts : List String) : ∀ (cur v : Json),
    (∀ part ∈ parts, rfc6901Unescape part = part) →
    (parts.foldlM
      (fun cur seg =>
        match cur with
        | Json.obj _ => cur.getProp (rfc6901Unescape seg)
        | Json.arr _ => cur.getProp (rfc6901Unescape seg)
        | _ => none)
      cur) = some v →
    v.truthy = true →
    resolveRefWalk cur parts = .ok (some v) := by
  induction parts with
  | nil =>
      intro cur v _ hfold _
      simp only [List.foldlM_nil] at hfold
      cases hfold
      rfl
  | cons p ps ih =>
      intro cur v hesc hfold hv
      rw [List.foldlM_cons] at hfold
      have hstep : ∀ (w : Json),
          (match cur with
            | Json.obj _ => cur.getProp (rfc6901Unescape p)
            | Json.arr _ => cur.getProp (rfc6901Unescape p)
            | _ => none) = some w →
          ps.foldlM
            (fun cur seg =>
              match cur with
              | Json.obj _ => cur.getProp (rfc6901Unescape seg)
              | Json.arr _ => cur.getProp (rfc6901Unescape seg)
              | _ => none) w = some v →
          resolveRefWalk cur (p :: ps) = .ok (some v) := by
        intro w hw hrest
        have hwt : w.truthy = true := by
          match ps, hrest with
          | [], hrest => simp only [List.foldlM_nil] at hrest; cases hrest; exact hv
          | q :: qs, hrest =>
              rw [List.foldlM_cons] at hrest
              match w with
              | .obj _ => rfl
              | .arr _ => rfl
              | .nul | .bool _ | .num _ | .str _ =>
                  simp at hrest
        cases cur with
        | nul => simp at hw
        | bool b => simp at hw
        | num q => simp at hw
        | str s => simp at hw
        | obj fields =>
            have hgp : (Json.obj fields).getProp p = some w := by
              rw [← hesc p (List.mem_cons_self p ps)]
              exact hw
            simp only [resolveRefWalk, hgp, hwt, if_true]
            exact ih w v (fun x hx => hesc x (List.mem_cons_of_mem _ hx)) hrest hv
        | arr elems =>
            have hgp : (Json.arr elems).getProp p = some w := by
              rw [← hesc p (List.mem_cons_self p ps)]
              exact hw
            simp only [resolveRefWalk, hgp, hwt, if_true]
            exact ih w v (fun x hx => hesc x (List.mem_cons_of_mem _ hx)) hrest hv
      cases cur with
      | nul => simp at hfold
      | bool b => simp at hfold
      | num q => simp at hfold
      | str s => simp at hfold
      | obj fields =>
          cases hw : Json.getProp (Json.obj fields) (rfc6901Unescape p) with
          | none => simp [hw] at hfold
          | some w =>
              simp only [hw, Option.some_bind] at hfold
              exact hstep w hw hfold
      | arr elems =>
          cases hw : Json.getProp (Json.arr elems) (rfc6901Unescape p) with
          | none => simp [hw] at hfold
          | some w =>
              simp only [hw, Option.some_bind] at hfold
              exact hstep w hw hfold

/-- C2 (amended): the ResponseCodesRule resolver implements the contract
exactly — it returns the node reached by walking the document with each
segment unescaped per RFC 6901 and signals absence (never throwing)
otherwise.  The resolver shared by the Schema & Types rule differs: it
matches segments verbatim and treats falsy stored values as absent; it
never throws (for a non-null root) and agrees with the RFC 6901 walk
whenever the pointer contains no `~` escapes and the target is truthy. -/
theorem resolveReference_amended :
    (∀ (ref : String) (spec : Json),
        rcResolveReference ref spec = rfcPointerWalk ref spec) ∧
    (∀ (ref : String) (spec : Json), spec ≠ Json.nul →
        ∃ o, resolveReference ref spec = .ok o) ∧
    (∀ (ref : String) (spec : Json) (v : Json), '~' ∉ ref.data →
        rfcPointerWalk ref spec = some v → v.truthy = true →
        resolveReference ref spec = .ok (some v)) := by
  refine ⟨?_, ?_, ?_⟩
  · intro ref spec
    unfold rcResolveReference rfcPointerWalk
    split
    · exact rcWalk_eq_rfcFold _ spec
    · rfl
  · intro ref spec hs
    unfold resolveReference
    split
    · exact resolveRefWalk_no_throw _ spec hs
    · exact ⟨none, rfl⟩
  · intro ref spec v htilde hwalk hv
    unfold resolveReference
    unfold rfcPointerWalk at hwalk
    split at hwalk
    · next hcond =>
        rw [if_pos hcond]
        refine resolveRefWalk_agrees _ spec v ?_ hwalk hv
        intro part hpart
        rcases List.mem_map.mp hpart with ⟨piece, hpiece, hmk⟩
        subst hmk
        refine rfc6901Unescape_no_tilde _ ?_
        intro hmem
        exact htilde (List.mem_of_mem_drop (mem_splitOnChar _ _ _ hpiece _ hmem))
    · cases hwalk

/-- C2 witness: the amended theorem applied to the concrete pointer
`#/a/b` on a two-level document. -/
theorem resolveReference_amended_witness :
    rcResolveReference "#/a/b" (Json.obj [("a", Json.obj [("b", Json.num 7)])]) =
      rfcPointerWalk "#/a/b" (Json.obj [("a", Json.obj [("b", Json.num 7)])]) ∧
    (∃ o, resolveReference "#/a/b"
        (Json.obj [("a", Json.obj [("b", Json.num 7)])]) = .ok o) ∧
    resolveReference "#/a/b" (Json.obj [("a", Json.obj [("b", Json.num 7)])]) =
      .ok (some (Json.num 7)) := by
  refine ⟨resolveReference_amended.1 _ _,
    resolveReference_amended.2.1 _ _ (fun h => Json.noConfusion h),
    resolveReference_amended.2.2 _ _ _ (by decide) rfl rfl⟩

/-! ### The evaluation orchestrator (`Judge`, src/src/core/parser.ts) -/

/-- A rule evaluator as the orchestrator sees it: a name, a description, a
configured weight, and an evaluation function over the parsed document. -/
structure RuleX where
  name : String
  description : String
  weight : ℚ
  evaluate : Json → JsOut RuleResult

/-- A per-category entry of the scorecard. -/
structure CategoryScore where
  name : String
  score : ℚ
  maxScore : ℚ
  percentage : ℚ
  ruleResult : RuleX × RuleResult

/-- The scorecard assembled by `Judge.evaluate`. -/
structure ScoreCard where
  overallScore : ℚ
  grade : String
  categoryScores : List CategoryScore
  violations : List RuleViolation
  ruleResults : List (RuleX × RuleResult)

/-- `Judge.calculateGrade` (src/src/core/parser.ts, lines 63-70): the
six-level grade table with the `S` tier. -/
def Judge.calculateGrade (score : ℚ) : String :=
  if 90 ≤ score then "S"
  else if 80 ≤ score then "A"
  else if 70 ≤ score then "B"
  else if 60 ≤ score then "C"
  else if 50 ≤ score then "D"
  else "F"

/-- The `this.rules.map(rule => ({ rule, result: rule.evaluate(spec) }))`
step of `Judge.evaluate`: evaluate the rules in order, propagating a
thrown fault or divergence. -/
def evalRules (spec : Json) : List RuleX → JsOut (List (RuleX × RuleResult))
  | [] => .ok []
  | rule :: rest => do
      let result ← rule.evaluate spec
      let others ← evalRules spec rest
      pure ((rule, result) :: others)

/-- `Judge.evaluate` (src/src/core/parser.ts, lines 36-61): run every rule
against the specification (no per-rule fault isolation — `this.rules.map`
simply calls each evaluator), sum scores and maximum scores, round the
percentage, flatten the violations excluding info severity, and assemble
the scorecard.  When `maxPossibleScore` is zero JavaScript produces `NaN`
and grades it `F`; the rational model returns 0 there, a corner no proved
statement relies on.  The rule-running step is factored out as
`evalRules`. -/
def Judge.evaluate (rules : List RuleX) (spec : Json) : JsOut ScoreCard := do
  let ruleResults ← evalRules spec rules
  let totalScore := ruleResults.foldl (fun sum rr => sum + rr.2.score) 0
  let maxPossibleScore := ruleResults.foldl (fun sum rr => sum + rr.2.maxScore) 0
  let overallScore := jroundQ (totalScore / maxPossibleScore * 100)
  let vviolations := ruleResults.flatMap (fun rr => rr.2.violations)
  let vviolations2 := vviolations.filter (fun v => ¬ v.severity = .info)
  pure
    { overallScore := overallScore
      grade := Judge.calculateGrade overallScore
      categoryScores := ruleResults.map (fun rr =>
        { name := rr.1.name
          score := rr.2.score
          maxScore := rr.2.maxScore
          percentage := jroundQ (rr.2.score / rr.2.maxScore * 100)
          ruleResult := rr })
      violations := vviolations2
      ruleResults := ruleResults }

theorem evalRules_ok (spec : Json) :
    ∀ (rules : List RuleX),
      (∀ rl ∈ rules, ∃ r : RuleResult,
        rl.evaluate spec = .ok r ∧ r.score = r.maxScore ∧ r.violations = [] ∧
        r.maxScore = rl.weight) →
      ∃ rrs : List (RuleX × RuleResult),
        evalRules spec rules = .ok rrs ∧
        (∀ rr ∈ rrs, rr.2.score = rr.2.maxScore ∧ rr.2.violations = [] ∧
          rr.2.maxScore = rr.1.weight) ∧
        rrs.map Prod.fst = rules := by
  intro rules
  induction rules with
  | nil => intro _; exact ⟨[], rfl, by simp, rfl⟩
  | cons rl rest ih =>
      intro hall
      obtain ⟨r, hr, hsc, hv, hw⟩ := hall rl (List.mem_cons_self _ _)
      obtain ⟨rrs, hrrs, hprop, hfst⟩ := ih (fun x hx => hall x (List.mem_cons_of_mem _ hx))
      refine ⟨(rl, r) :: rrs, ?_, ?_, ?_⟩
      · simp only [evalRules, hr, hrrs, JsOut.bind_eq, JsOut.bind_ok, JsOut.pure_eq_ok]
      · intro rr hrr
        rcases List.mem_cons.mp hrr with h | h
        · subst h; exact ⟨hsc, hv, hw⟩
        · exact hprop rr h
      · simp [hfst]

theorem foldl_add_congr (f g : α → ℚ) (l : List α) (h : ∀ x ∈ l, f x = g x) :
    ∀ a : ℚ, l.foldl (fun s x => s + f x) a = l.foldl (fun s x => s + g x) a := by
  induction l with
  | nil => intro a; rfl
  | cons x xs ih =>
      intro a
      simp only [List.foldl_cons]
      rw [h x (List.mem_cons_self _ _)]
      exact ih (fun y hy => h y (List.mem_cons_of_mem _ hy)) _

theorem foldl_add_eq_sum (f : α → ℚ) (l : List α) :
    ∀ a : ℚ, l.foldl (fun s x => s + f x) a = a + (l.map f).sum := by
  induction l with
  | nil => intro a; simp
  | cons x xs ih =>
      intro a
      simp only [List.foldl_cons, List.map_cons, List.sum_cons]
      rw [ih]
      ring

/-- C4: if every rule evaluator returns its full weight with no
violations, and the configured weights sum to 100 (as the seven rules'
weights 20+20+15+15+10+10+10 do), then the orchestrator produces a
scorecard with overall score 100, grade `S` under the canonical six-level
table, and an empty violation list. -/
theorem judge_full_marks (rules : List RuleX) (spec : Json)
    (hall : ∀ rl ∈ rules, ∃ r : RuleResult,
      rl.evaluate spec = .ok r ∧ r.score = r.maxScore ∧ r.violations = [] ∧
      r.maxScore = rl.weight)
    (hsum : (rules.map RuleX.weight).sum = 100) :
    ∃ sc : ScoreCard, Judge.evaluate rules spec = .ok sc ∧
      sc.overallScore = 100 ∧ sc.grade = "S" ∧ sc.violations = [] := by
  obtain ⟨rrs, hrrs, hprop, hfst⟩ := evalRules_ok spec rules hall
  have hmax : rrs.foldl (fun sum rr => sum + rr.2.maxScore) 0 = 100 := by
    rw [foldl_add_eq_sum]
    have : rrs.map (fun rr => rr.2.maxScore) = rules.map RuleX.weight := by
      rw [← hfst, List.map_map]
      exact List.map_congr_left (fun rr hrr => (hprop rr hrr).2.2)
    rw [this, hsum]
    ring
  have htot : rrs.foldl (fun sum rr => sum + rr.2.score) 0 = 100 := by
    rw [foldl_add_congr (fun rr => rr.2.score) (fun rr => rr.2.maxScore) rrs
      (fun rr hrr => (hprop rr hrr).1)]
    exact hmax
  have hover : jroundQ ((rrs.foldl (fun sum rr => sum + rr.2.score) 0) /
      (rrs.foldl (fun sum rr => sum + rr.2.maxScore) 0) * 100) = 100 := by
    rw [htot, hmax]
    norm_num [jroundQ, jround]
  have hviol : rrs.flatMap (fun rr => rr.2.violations) = [] := by
    rw [List.flatMap_eq_nil_iff]
    intro rr hrr
    exact (hprop rr hrr).2.1
  unfold Judge.evaluate
  rw [hrrs]
  simp only [JsOut.bind_eq, JsOut.bind_ok, JsOut.pure_eq_ok]
  refine ⟨_, rfl, ?_, ?_, ?_⟩
  · exact hover
  · simp only [hover, Judge.calculateGrade]
    norm_num
  · simp only [hviol, List.filter_nil]

/-- A constant rule evaluator that always returns its full weight. -/
def okRule (nm : String) (w : ℚ) : RuleX :=
  { name := nm
    description := ""
    weight := w
    evaluate := fun _ => .ok { score := w, maxScore := w, violations := [] } }

/-- A rule evaluator whose evaluation faults. -/
def faultyRule : RuleX :=
  { name := "Faulty"
    description := ""
    weight := 10
    evaluate := fun _ => .err }

/-- C4 witness: seven constant full-score rules with the configured
weights 20, 20, 15, 15, 10, 10, 10 on the empty document. -/
theorem judge_full_marks_witness :
    ∃ sc : ScoreCard,
      Judge.evaluate [okRule "Schema & Types" 20,
        okRule "Description & Documentation" 20, okRule "Paths & Operations" 15,
        okRule "Response Codes" 15, okRule "Examples & Samples" 10,
        okRule "Security" 10, okRule "Miscellaneous" 10] (Json.obj []) = .ok sc ∧
      sc.overallScore = 100 ∧ sc.grade = "S" ∧ sc.violations = [] := by
  refine judge_full_marks _ _ ?_ ?_
  · intro rl hrl
    fin_cases hrl <;> exact ⟨_, rfl, rfl, rfl, rfl⟩
  · simp [okRule]
    norm_num

theorem evalRules_ok_inv (spec : Json) : ∀ (rules : List RuleX)
    (rrs : List (RuleX × RuleResult)),
    evalRules spec rules = .ok rrs → ∀ rl ∈ rules, ∃ r, rl.evaluate spec = .ok r := by
  intro rules
  induction rules with
  | nil => intro rrs _ rl hrl; cases hrl
  | cons x xs ih =>
      intro rrs h rl hrl
      cases hx : x.evaluate spec with
      | ok r =>
          rcases List.mem_cons.mp hrl with h1 | h1
          · subst h1; exact ⟨r, hx⟩
          · simp only [evalRules, hx, JsOut.bind_eq, JsOut.bind_ok] at h
            cases hrest : evalRules spec xs with
            | ok l => exact ih l hrest rl h1
            | err => rw [hrest] at h; simp at h
            | diverge => rw [hrest] at h; simp at h
      | err => simp [evalRules, hx] at h
      | diverge => simp [evalRules, hx] at h

/-- C6 counterexample: seven rules with the configured weights, one of
which faults; the orchestrator does not isolate the fault into a
zero-score entry — the whole evaluation faults and no scorecard is
produced. -/
theorem judge_fault_counterexample :
    Judge.evaluate [okRule "Schema & Types" 20,
      okRule "Description & Documentation" 20, okRule "Paths & Operations" 15,
      okRule "Response Codes" 15, okRule "Examples & Samples" 10,
      okRule "Security" 10, faultyRule] (Json.obj []) = .err := rfl

/-- C6 (amended): the orchestrator has no per-rule fault isolation — if
any rule evaluator faults, `Judge.evaluate` propagates the fault and no
scorecard at all is produced. -/
theorem judge_propagates_fault (rules : List RuleX) (spec : Json)
    (hfault : ∃ rl ∈ rules, rl.evaluate spec = .err) :
    ∀ sc : ScoreCard, Judge.evaluate rules spec ≠ .ok sc := by
  intro sc h
  unfold Judge.evaluate at h
  obtain ⟨rl, hrl, herr⟩ := hfault
  cases hev : evalRules spec rules with
  | ok rrs =>
      obtain ⟨r, hr⟩ := evalRules_ok_inv spec rules rrs hev rl hrl
      rw [herr] at hr
      cases hr
  | err => rw [hev] at h; simp at h
  | diverge => rw [hev] at h; simp at h

/-- C6 witness: the amended theorem applied to a one-rule list whose rule
faults on the empty document. -/
theorem judge_propagates_fault_witness :
    Judge.evaluate [faultyRule] (Json.obj []) ≠ .ok
      { overallScore := 0
        grade := "F"
        categoryScores := []
        violations := []
        ruleResults := [] } :=
  judge_propagates_fault [faultyRule] (Json.obj [])
    ⟨faultyRule, List.mem_cons_self _ _, rfl⟩ _

/-- C7: the evaluation is a pure function of the parsed document — the
whole orchestrated evaluation is state-free in the embedding (none of the
rule evaluators writes into the specification; each allocates only its
own violation records), so evaluating equal specifications yields
identical scorecards. -/
theorem judge_deterministic (rules : List RuleX) (spec1 spec2 : Json)
    (h : spec1 = spec2) :
    Judge.evaluate rules spec1 = Judge.evaluate rules spec2 := by
  rw [h]

/-- C7 witness: determinism applied at a concrete document. -/
theorem judge_deterministic_witness :
    Judge.evaluate [okRule "Security" 10] (Json.obj [("openapi", Json.str "3.0.0")]) =
      Judge.evaluate [okRule "Security" 10] (Json.obj [("openapi", Json.str "3.0.0")]) :=
  judge_deterministic [okRule "Security" 10] _ _ rfl

/-! ### String rendering (`JSON.stringify`, template-literal coercion) -/

/-- Decimal rendering of an integer. -/
def intToString (n : ℤ) : String :=
  if n < 0 then "-" ++ toString n.natAbs else toString n.natAbs

/-- Rendering of a JavaScript number.  Integers render exactly as
JavaScript does; for the engine's documents (and every concrete input
used here) numbers are integers, so the non-integer branch — rendered as
`num/den` rather than as a decimal expansion — is never exercised.  The
only fact the proofs rely on is that number renderings contain no quote
or backslash characters, which holds for both renderings. -/
def numToString (q : ℚ) : String :=
  if q.den = 1 then intToString q.num
  else intToString q.num ++ "/" ++ toString q.den

/-- JavaScript string coercion (`String(v)` / template literals), with a
structural fuel argument bounding array nesting depth.  Array elements
coerce recursively as in `Array.prototype.join`; `null` elements render
empty; objects render as `[object Object]`. -/
def jsToStringF : Nat → Json → String
  | 0, _ => ""
  | _ + 1, .nul => "null"
  | _ + 1, .bool true => "true"
  | _ + 1, .bool false => "false"
  | _ + 1, .num q => numToString q
  | _ + 1, .str s => s
  | fuel + 1, .arr elems =>
      String.intercalate "," (elems.map fun e =>
        match e with
        | .nul => ""
        | _ => jsToStringF fuel e)
  | _ + 1, .obj _ => "[object Object]"

/-- JavaScript string coercion of a value.  The fixed fuel bounds only
the rendering depth of nested arrays: a document with arrays nested more
than 1000 levels deep would render the deeper levels as the empty string.
The engine uses this coercion for violation message interpolation and for
regex coercion of non-string scalars; no proved statement depends on the
rendering of such pathological nesting. -/
def jsToString (j : Json) : String := jsToStringF 1000 j

/-- JSON string escaping: quote, backslash and the common control
characters (`JSON.stringify` escapes other control characters as
`\uXXXX`; the engine's documents contain none of those). -/
def jsonEscapeChar (c : Char) : List Char :=
  if c = '"' then ['\\', '"']
  else if c = '\\' then ['\\', '\\']
  else if c = '\n' then ['\\', 'n']
  else if c = '\r' then ['\\', 'r']
  else if c = '\t' then ['\\', 't']
  else [c]

/-- `JSON.stringify` with a structural fuel argument; `none` means the
fuel did not cover the document's nesting depth (callers turn this into
divergence; any fuel at least the document depth succeeds).  No
indentation, insertion-order keys. -/
def jsonStringifyF : Nat → Json → Option String
  | 0, _ => none
  | _ + 1, .nul => some "null"
  | _ + 1, .bool true => some "true"
  | _ + 1, .bool false => some "false"
  | _ + 1, .num q => some (numToString q)
  | _ + 1, .str s => some (String.mk ('"' :: (s.data.flatMap jsonEscapeChar) ++ ['"']))
  | fuel + 1, .arr elems =>
      (elems.mapM fun e => jsonStringifyF fuel e).map
        (fun ss => "[" ++ String.intercalate "," ss ++ "]")
  | fuel + 1, .obj fields =>
      (fields.mapM fun f =>
        (jsonStringifyF fuel f.2).map
          (fun vs => String.mk ('"' :: (f.1.data.flatMap jsonEscapeChar) ++ ['"', ':']) ++ vs)).map
        (fun ss => "\x7b" ++ String.intercalate "," ss ++ "\x7d")

/-! ### Regular-expression matchers of the Miscellaneous rule

`SEMVER_REGEX` and `URL_REGEX` (src/scoring-engine/rules/misc-rule.ts)
are hand-compiled to character-list matchers; each definition's doc
comment gives the original pattern. -/

/-- Split a character list at the first occurrence of `sep`; `none` when
`sep` does not occur. -/
def splitFirst (sep : Char) : List Char → Option (List Char × List Char)
  | [] => none
  | c :: rest =>
      if c = sep then some ([], rest)
      else (splitFirst sep rest).map (fun p => (c :: p.1, p.2))

/-- A numeral without leading zeros: `0|[1-9]\d*`. -/
def isNumericNoLeadingZero (cs : List Char) : Bool :=
  cs ≠ [] ∧ cs.all Char.isDigit ∧ (cs = ['0'] ∨ cs.head? ≠ some '0')

/-- A semver pre-release identifier:
`0|[1-9]\d*|\d*[a-zA-Z-][0-9a-zA-Z-]*`, i.e. a non-empty word over
`[0-9a-zA-Z-]` that either contains a non-digit or is a numeral without
leading zeros. -/
def isSemverPreId (cs : List Char) : Bool :=
  cs ≠ [] ∧ cs.all (fun c => c.isAlphanum ∨ c = '-') ∧
    (¬ cs.all Char.isDigit ∨ cs = ['0'] ∨ cs.head? ≠ some '0')

/-- A semver build identifier: `[0-9a-zA-Z-]+`. -/
def isSemverBuildId (cs : List Char) : Bool :=
  cs ≠ [] ∧ cs.all (fun c => c.isAlphanum ∨ c = '-')

/-- `SEMVER_REGEX.test`: the pattern
`^(0|[1-9]\d*)\.(0|[1-9]\d*)\.(0|[1-9]\d*)`
`(?:-(ids))?(?:\+(ids))?$` with dot-separated pre-release/build
identifiers.  The version core cannot contain `-` or `+` and pre-release
identifiers cannot contain `+`, so splitting at the first `+` and then at
the first `-` reproduces the regex's backtracking behaviour. -/
def semverTest (s : String) : Bool :=
  let (core1, buildPart) :=
    match splitFirst '+' s.data with
    | some (a, b) => (a, some b)
    | none => (s.data, none)
  let (verPart, prePart) :=
    match splitFirst '-' core1 with
    | some (a, b) => (a, some b)
    | none => (core1, none)
  (match splitOnChar '.' verPart with
    | [ma, mi, pa] =>
        isNumericNoLeadingZero ma && isNumericNoLeadingZero mi &&
          isNumericNoLeadingZero pa
    | _ => false) &&
  (match prePart with
    | none => true
    | some pre => (splitOnChar '.' pre).all isSemverPreId) &&
  (match buildPart with
    | none => true
    | some b => (splitOnChar '.' b).all isSemverBuildId)

/-- The JavaScript `\s` class (ASCII plus the Unicode spaces). -/
def isJsWhitespace (c : Char) : Bool :=
  isJsSpace c ∨ c = ' ' ∨ c = ' ' ∨
    (' ' ≤ c ∧ c ≤ ' ') ∨ c = ' ' ∨ c = ' ' ∨
    c = ' ' ∨ c = ' ' ∨ c = '　' ∨ c = '﻿'

/-- JavaScript line terminators (which `.` does not match). -/
def jsLineTerminator (c : Char) : Bool :=
  c = '\n' ∨ c = '\r' ∨ c = ' ' ∨ c = ' '

/-- After an absolute-URL prefix, `URL_REGEX` requires
`[^\s/$.?#].[^\s]*$`: one character outside that class, one character
that is not a line terminator, then only non-whitespace to the end. -/
def urlAfterScheme : List Char → Bool
  | c1 :: c2 :: rest =>
      !(isJsWhitespace c1) && !(c1 = '/' ∨ c1 = '$' ∨ c1 = '.' ∨ c1 = '?' ∨ c1 = '#' : Bool) &&
        !(jsLineTerminator c2) && rest.all (fun c => !(isJsWhitespace c))
  | _ => false

/-- `URL_REGEX.test`: the case-insensitive pattern
`^(https?:\/\/|urn:)[^\s/$.?#].[^\s]*$|^\/[^\s]*$`. -/
def urlTest (s : String) : Bool :=
  let cs := s.data
  let lower := cs.map Char.toLower
  (List.isPrefixOf "http://".data lower && urlAfterScheme (cs.drop 7)) ||
  (List.isPrefixOf "https://".data lower && urlAfterScheme (cs.drop 8)) ||
  (List.isPrefixOf "urn:".data lower && urlAfterScheme (cs.drop 4)) ||
  (match cs with
    | '/' :: rest => rest.all (fun c => !(isJsWhitespace c))
    | _ => false)

/-- Structural value comparison with a depth bound, standing in for
JavaScript SameValueZero as used by `Set`/`Map` keys.  For the primitive
keys the engine actually stores (tag names, scheme names) this is exact;
JavaScript would compare object keys by identity instead. -/
def jsSameValueF : Nat → Json → Json → Bool
  | 0, _, _ => false
  | _ + 1, .nul, .nul => true
  | _ + 1, .bool a, .bool b => a = b
  | _ + 1, .num a, .num b => a = b
  | _ + 1, .str a, .str b => a = b
  | fuel + 1, .arr as, .arr bs =>
      as.length = bs.length ∧ (as.zip bs).all (fun p => jsSameValueF fuel p.1 p.2)
  | fuel + 1, .obj as, .obj bs =>
      as.length = bs.length ∧
        (as.zip bs).all (fun p => p.1.1 = p.2.1 ∧ jsSameValueF fuel p.1.2 p.2.2)
  | _ + 1, _, _ => false

/-- Depth-bounded SameValueZero (see `jsSameValueF`). -/
def jsSameValue (a b : Json) : Bool := jsSameValueF 1000 a b

/-- `Set.prototype.add` over an insertion-ordered key list. -/
def setAdd (s : List Json) (v : Json) : List Json :=
  if s.any (fun x => jsSameValue x v) then s else s ++ [v]

/-- `Set.prototype.has`. -/
def setHas (s : List Json) (v : Json) : Bool := s.any (fun x => jsSameValue x v)

/-- Optional chaining `base?.k`: `undefined` when the base is `null` or
`undefined`, an ordinary (never-throwing) property read otherwise. -/
def jsOptChain (j : Option Json) (k : String) : Option Json :=
  match j with
  | none => none
  | some .nul => none
  | some v => v.getProp k

/-- Property read on an optional value that is known non-null (JavaScript
`a.b` where `a` may be `undefined` only through our `Option`): `none`
stays `none`. -/
def jsGetOpt (j : Option Json) (k : String) : Option Json :=
  match j with
  | none => none
  | some v => v.getProp k

/-- Truthiness of a possibly-absent value (`undefined` is falsy). -/
def jsTruthyOpt (j : Option Json) : Bool :=
  match j with
  | none => false
  | some v => v.truthy

/-- Template-literal rendering of a possibly-absent value (`undefined`
renders as the string `undefined`). -/
def jsToStringU (j : Option Json) : String :=
  match j with
  | none => "undefined"
  | some v => jsToString v

/-- The `length` property of a value as a number, when it has one. -/
def jsLengthNum (j : Json) : Option ℚ :=
  match j with
  | .arr elems => some elems.length
  | .str s => some s.length
  | _ => none

/-- Violation constructor without an operation field (most rule code
builds object literals of this shape). -/
def mkViolation (path location message : String) (severity : Severity)
    (suggestion : String) : RuleViolation :=
  { path := path, location := location, message := message,
    severity := severity, suggestion := suggestion }

/-- Violation constructor with an operation field. -/
def mkViolationOp (path operation location message : String)
    (severity : Severity) (suggestion : String) : RuleViolation :=
  { path := path, operation := some operation, location := location,
    message := message, severity := severity, suggestion := suggestion }

/-- HTTP method names recognised by the engine. -/
def httpMethods : List String :=
  ["get", "post", "put", "delete", "patch", "options", "head", "trace"]

/-! ### `MiscellaneousBestPracticesRule`
(src/scoring-engine/rules/misc-rule.ts) -/

namespace MiscRule

/-- `checkVersioning`: a point for `info.version` being present and a
point for semantic-version format; otherwise a warning (missing) or an
info (non-semver format). -/
def checkVersioning (spec : Json) (violations : List RuleViolation) :
    List RuleViolation × ℚ × ℚ :=
  let maxScore : ℚ := 2
  let version? := jsOptChain (spec.getProp "info") "version"
  if jsTruthyOpt version? then
    let v := jsToStringU version?
    if semverTest v then (violations, 2, maxScore)
    else
      (violations ++ [mkViolation "" "info.version"
        ("API version '" ++ v ++ "' is not in a standard semantic version format.")
        .info "Use semantic versioning (e.g., 1.0.0, 2.1.0-beta)."], 1, maxScore)
  else
    (violations ++ [mkViolation "" "info.version"
      "API version (`info.version`) is missing."
      .warning "Define the API version in `info.version`."], 0, maxScore)

/-- One `servers.forEach` body of `checkServers`: flag an invalid or
missing URL (warning) and a missing description (info). -/
def checkServerEntry (st : List RuleViolation × Bool) (p : Nat × Json) :
    List RuleViolation × Bool :=
  let (violations, allUrlsValidAndDescribed) := st
  let (index, server) := p
  let url? := jsGetOpt (some server) "url"
  let urlOk := jsTruthyOpt url? && urlTest (jsToStringU url?)
  let (violations2, allValid2) :=
    if !urlOk then
      (violations ++ [mkViolation "" ("servers[" ++ toString index ++ "].url")
        ("Server URL '" ++ (if jsTruthyOpt url? then jsToStringU url? else "") ++
          "' is invalid or missing.")
        .warning "Ensure server URLs are valid (e.g., https://api.example.com/v1, /api/v1)."],
        false)
    else (violations, allUrlsValidAndDescribed)
  if !(jsTruthyOpt (jsGetOpt (some server) "description")) then
    (violations2 ++ [mkViolation "" ("servers[" ++ toString index ++ "]")
      ("Server at URL '" ++ jsToStringU url? ++ "' is missing a description.")
      .info "Add a description for each server (e.g., \"Production\", \"Staging\")."],
      allValid2)
  else (violations2, allValid2)

/-- `checkServers`: a point for a non-empty `servers` array and a point
when every server URL is valid; iterating a truthy non-array value with
a positive `length` throws. -/
def checkServers (spec : Json) (violations : List RuleViolation) :
    JsOut (List RuleViolation × ℚ × ℚ) :=
  let maxScore : ℚ := 2
  let servers? := spec.getProp "servers"
  let hasServers :=
    jsTruthyOpt servers? &&
      (match servers? with
        | some sv =>
            (match jsLengthNum sv with
              | some n => decide (0 < n)
              | none => false)
        | none => false)
  if hasServers then
    match servers? with
    | some (Json.arr elems) =>
        let st := elems.enum.foldl checkServerEntry (violations, true)
        let score : ℚ := 1 +
          (if st.2 then
            (if elems.all (fun s =>
                jsTruthyOpt (jsGetOpt (some s) "url") &&
                  urlTest (jsToStringU (jsGetOpt (some s) "url")))
             then 1 else 0)
           else 0)
        .ok (st.1, score, maxScore)
    | _ => .err
  else
    .ok (violations ++ [mkViolation "" "servers"
      "The `servers` array is missing or empty."
      .warning "Define at least one server URL for the API."], 0, maxScore)

/-- `Map.prototype.set` on an insertion-ordered key list (value payloads
are not consulted by the rule, so only keys are tracked). -/
def mapSetKey (keys : List Json) (k : Json) : List Json :=
  if keys.any (fun x => jsSameValue x k) then keys else keys ++ [k]

/-- The defined-tags pass of `checkTags`: collect named tags and whether
every defined tag has a description. -/
def collectDefinedTags (tags : List Json) : List Json × Bool :=
  tags.foldl
    (fun st tag =>
      let (definedTags, allDescribed) := st
      let definedTags :=
        if jsTruthyOpt (jsGetOpt (some tag) "name") then
          mapSetKey definedTags ((jsGetOpt (some tag) "name").getD Json.nul)
        else definedTags
      let allDescribed :=
        if !(jsTruthyOpt (jsGetOpt (some tag) "description")) then false
        else allDescribed
      (definedTags, allDescribed))
    ([], true)

/-- The used-tags pass of `checkTags`: walk every path item value and
collect the tags of every operation-shaped member (`operation.tags` an
array), recording whether any such member exists. -/
def collectUsedTags (spec : Json) : List Json × Bool :=
  match spec.getProp "paths" with
  | some paths =>
      if paths.truthy then
        (jsValues paths).foldl
          (fun st pathItem =>
            if !pathItem.truthy then st
            else
              (jsValues pathItem).foldl
                (fun st2 op =>
                  let (used, operationsExist) := st2
                  if op.truthy then
                    match op.getProp "tags" with
                    | some (Json.arr tagList) =>
                        if (Json.arr tagList).truthy then
                          (tagList.foldl setAdd used, true)
                        else (used, operationsExist)
                    | _ => (used, operationsExist)
                  else (used, operationsExist))
                st)
          ([], false)
      else ([], false)
  | none => ([], false)

/-- `checkTags`: points for defining tags, describing all defined tags,
and actually using tags; warnings for used-but-undefined tags and infos
for defined-but-unused or absent tags. -/
def checkTags (spec : Json) (violations : List RuleViolation) :
    JsOut (List RuleViolation × ℚ × ℚ) :=
  let maxScore : ℚ := 3
  let tags? := spec.getProp "tags"
  let hasTags :=
    jsTruthyOpt tags? &&
      (match tags? with
        | some tv =>
            (match jsLengthNum tv with
              | some n => decide (0 < n)
              | none => false)
        | none => false)
  let defStep : JsOut (List Json × ℚ) :=
    if hasTags then
      match tags? with
      | some (Json.arr tagList) =>
          let (definedTags, allDescribed) := collectDefinedTags tagList
          .ok (definedTags, if allDescribed then 2 else 1)
      | _ => .err
    else .ok ([], 0)
  JsOut.bind defStep (fun def2 =>
    let (definedTags, score12) := def2
    let (usedTagsInOps, operationsExist) := collectUsedTags spec
    if operationsExist ∧ usedTagsInOps.length > 0 then
      let violations2 := usedTagsInOps.foldl
        (fun vs usedTag =>
          if !(setHas definedTags usedTag) then
            vs ++ [mkViolation "" "operation.tags / spec.tags"
              ("Tag '" ++ jsToString usedTag ++
                "' is used in an operation but not defined in the root `tags` array.")
              .warning ("Define tag '" ++ jsToString usedTag ++ "' in the root `tags` array.")]
          else vs)
        violations
      .ok (violations2, max 0 (min (score12 + 1) maxScore), maxScore)
    else if operationsExist ∧ definedTags.length > 0 ∧ usedTagsInOps.length = 0 then
      .ok (violations ++ [mkViolation "" "operations"
        "Tags are defined, but no operations use them."
        .info "Assign defined tags to operations for organization."],
        max 0 (min score12 maxScore), maxScore)
    else if operationsExist ∧ definedTags.length = 0 then
      .ok (violations ++ [mkViolation "" "spec.tags / operations"
        "Operations exist but no tags are defined or used. Consider using tags."
        .info "Define and use tags for better API organization."],
        max 0 (min score12 maxScore), maxScore)
    else .ok (violations, max 0 (min score12 maxScore), maxScore))

/-- `checkComponentsReuse` (the sub-check C9 is about): one point for a
non-empty components section; the second point requires the serialized
document to contain the text `"\$ref"` — with a literal backslash — which
`JSON.stringify` output never contains, so the branch checks
`specString.includes('"\\$ref"')` exactly as written in the source. -/
def checkComponentsReuse (fuel : Nat) (spec : Json) (violations : List RuleViolation) :
    JsOut (List RuleViolation × ℚ × ℚ) :=
  let maxScore : ℚ := 2
  let componentsDefined :=
    match spec.getProp "components" with
    | some comps =>
        comps.truthy && (jsEntries comps).any (fun kv =>
          kv.2.truthy && decide ((jsKeys kv.2).length > 0))
    | none => false
  let score1 : ℚ := if componentsDefined then 1 else 0
  match jsonStringifyF fuel spec with
  | none => .diverge
  | some specString =>
      if jsIncludes specString "\"\\$ref\"" then
        .ok (violations, score1 + 1, maxScore)
      else
        let pathsOrEmpty :=
          match spec.getProp "paths" with
          | some p => if p.truthy then p else Json.obj []
          | none => Json.obj []
        let numPaths := (jsKeys pathsOrEmpty).length
        if numPaths ≥ 5 then
          if componentsDefined then
            .ok (violations ++ [mkViolation "" "components / various"
              "Components are defined, but no `$ref` keywords were found, suggesting they might not be reused."
              .info "Use `$ref` to reference items from `components` for reusability."],
              score1, maxScore)
          else
            .ok (violations ++ [mkViolation "" "components"
              "API has several paths but does not define or use reusable components."
              .info "Define reusable schemas, responses, parameters, etc., in the `components` section."],
              score1, maxScore)
        else .ok (violations, score1, maxScore)

/-- `checkInfoCompleteness`: a point for non-empty contact details and a
point for a license name. -/
def checkInfoCompleteness (spec : Json) (violations : List RuleViolation) :
    List RuleViolation × ℚ × ℚ :=
  let maxScore : ℚ := 2
  let contact? := jsOptChain (spec.getProp "info") "contact"
  let contactOk :=
    jsTruthyOpt contact? &&
      (jsTruthyOpt (jsGetOpt contact? "name") ||
        jsTruthyOpt (jsGetOpt contact? "email") ||
        jsTruthyOpt (jsGetOpt contact? "url"))
  let (violations, score1) :=
    if contactOk then (violations, (1 : ℚ))
    else
      (violations ++ [mkViolation "" "info.contact"
        "Contact information (`info.contact`) is missing or empty."
        .info "Add contact details (name, email, or URL) to `info.contact`."], 0)
  let license? := jsOptChain (spec.getProp "info") "license"
  let licenseOk :=
    jsTruthyOpt license? && jsTruthyOpt (jsGetOpt license? "name")
  if licenseOk then (violations, score1 + 1, maxScore)
  else
    (violations ++ [mkViolation "" "info.license"
      "License information (`info.license.name`) is missing."
      .info "Add license details (at least `name`) to `info.license`."], score1, maxScore)

/-- State of the `checkOperationIds` scan: collected ids, whether all
operations had ids, whether a duplicate was found, the operation count,
and the violations. -/
structure OpIdScan where
  opIds : List String
  allOpsHaveId : Bool
  duplicateFound : Bool
  opCount : Nat
  violations : List RuleViolation

/-- One operation of `checkOperationIds`: a present, non-blank
`operationId` must be unique (duplicate is an error); a missing one is a
warning.  A truthy non-string `operationId` would throw on `.trim()`. -/
def scanOperationId (path method : String) (op : Json) (st : OpIdScan) :
    JsOut OpIdScan :=
  let oid? := jsGetOpt (some op) "operationId"
  if jsTruthyOpt oid? then
    match oid? with
    | some (Json.str oid) =>
        if jsTrim oid ≠ "" then
          if st.opIds.contains oid then
            let st2 := { st with duplicateFound := true }
            .ok { st2 with violations := st2.violations ++ [mkViolation path
                (path ++ "." ++ method ++ ".operationId")
                ("Duplicate operationId '" ++ oid ++ "'. Must be unique.")
                .error "Ensure all operationIds are unique."] }
          else .ok { st with opIds := st.opIds ++ [oid] }
        else
          let st2 := { st with allOpsHaveId := false }
          .ok { st2 with violations := st2.violations ++ [mkViolation path
              (path ++ "." ++ method)
              ("Operation " ++ jsToUpper method ++ " " ++ path ++ " is missing an `operationId`.")
              .warning "Add a unique `operationId` to each operation."] }
    | _ => .err
  else
    let st2 := { st with allOpsHaveId := false }
    .ok { st2 with violations := st2.violations ++ [mkViolation path
        (path ++ "." ++ method)
        ("Operation " ++ jsToUpper method ++ " " ++ path ++ " is missing an `operationId`.")
        .warning "Add a unique `operationId` to each operation."] }

/-- `checkOperationIds`: one point when every operation has an id, a
second when additionally no duplicates exist; full points when there are
no operations at all. -/
def checkOperationIds (spec : Json) (violations : List RuleViolation) :
    JsOut (List RuleViolation × ℚ × ℚ) :=
  let maxScore : ℚ := 2
  let initial : OpIdScan :=
    { opIds := [], allOpsHaveId := true, duplicateFound := false,
      opCount := 0, violations := violations }
  let scan : JsOut OpIdScan :=
    match spec.getProp "paths" with
    | some paths =>
        if paths.truthy then
          jsFoldM
            (fun st pv =>
              let (path, pathItem) := pv
              if !pathItem.truthy then .ok st
              else
                jsFoldM
                  (fun st2 mv =>
                    let (method, op) := mv
                    if httpMethods.contains (jsToLower method) then
                      scanOperationId path method op
                        { st2 with opCount := st2.opCount + 1 }
                    else .ok st2)
                  st (jsEntries pathItem))
            initial (jsEntries paths)
        else .ok initial
    | none => .ok initial
  JsOut.bind scan (fun st =>
    let score : ℚ :=
      if st.opCount > 0 then
        (if st.allOpsHaveId then 1 else 0) +
          (if !st.duplicateFound ∧ st.allOpsHaveId then 1 else 0)
      else maxScore
    .ok (st.violations, score, maxScore))

/-- `hasValidExternalDoc` of `checkExternalDocs`: a truthy
externalDocs object needs a valid `url`; an invalid one is flagged info. -/
def hasValidExternalDoc (doc? : Option Json) (loc : String)
    (violations : List RuleViolation) : List RuleViolation × Bool :=
  if jsTruthyOpt doc? then
    let url? := jsGetOpt doc? "url"
    if jsTruthyOpt url? ∧ urlTest (jsToStringU url?) then (violations, true)
    else
      (violations ++ [mkViolation "" loc
        ("ExternalDocumentation object at '" ++ loc ++ "' is missing a valid 'url'.")
        .info "Provide a valid 'url' for the external documentation."], false)
  else (violations, false)

/-- `checkExternalDocs`: one point for a valid `externalDocs.url` at the
root, tag, or operation level; a low-priority info suggestion when none
is present anywhere. -/
def checkExternalDocs (spec : Json) (violations : List RuleViolation) :
    JsOut (List RuleViolation × ℚ × ℚ) :=
  let maxScore : ℚ := 1
  let (violations, rootOk) :=
    hasValidExternalDoc (spec.getProp "externalDocs") "externalDocs" violations
  if rootOk then .ok (violations, 1, maxScore)
  else
    let tagStep : JsOut (List RuleViolation × Bool) :=
      match spec.getProp "tags" with
      | some tv =>
          if tv.truthy then
            match tv with
            | Json.arr tagList =>
                .ok (tagList.enum.foldl
                  (fun st p =>
                    let (vs, used) := st
                    let (i, tag) := p
                    let (vs2, ok2) := hasValidExternalDoc
                      (jsGetOpt (some tag) "externalDocs")
                      ("tags[" ++ toString i ++ "].externalDocs") vs
                    (vs2, used || ok2))
                  (violations, false))
            | _ => .err
          else .ok (violations, false)
      | none => .ok (violations, false)
    JsOut.bind tagStep (fun ts =>
      let (violations, usedElsewhere) := ts
      let (violations, usedElsewhere) :=
        match spec.getProp "paths" with
        | some paths =>
            if paths.truthy ∧ !usedElsewhere then
              (jsEntries paths).foldl
                (fun (st : List RuleViolation × Bool) (pv : String × Json) =>
                  let (vs, used) := st
                  let (path, pi) := pv
                  if !pi.truthy then (vs, used)
                  else
                    (jsEntries pi).foldl
                      (fun (st2 : List RuleViolation × Bool) (mv : String × Json) =>
                        let (vs2, used2) := st2
                        let (method, op) := mv
                        if op.truthy then
                          let (vs3, ok3) := hasValidExternalDoc
                            (jsGetOpt (some op) "externalDocs")
                            (path ++ "." ++ method ++ ".externalDocs") vs2
                          (vs3, used2 || ok3)
                        else (vs2, used2))
                      st)
                (violations, usedElsewhere)
            else (violations, usedElsewhere)
        | none => (violations, usedElsewhere)
      if usedElsewhere then .ok (violations, 1, maxScore)
      else
        let tagsHaveDocs : JsOut Bool :=
          match spec.getProp "tags" with
          | some .nul => .ok false
          | some (Json.arr tagList) =>
              .ok (tagList.any (fun t => jsTruthyOpt (jsGetOpt (some t) "externalDocs")))
          | some tv => if tv.truthy then .err else .ok false
          | none => .ok false
        JsOut.bind tagsHaveDocs (fun thd =>
          if !(jsTruthyOpt (spec.getProp "externalDocs")) ∧ !thd then
            .ok (violations ++ [mkViolation "" "spec"
              "Consider using `externalDocs` for links to additional documentation."
              .info "Use `externalDocs` at the root, tag, or operation level."], 0, maxScore)
          else .ok (violations, 0, maxScore)))

/-- `MiscellaneousBestPracticesRule.evaluate`: run the seven sub-checks,
rescale the achieved internal points to the rule's weight, and clamp to
`[0, weight]`.  The fuel bounds only `JSON.stringify`'s recursion depth
in the components-reuse check. -/
def evaluate (fuel : Nat) (spec : Json) : JsOut RuleResult :=
  let weight := CRITERIA_WEIGHTS_miscellaneous
  let r1 := checkVersioning spec []
  JsOut.bind (checkServers spec r1.1) (fun r2 =>
    JsOut.bind (checkTags spec r2.1) (fun r3 =>
      JsOut.bind (checkComponentsReuse fuel spec r3.1) (fun r4 =>
        let r5 := checkInfoCompleteness spec r4.1
        JsOut.bind (checkOperationIds spec r5.1) (fun r6 =>
          JsOut.bind (checkExternalDocs spec r6.1) (fun r7 =>
            let achievedInternalScore :=
              r1.2.1 + r2.2.1 + r3.2.1 + r4.2.1 + r5.2.1 + r6.2.1 + r7.2.1
            let maxInternalScore :=
              r1.2.2 + r2.2.2 + r3.2.2 + r4.2.2 + r5.2.2 + r6.2.2 + r7.2.2
            let pathsOrEmpty :=
              match spec.getProp "paths" with
              | some p => if p.truthy then p else Json.obj []
              | none => Json.obj []
            let finalScore : ℚ :=
              if 0 < maxInternalScore then
                jroundQ (achievedInternalScore / maxInternalScore * weight)
              else if (jsKeys pathsOrEmpty).length = 0 then weight
              else 0
            let finalScore := max 0 (min weight finalScore)
            .ok { score := finalScore, maxScore := weight, violations := r7.1 })))))

end MiscRule

/-- A simple path item with one GET operation returning a described 200
response (used to build concrete documents). -/
def simpleGetPath : Json :=
  Json.obj [("get", Json.obj [("responses", Json.obj [("200",
    Json.obj [("description", Json.str "OK")])])])]

/-- C9 failing input: components are defined, five paths exist, and one
response schema uses `$ref: '#/components/schemas/User'`, so the
serialized document contains `"$ref"`. -/
def specWithRefReuse : Json :=
  Json.obj [
    ("openapi", Json.str "3.0.0"),
    ("info", Json.obj [("title", Json.str "Test API"), ("version", Json.str "1.0.0")]),
    ("components", Json.obj [("schemas", Json.obj [("User",
      Json.obj [("type", Json.str "object"),
        ("properties", Json.obj [("id", Json.obj [("type", Json.str "string")])])])])]),
    ("paths", Json.obj [
      ("/users", Json.obj [("get", Json.obj [("responses", Json.obj [("200",
        Json.obj [("description", Json.str "OK"),
          ("content", Json.obj [("application/json", Json.obj [("schema",
            Json.obj [("$ref", Json.str "#/components/schemas/User")])])])])])])]),
      ("/products", simpleGetPath),
      ("/orders", simpleGetPath),
      ("/categories", simpleGetPath),
      ("/tags", simpleGetPath)])]

/-- C9: the code checks `specString.includes('"\\$ref"')` — a needle with
a literal backslash that `JSON.stringify` output cannot contain — so even
though the serialized document contains `"$ref"`, the second
components-reuse point is withheld (sub-check score 1 of 2) and the
info violation "Components are defined, but no `$ref` keywords were
found…" is emitted, contradicting the source's own comment
(`// Point for using $ref, indicating reuse`) and the violation text. -/
theorem misc_components_reuse_dollar_ref_bug :
    (∃ s : String, jsonStringifyF 100 specWithRefReuse = some s ∧
      jsIncludes s "\"$ref\"" = true) ∧
    MiscRule.checkComponentsReuse 100 specWithRefReuse [] =
      .ok ([mkViolation "" "components / various"
        "Components are defined, but no `$ref` keywords were found, suggesting they might not be reused."
        .info "Use `$ref` to reference items from `components` for reusability."], 1, 2) := by
  exact ⟨⟨_, rfl, rfl⟩, rfl⟩

/-- Whether a value is JSON `null`. -/
def Json.isNull : Json → Bool
  | .nul => true
  | _ => false

/-! ### `SecurityRule` (src/scoring-engine/rules/security-rule.ts) -/

namespace SecurityRule

/-- The mutating HTTP methods. -/
def MUTATING_METHODS : List String := ["post", "put", "patch", "delete"]

/-- `getDefinedSchemes`: the keys of `components.securitySchemes` when
that section is truthy. -/
def getDefinedSchemes (spec : Json) : List String :=
  match jsOptChain (spec.getProp "components") "securitySchemes" with
  | some v => if v.truthy then jsKeys v else []
  | none => []

/-- Insertion-ordered string-set insert. -/
def addName (s : List String) (n : String) : List String :=
  if s.contains n then s else s ++ [n]

/-- State of `analyzeOperations`. -/
structure OpAnalysis where
  hasMutatingOperations : Bool
  potentialSecurityPoints : Nat
  securedPoints : Nat
  mutatingOperationsSecured : Nat
  operationsCheckedForSecurity : Nat
  referenced : List String
  violations : List RuleViolation

/-- Collect the scheme names of one security-requirement list into the
referenced set (`secReq => Object.keys(secReq).forEach(add)`). -/
def addSecReqNames (referenced : List String) (reqs : List Json) : List String :=
  reqs.foldl (fun acc secReq => (jsKeys secReq).foldl addName acc) referenced

/-- One operation of `analyzeOperations`: classify its security setting
(`security !== undefined` distinguishes an explicit empty list from
inheritance), record points for secured mutating operations, and flag
unsecured or explicitly-unsecured mutating operations.  A truthy
`security` value without `forEach` (a non-empty string, a number, a
boolean or a plain object) throws. -/
def analyzeOperation (spec : Json) (path method : String) (op : Json)
    (st : OpAnalysis) : JsOut OpAnalysis :=
  let operationLocation := path ++ "." ++ method
  let st := { st with operationsCheckedForSecurity := st.operationsCheckedForSecurity + 1 }
  let isMutating := MUTATING_METHODS.contains (jsToLower method)
  let st :=
    if isMutating then
      let stm := { st with hasMutatingOperations := true }
      { stm with potentialSecurityPoints := stm.potentialSecurityPoints + 1 }
    else st
  let secured? : JsOut (OpAnalysis × Bool) :=
    match jsGetOpt (some op) "security" with
    | some sec =>
        if sec.isNull || (match jsLengthNum sec with
            | some n => decide (n = 0)
            | none => false) then
          if isMutating then
            .ok ({ st with violations := st.violations ++ [mkViolation path
              operationLocation
              ("Mutating operation " ++ jsToUpper method ++ " " ++ path ++
                " explicitly disables security (security: []).")
              .warning
              "Ensure this is intentional. Mutating operations should typically be secured."] },
              false)
          else .ok (st, false)
        else
          match sec with
          | Json.arr reqs =>
              .ok ({ st with referenced := addSecReqNames st.referenced reqs }, true)
          | _ => .err
    | none =>
        match spec.getProp "security" with
        | some gsec =>
            if gsec.truthy && (match jsLengthNum gsec with
                | some n => decide (0 < n)
                | none => false) then
              .ok (st, true)
            else .ok (st, false)
        | none => .ok (st, false)
  JsOut.bind secured? (fun p =>
    let (st, operationIsSecured) := p
    if isMutating then
      if operationIsSecured then
        let sts := { st with securedPoints := st.securedPoints + 1 }
        .ok { sts with mutatingOperationsSecured := sts.mutatingOperationsSecured + 1 }
      else if (getDefinedSchemes spec).length > 0 then
        .ok { st with violations := st.violations ++ [mkViolation path
          operationLocation
          ("Mutating operation " ++ jsToUpper method ++ " " ++ path ++
            " is not secured, but security schemes are defined.")
          .warning
          "Apply a security requirement to this operation or define global security."] }
      else .ok st
    else .ok st)

/-- `analyzeOperations`: collect globally referenced schemes, then scan
every operation of every path. -/
def analyzeOperations (spec : Json) : JsOut OpAnalysis :=
  let initial : OpAnalysis :=
    { hasMutatingOperations := false, potentialSecurityPoints := 0,
      securedPoints := 0, mutatingOperationsSecured := 0,
      operationsCheckedForSecurity := 0, referenced := [], violations := [] }
  let globalStep : JsOut OpAnalysis :=
    match spec.getProp "security" with
    | some gsec =>
        if gsec.truthy then
          match gsec with
          | Json.arr reqs => .ok { initial with referenced := addSecReqNames [] reqs }
          | _ => .err
        else .ok initial
    | none => .ok initial
  JsOut.bind globalStep (fun st0 =>
    match spec.getProp "paths" with
    | some paths =>
        if paths.truthy then
          jsFoldM
            (fun st pv =>
              let (path, pathItem) := pv
              if !pathItem.truthy then .ok st
              else
                jsFoldM
                  (fun st2 mv =>
                    let (method, op) := mv
                    if httpMethods.contains method then
                      analyzeOperation spec path method op st2
                    else .ok st2)
                  st (jsEntries pathItem))
            st0 (jsEntries paths)
        else .ok st0
    | none => .ok st0)

/-- `validateReferencedSchemes`: every referenced scheme must be defined
in `components.securitySchemes` (error otherwise). -/
def validateReferencedSchemes (definedSchemes referenced : List String)
    (violations : List RuleViolation) : List RuleViolation :=
  referenced.foldl
    (fun vs schemeName =>
      if !definedSchemes.contains schemeName then
        vs ++ [mkViolation "" "components.securitySchemes / security definitions"
          ("Security scheme '" ++ schemeName ++
            "' is referenced but not defined in components.securitySchemes.")
          .error
          ("Define '" ++ schemeName ++ "' in components.securitySchemes or remove the reference.")]
      else vs)
    violations

/-- `checkUnusedDefinedSchemes`: a defined-but-never-referenced scheme is
an info. -/
def checkUnusedDefinedSchemes (definedSchemes referenced : List String)
    (violations : List RuleViolation) : List RuleViolation :=
  definedSchemes.foldl
    (fun vs schemeName =>
      if !referenced.contains schemeName then
        vs ++ [mkViolation "" ("components.securitySchemes." ++ schemeName)
          ("Security scheme '" ++ schemeName ++ "' is defined but never referenced.")
          .info
          "Remove the unused security scheme or apply it to operations/globally."]
      else vs)
    violations

/-- `checkMissingSecuritySchemes`: mutating operations with no schemes
defined anywhere is an error. -/
def checkMissingSecuritySchemes (hasMutatingOperations : Bool)
    (definedSchemes : List String) (violations : List RuleViolation) :
    List RuleViolation :=
  if hasMutatingOperations ∧ definedSchemes.length = 0 then
    violations ++ [mkViolation "" "components.securitySchemes / security"
      "API has mutating operations but no security schemes are defined."
      .error
      "Define security schemes in components.securitySchemes and apply them to mutating operations or globally."]
  else violations

/-- The rule's private `calculateScore` (lines 235-282): halve the weight
per error; otherwise score the secured share of mutating operations, with
special cases for no security surface and for defined-but-unused schemes;
penalise warnings by 10% of the weight each when no errors exist; round
and clamp to `[0, weight]`. -/
def calcScore (violations : List RuleViolation)
    (potentialSecurityPoints securedPoints : Nat)
    (hasMutatingOperations : Bool) (definedSchemes : List String)
    (mutatingOperationsSecured operationsCheckedForSecurity : Nat) : ℚ :=
  let weight := CRITERIA_WEIGHTS_security
  let score := weight
  let hasError := violations.any (fun v => v.severity = .error)
  let score :=
    if hasError then
      max 0 (weight -
        ((violations.filter (fun v => v.severity = .error)).length : ℚ) * (weight / 2))
    else if potentialSecurityPoints > 0 then
      jroundQ ((securedPoints : ℚ) / (potentialSecurityPoints : ℚ) * weight)
    else if !hasMutatingOperations ∧ definedSchemes.length = 0 then
      weight
    else if hasMutatingOperations ∧ definedSchemes.length > 0 ∧
        mutatingOperationsSecured = 0 ∧ operationsCheckedForSecurity > 0 then
      max 0 (weight / 3)
    else score
  let score :=
    if !hasError ∧ violations.any (fun v => v.severity = .warning) then
      let warningPenalty :=
        ((violations.filter (fun v => v.severity = .warning)).length : ℚ) * (weight * (1 / 10))
      max 0 (score - warningPenalty)
    else score
  jroundQ (max 0 (min weight score))

/-- `SecurityRule.evaluate`. -/
def evaluate (spec : Json) : JsOut RuleResult :=
  let definedSchemes := getDefinedSchemes spec
  JsOut.bind (analyzeOperations spec) (fun a =>
    let violations := a.violations
    let violations := validateReferencedSchemes definedSchemes a.referenced violations
    let violations := checkUnusedDefinedSchemes definedSchemes a.referenced violations
    let violations := checkMissingSecuritySchemes a.hasMutatingOperations definedSchemes violations
    let score := calcScore violations a.potentialSecurityPoints a.securedPoints
      a.hasMutatingOperations definedSchemes a.mutatingOperationsSecured
      a.operationsCheckedForSecurity
    .ok { score := score, maxScore := CRITERIA_WEIGHTS_security, violations := violations })

end SecurityRule

/-- Resolve a possibly-`$ref` node as the helper-function resolvers do
(`'$ref' in x ? resolveReference(x.$ref, spec) : x`): the `in` test
throws on a primitive receiver, and a non-string `$ref` value throws at
`startsWith`. -/
def resolveMaybeRef (x : Json) (spec : Json) : JsOut (Option Json) :=
  match x with
  | .obj fields =>
      if (Json.obj fields).hasProp "$ref" = some true then
        match (Json.obj fields).getProp "$ref" with
        | some (.str r) => resolveReference r spec
        | some _ => .err
        | none => .err
      else .ok (some (Json.obj fields))
  | .arr elems => .ok (some (Json.arr elems))
  | _ => .err

/-! ### `ExamplesSamplesRule` (src/scoring-engine/rules/examples-rule.ts) -/

namespace ExamplesRule

/-- `hasExample`: the media-type object has an `example` property (even a
falsy one) or a non-empty `examples` map. -/
def hasExample (mediaTypeObject : Json) : Bool :=
  (mediaTypeObject.getProp "example").isSome ||
    ((mediaTypeObject.getProp "examples").isSome &&
      decide (0 < (jsKeys ((mediaTypeObject.getProp "examples").getD Json.nul)).length))

/-- `hasParameterExample` (same shape as `hasExample`). -/
def hasParameterExample (parameterObject : Json) : Bool :=
  (parameterObject.getProp "example").isSome ||
    ((parameterObject.getProp "examples").isSome &&
      decide (0 < (jsKeys ((parameterObject.getProp "examples").getD Json.nul)).length))

/-- Scan state: elements checked, elements with examples, violations. -/
structure Scan where
  checked : Nat
  withExamples : Nat
  violations : List RuleViolation

/-- `checkRequestBodyExamples`: resolve the request body and check each
content media type for an example (warning when absent). -/
def checkRequestBodyExamples (operation spec : Json)
    (operationLocation path : String) (st : Scan) : JsOut Scan :=
  JsOut.bind (resolveMaybeRef ((operation.getProp "requestBody").getD Json.nul) spec)
    (fun rb? =>
      let content? := jsOptChain rb? "content"
      if jsTruthyOpt content? then
        .ok ((jsEntries (content?.getD Json.nul)).foldl
          (fun st2 mv =>
            let (mediaType, mediaTypeObject) := mv
            let ok := hasExample mediaTypeObject
            { checked := st2.checked + 1,
              withExamples := st2.withExamples + (if ok then 1 else 0),
              violations :=
                if !ok then
                  st2.violations ++ [mkViolation path
                    (operationLocation ++ ".requestBody.content." ++ mediaType)
                    ("Request body for " ++ mediaType ++ " is missing an example.")
                    .warning
                    "Add an `example` or `examples` field to the request body content."]
                else st2.violations })
          st)
      else .ok st)

/-- `checkResponseExamples`: for every 2xx response, resolve it and check
each content media type for an example (warning when absent). -/
def checkResponseExamples (operation spec : Json)
    (operationLocation path : String) (st : Scan) : JsOut Scan :=
  jsFoldM
    (fun st2 rv =>
      let (statusCode, responseOrRef) := rv
      if !(jsStartsWith statusCode "2") then .ok st2
      else
        JsOut.bind (resolveMaybeRef responseOrRef spec) (fun resp? =>
          let content? := jsOptChain resp? "content"
          if jsTruthyOpt content? then
            .ok ((jsEntries (content?.getD Json.nul)).foldl
              (fun st3 mv =>
                let (mediaType, mediaTypeObject) := mv
                let ok := hasExample mediaTypeObject
                { checked := st3.checked + 1,
                  withExamples := st3.withExamples + (if ok then 1 else 0),
                  violations :=
                    if !ok then
                      st3.violations ++ [mkViolation path
                        (operationLocation ++ ".responses." ++ statusCode ++
                          ".content." ++ mediaType)
                        ("Response body for status " ++ statusCode ++ " (" ++ mediaType ++
                          ") is missing an example.")
                        .warning
                        "Add an `example` or `examples` field to the response body content."]
                    else st3.violations })
              st2)
          else .ok st2))
    st (jsEntries ((operation.getProp "responses").getD Json.nul))

/-- `checkParameterExamples`: each resolvable parameter must carry an
example (info when absent); `parameters` must be an array
(`.entries()`). -/
def checkParameterExamples (operation spec : Json)
    (operationLocation path : String) (st : Scan) : JsOut Scan :=
  match (operation.getProp "parameters").getD Json.nul with
  | .arr params =>
      jsFoldM
        (fun st2 ip =>
          let (index, paramOrRef) := ip
          JsOut.bind (resolveMaybeRef paramOrRef spec) (fun param? =>
            if !(jsTruthyOpt param?) then .ok st2
            else
              let name? := jsGetOpt param? "name"
              let paramName :=
                if jsTruthyOpt name? then jsToStringU name?
                else "param_at_index_" ++ toString index
              let ok := hasParameterExample (param?.getD Json.nul)
              .ok { checked := st2.checked + 1,
                    withExamples := st2.withExamples + (if ok then 1 else 0),
                    violations :=
                      if !ok then
                        st2.violations ++ [mkViolation path
                          (operationLocation ++ ".parameters." ++ paramName)
                          ("Parameter '" ++ paramName ++ "' is missing an example.")
                          .info
                          "Add an `example` or `examples` field to the parameter definition."]
                      else st2.violations }))
        st params.enum
  | _ => .err

/-- `ExamplesSamplesRule.evaluate`: proportion of checked elements
(request-body media types of POST/PUT/PATCH, 2xx response media types,
parameters) that carry examples, scaled to the weight and clamped; full
weight when nothing requires an example or the document has no paths. -/
def evaluate (spec : Json) : JsOut RuleResult :=
  let weight := CRITERIA_WEIGHTS_examples
  if !(jsTruthyOpt (spec.getProp "paths")) then
    .ok { score := weight, maxScore := weight, violations := [] }
  else
    let scan : JsOut Scan :=
      jsFoldM
        (fun st pv =>
          let (path, pathItem) := pv
          if !pathItem.truthy then .ok st
          else
            jsFoldM
              (fun st2 mv =>
                let (method, operation) := mv
                if httpMethods.contains method then
                  let operationLocation := path ++ "." ++ method
                  let step1 : JsOut Scan :=
                    if jsTruthyOpt (operation.getProp "requestBody") ∧
                        ["post", "put", "patch"].contains (jsToLower method) then
                      checkRequestBodyExamples operation spec operationLocation path st2
                    else .ok st2
                  JsOut.bind step1 (fun st3 =>
                    let step2 : JsOut Scan :=
                      if jsTruthyOpt (operation.getProp "responses") then
                        checkResponseExamples operation spec operationLocation path st3
                      else .ok st3
                    JsOut.bind step2 (fun st4 =>
                      if jsTruthyOpt (operation.getProp "parameters") then
                        checkParameterExamples operation spec operationLocation path st4
                      else .ok st4))
                else .ok st2)
              st (jsEntries pathItem))
        { checked := 0, withExamples := 0, violations := [] }
        (jsEntries ((spec.getProp "paths").getD Json.nul))
    JsOut.bind scan (fun st =>
      let score : ℚ :=
        if st.checked > 0 then
          jroundQ ((st.withExamples : ℚ) / (st.checked : ℚ) * weight)
        else weight
      let score := max 0 (min weight score)
      .ok { score := score, maxScore := weight, violations := st.violations })

end ExamplesRule

/-! ### `ResponseCodesRule`
(src/scoring-engine/rules/response-code-rule.ts) -/

namespace ResponseCodesRule

/-- `EXPECTED_STATUS_CODES[method].success`. -/
def expectedSuccessCodes (method : String) : List String :=
  if method = "get" then ["200", "206", "304"]
  else if method = "post" then ["200", "201", "202"]
  else if method = "put" then ["200", "201", "204"]
  else if method = "patch" then ["200", "204"]
  else if method = "delete" then ["200", "202", "204"]
  else if method = "head" then ["200", "304"]
  else if method = "options" then ["200", "204"]
  else if method = "trace" then ["200"]
  else []

/-- `EXPECTED_STATUS_CODES[method].error` (data held by the rule; only
the success lists feed any computation or message). -/
def expectedErrorCodes (method : String) : List String :=
  if method = "get" then ["400", "401", "403", "404", "406", "429", "500"]
  else if method = "post" then ["400", "401", "403", "404", "409", "413", "415", "422", "429", "500"]
  else if method = "put" then ["400", "401", "403", "404", "409", "412", "413", "415", "422", "429", "500"]
  else if method = "patch" then ["400", "401", "403", "404", "409", "412", "413", "415", "422", "429", "500"]
  else if method = "delete" then ["400", "401", "403", "404", "409", "429", "500"]
  else if method = "head" then ["400", "401", "403", "404", "429", "500"]
  else if method = "options" then ["400", "401", "403", "404", "429", "500"]
  else if method = "trace" then ["400", "401", "403", "404", "429", "500"]
  else []

/-- The `uncommonCodes` list of `checkStatusCodeValidity`. -/
def uncommonCodes : List String :=
  ["203", "205", "208", "226",
   "300", "305", "306", "307", "308",
   "402", "407", "408", "411", "414", "416", "417", "418", "421", "423",
   "424", "426", "428", "431", "451",
   "505", "506", "507", "508", "510", "511"]

/-- `checkSuccessCodes`: an error when no 2xx/`default` exists, a warning
when 2xx codes exist but none is conventional for the method. -/
def checkSuccessCodes (path method : String) (statusCodes : List String)
    (violations : List RuleViolation) : List RuleViolation × Bool :=
  let hasSuccessCode := statusCodes.any (fun code => jsStartsWith code "2" || code = "default")
  let expected := expectedSuccessCodes method
  let definedSuccessCodes := statusCodes.filter (fun code => jsStartsWith code "2")
  if !hasSuccessCode then
    (violations ++ [mkViolation path (path ++ "." ++ method ++ ".responses")
      (jsToUpper method ++ " operation is missing success response codes")
      .error
      ("Add appropriate success response codes (e.g., " ++
        String.intercalate ", " expected ++ ")")], true)
  else
    let hasAppropriate := definedSuccessCodes.any (fun code => expected.contains code)
    if definedSuccessCodes.length > 0 ∧ !hasAppropriate then
      (violations ++ [mkViolation path (path ++ "." ++ method ++ ".responses")
        (jsToUpper method ++ " operation has unusual success response codes")
        .warning
        ("Consider using standard success codes for " ++ jsToUpper method ++ ": " ++
          String.intercalate ", " expected)], true)
    else (violations, false)

/-- `checkClientErrorCodes`: warnings for a missing 4xx, missing 401/403
under security, missing 404 on parameterised resource methods, and
missing 400/422 for request bodies. -/
def checkClientErrorCodes (path method : String) (statusCodes : List String)
    (operation spec : Json) (violations : List RuleViolation) :
    List RuleViolation × Bool :=
  let hasClientError := statusCodes.any (fun code => jsStartsWith code "4")
  let (violations, hasIssues) :=
    if !hasClientError then
      (violations ++ [mkViolation path (path ++ "." ++ method ++ ".responses")
        (jsToUpper method ++ " operation is missing client error response codes")
        .warning "Add appropriate client error codes (e.g., 400, 401, 403, 404)"], true)
    else (violations, false)
  let secured :=
    (jsTruthyOpt (operation.getProp "security") &&
      (match jsLengthNum ((operation.getProp "security").getD Json.nul) with
        | some n => decide (0 < n)
        | none => false)) ||
    (jsTruthyOpt (spec.getProp "security") &&
      (match jsLengthNum ((spec.getProp "security").getD Json.nul) with
        | some n => decide (0 < n)
        | none => false))
  let (violations, hasIssues) :=
    if secured ∧ !statusCodes.contains "401" ∧ !statusCodes.contains "403" then
      (violations ++ [mkViolation path (path ++ "." ++ method ++ ".responses")
        (jsToUpper method ++
          " operation with security requirements is missing authentication/authorization error codes")
        .warning
        "Add 401 Unauthorized and/or 403 Forbidden response codes for secured endpoints"], true)
    else (violations, hasIssues)
  let (violations, hasIssues) :=
    if ["get", "put", "patch", "delete"].contains method ∧
        jsIncludes path "\x7b" ∧ !statusCodes.contains "404" then
      (violations ++ [mkViolation path (path ++ "." ++ method ++ ".responses")
        (jsToUpper method ++ " operation on a resource should include a 404 Not Found response")
        .warning
        "Add a 404 Not Found response for when the requested resource does not exist"], true)
    else (violations, hasIssues)
  if ["post", "put", "patch"].contains method ∧
      jsTruthyOpt (operation.getProp "requestBody") ∧
      !statusCodes.contains "400" ∧ !statusCodes.contains "422" then
    (violations ++ [mkViolation path (path ++ "." ++ method ++ ".responses")
      (jsToUpper method ++ " operation with request body should include validation error responses")
      .warning
      "Add 400 Bad Request and/or 422 Unprocessable Entity for request validation failures"], true)
  else (violations, hasIssues)

/-- `checkServerErrorCodes`: a warning when no 5xx code exists. -/
def checkServerErrorCodes (path method : String) (statusCodes : List String)
    (violations : List RuleViolation) : List RuleViolation × Bool :=
  if !statusCodes.any (fun code => jsStartsWith code "5") then
    (violations ++ [mkViolation path (path ++ "." ++ method ++ ".responses")
      (jsToUpper method ++ " operation is missing server error response codes")
      .warning "Add a 500 Internal Server Error response for unexpected server errors"], true)
  else (violations, false)

/-- `checkDefaultResponse`: an info when no `default` entry exists. -/
def checkDefaultResponse (path method : String) (statusCodes : List String)
    (violations : List RuleViolation) : List RuleViolation :=
  if !statusCodes.contains "default" then
    violations ++ [mkViolation path (path ++ "." ++ method ++ ".responses")
      (jsToUpper method ++ " operation is missing a default response")
      .info "Consider adding a default response to handle unexpected status codes"]
  else violations

/-- The missing-or-blank description test
`!response.description || response.description.trim() === ''`; `.trim()`
on a truthy non-string throws. -/
def blankDescription (response : Json) : JsOut Bool :=
  match response.getProp "description" with
  | none => .ok true
  | some d =>
      if !d.truthy then .ok true
      else
        match d with
        | .str s => .ok (decide (jsTrim s = ""))
        | _ => .err

/-- One response entry of `checkResponseContentAndSchema`.  Note the
source resolves the reference against the *operation* object
(`resolveResponse(responseOrRef, operation as any)`), not the document
root, so `#/components/...` pointers do not resolve here. -/
def checkOneResponseContent (path method : String) (operation : Json)
    (rv : String × Json) (st : List RuleViolation × Bool) :
    JsOut (List RuleViolation × Bool) :=
  let (statusCode, responseOrRef) := rv
  JsOut.bind (resolveMaybeRef responseOrRef operation) (fun resp? =>
    if !(jsTruthyOpt resp?) then
      .ok (st.1 ++ [mkViolation path
        (path ++ "." ++ method ++ ".responses." ++ statusCode)
        "Could not resolve response reference"
        .error "Ensure the response reference is valid"], true)
    else
      let response := resp?.getD Json.nul
      JsOut.bind (blankDescription response) (fun blank =>
        let (vs, hi) := st
        let (vs, hi) :=
          if blank then
            (vs ++ [mkViolation path
              (path ++ "." ++ method ++ ".responses." ++ statusCode)
              ("Response " ++ statusCode ++ " is missing a description")
              .warning "Add a meaningful description explaining the response"], true)
          else (vs, hi)
        let content? := response.getProp "content"
        let noContent :=
          !(jsTruthyOpt content?) ||
            decide ((jsKeys (content?.getD Json.nul)).length = 0)
        let (vs, hi) :=
          if jsStartsWith statusCode "2" ∧ statusCode ≠ "204" ∧ noContent then
            if method = "get" ∨ method = "post" ∨ (method = "put" ∧ statusCode = "200") then
              (vs ++ [mkViolation path
                (path ++ "." ++ method ++ ".responses." ++ statusCode)
                ("Success response " ++ statusCode ++ " is missing content definition")
                .warning
                "Define the response content structure or use 204 No Content if no response body is returned"],
                true)
            else (vs, hi)
          else (vs, hi)
        let (vs, hi) :=
          if (jsStartsWith statusCode "4" ∨ jsStartsWith statusCode "5") ∧ noContent then
            (vs ++ [mkViolation path
              (path ++ "." ++ method ++ ".responses." ++ statusCode)
              ("Error response " ++ statusCode ++ " is missing content definition")
              .info
              "Consider defining the error response structure to help API consumers handle errors"],
              hi)
          else (vs, hi)
        if jsTruthyOpt content? then
          .ok ((jsEntries (content?.getD Json.nul)).foldl
            (fun (st2 : List RuleViolation × Bool) mv =>
              let (mediaType, mediaTypeObject) := mv
              if !(jsTruthyOpt (mediaTypeObject.getProp "schema")) then
                (st2.1 ++ [mkViolation path
                  (path ++ "." ++ method ++ ".responses." ++ statusCode ++
                    ".content." ++ mediaType)
                  "Response content is missing a schema definition"
                  .warning "Define a schema for the response content"], true)
              else st2)
            (vs, hi))
        else .ok (vs, hi)))

/-- `checkResponseContentAndSchema` over all response entries. -/
def checkResponseContentAndSchema (path method : String) (responses : Json)
    (operation : Json) (violations : List RuleViolation) :
    JsOut (List RuleViolation × Bool) :=
  jsFoldM (fun st rv => checkOneResponseContent path method operation rv st)
    (violations, false) (jsEntries responses)

/-- Whether a status-code string matches `^[1-5][0-9][0-9]$`. -/
def validStatusCodeShape (code : String) : Bool :=
  match code.data with
  | [c1, c2, c3] =>
      ('1' ≤ c1 ∧ c1 ≤ '5') ∧ c2.isDigit ∧ c3.isDigit
  | _ => false

/-- `checkStatusCodeValidity`: syntactically invalid codes are errors;
1xx codes and a fixed list of uncommon codes are infos. -/
def checkStatusCodeValidity (path method : String) (statusCodes : List String)
    (violations : List RuleViolation) : List RuleViolation × Bool :=
  statusCodes.foldl
    (fun (st : List RuleViolation × Bool) code =>
      if code = "default" then st
      else if !validStatusCodeShape code then
        (st.1 ++ [mkViolation path
          (path ++ "." ++ method ++ ".responses." ++ code)
          ("Invalid HTTP status code: " ++ code)
          .error "Use standard HTTP status codes (100-599)"], true)
      else
        let st :=
          if jsStartsWith code "1" then
            (st.1 ++ [mkViolation path
              (path ++ "." ++ method ++ ".responses." ++ code)
              ("Unusual use of 1xx informational status code: " ++ code)
              .info
              "1xx codes are rarely used in REST APIs and may not be well-supported by clients"],
              st.2)
          else st
        if uncommonCodes.contains code then
          (st.1 ++ [mkViolation path
            (path ++ "." ++ method ++ ".responses." ++ code)
            ("Uncommon HTTP status code: " ++ code)
            .info
            "Consider using more common status codes for better client compatibility"],
            st.2)
        else st)
    (violations, false)

/-- `evaluateOperation` / `checkOperationResponses` for one operation:
missing responses short-circuit as an error; otherwise run the six
response checks. -/
def evaluateOperation (path method : String) (operation spec : Json)
    (violations : List RuleViolation) : JsOut (List RuleViolation × Bool) :=
  let responses? := operation.getProp "responses"
  if !(jsTruthyOpt responses?) ∨ (jsKeys (responses?.getD Json.nul)).length = 0 then
    .ok (violations ++ [mkViolation path (path ++ "." ++ method)
      (jsToUpper method ++ " operation is missing response definitions")
      .error "Define expected response status codes and their content"], true)
  else
    let responses := responses?.getD Json.nul
    let statusCodes := jsKeys responses
    let (violations, h1) := checkSuccessCodes path method statusCodes violations
    let (violations, h2) := checkClientErrorCodes path method statusCodes operation spec violations
    let (violations, h3) := checkServerErrorCodes path method statusCodes violations
    let violations := checkDefaultResponse path method statusCodes violations
    JsOut.bind (checkResponseContentAndSchema path method responses operation violations)
      (fun p5 =>
        let (violations, h5) := p5
        let (violations, h6) := checkStatusCodeValidity path method statusCodes violations
        .ok (violations, h1 || h2 || h3 || h5 || h6))

/-- `ResponseCodesRule.evaluate`: full weight (plus one error violation)
when the document has no paths; otherwise scan every operation and score
with the shared helper, using the number of operations *with issues* as
the item count. -/
def evaluate (spec : Json) : JsOut RuleResult :=
  let weight := CRITERIA_WEIGHTS_response_codes
  let paths? := spec.getProp "paths"
  if !(jsTruthyOpt paths?) ∨ (jsKeys (paths?.getD Json.nul)).length = 0 then
    .ok { score := weight, maxScore := weight,
          violations := [mkViolation "" "paths"
            "No paths defined in the API specification"
            .error "Define paths for your API endpoints"] }
  else
    let scan : JsOut (Nat × Nat × List RuleViolation) :=
      jsFoldM
        (fun (st : Nat × Nat × List RuleViolation) pv =>
          let (path, pathItem) := pv
          if !pathItem.truthy then .ok st
          else
            jsFoldM
              (fun (st2 : Nat × Nat × List RuleViolation) mv =>
                let (method, _) := mv
                if httpMethods.contains method then
                  let operation := (pathItem.getProp method).getD Json.nul
                  JsOut.bind (evaluateOperation path method operation spec st2.2.2)
                    (fun p =>
                      .ok (st2.1 + 1, st2.2.1 + (if p.2 then 1 else 0), p.1))
                else .ok st2)
              st (jsEntries pathItem))
        (0, 0, []) (jsEntries (paths?.getD Json.nul))
    JsOut.bind scan (fun st =>
      let score := calculateScore st.2.2 (st.2.1 : ℚ) weight
      .ok { score := score, maxScore := weight, violations := st.2.2 })

end ResponseCodesRule

/-! ### `DescriptionDocsRule`
(src/scoring-engine/rules/docs-rule.ts, concatenated into
src/src/scoring-engine/types.ts) -/

namespace DescriptionDocsRule

/-- The rule's running state: the violation list plus the `totalItems`
and `itemsWithViolations` counters. -/
structure DocsCount where
  violations : List RuleViolation
  totalItems : Nat
  itemsWithViolations : Nat

/-- `MIN_DESCRIPTION_LENGTH`. -/
def MIN_DESCRIPTION_LENGTH : Nat := 5

/-- `hasValidDescription`: truthy and at least five characters after
trimming.  `.trim()` on a truthy non-string throws. -/
def hasValidDescription (d : Option Json) : JsOut Bool :=
  match d with
  | none => .ok false
  | some v =>
      if !v.truthy then .ok false
      else
        match v with
        | .str s => .ok (decide (MIN_DESCRIPTION_LENGTH ≤ (jsTrim s).length))
        | _ => .err

/-- `isSchemaObject`: `typeof schema === 'object' && !('$ref' in schema)`.
`null` passes the `typeof` test and then `in` throws on it. -/
def isSchemaObject (schema : Json) : JsOut Bool :=
  match schema with
  | .nul => .err
  | .obj fields => .ok (!(fields.any (fun p => p.1 == "$ref")))
  | .arr _ => .ok true
  | _ => .ok false

/-- `checkInfoDescription`; reading `spec.info.description` throws when
`info` is absent or `null`. -/
def checkInfoDescription (spec : Json) (st : DocsCount) : JsOut DocsCount :=
  let st := { st with totalItems := st.totalItems + 1 }
  match spec.getProp "info" with
  | none => .err
  | some info =>
      if info.isNull then .err
      else
        JsOut.bind (hasValidDescription (info.getProp "description")) (fun ok =>
          if !ok then
            let st := { st with itemsWithViolations := st.itemsWithViolations + 1 }
            .ok { st with violations := st.violations ++
              [mkViolation "info" "description"
                "API info is missing a meaningful description" .error
                "Add a detailed description explaining the purpose and usage of the API"] }
          else .ok st)

/-- One element of `checkParameters`: a `$ref` entry is resolved through
the shared helper and named by the last pointer segment, an inline entry
names itself by its `name` property. -/
def checkOneParameter (pathName : String) (method : Option String) (spec : Json)
    (st : DocsCount) (param : Json) : JsOut DocsCount :=
  let st := { st with totalItems := st.totalItems + 1 }
  JsOut.bind
    (match param with
     | .obj fields =>
         if fields.any (fun p => p.1 == "$ref") then
           match (Json.obj fields).getProp "$ref" with
           | some (.str r) =>
               let refParts := (splitOnChar '/' r.data).map String.mk
               JsOut.bind (resolveReference r spec)
                 (fun p? => .ok (p?, refParts.getLastD ""))
           | _ => .err
         else
           .ok (some (Json.obj fields), jsToStringU ((Json.obj fields).getProp "name"))
     | .arr elems =>
         .ok (some (Json.arr elems), jsToStringU ((Json.arr elems).getProp "name"))
     | _ => .err)
    (fun pr =>
      let (paramObj, paramName) := pr
      if jsTruthyOpt paramObj then
        JsOut.bind
          (hasValidDescription ((paramObj.getD Json.nul).getProp "description"))
          (fun ok =>
            if !ok then
              let st := { st with itemsWithViolations := st.itemsWithViolations + 1 }
              .ok { st with violations := st.violations ++
                [{ path := pathName, operation := method,
                   location := "parameters." ++ paramName,
                   message := "Parameter '" ++ paramName ++
                     "' is missing a meaningful description",
                   severity := .warning,
                   suggestion :=
                     "Add a description explaining the purpose and expected values of this parameter" }] }
            else .ok st)
      else .ok st)

/-- `checkParameters`: `.forEach` over the array; a truthy non-array
value throws. -/
def checkParameters (parameters : Json) (pathName : String) (method : Option String)
    (spec : Json) (st : DocsCount) : JsOut DocsCount :=
  match parameters with
  | .arr elems =>
      jsFoldM (fun st p => checkOneParameter pathName method spec st p) st elems
  | _ => .err

/-- `checkRequestBody`: resolve a possible `$ref`, then demand a valid
description of the resolved body.  `totalItems` only grows when the body
resolved. -/
def checkRequestBody (requestBody : Json) (pathName method : String) (spec : Json)
    (st : DocsCount) : JsOut DocsCount :=
  JsOut.bind (resolveMaybeRef requestBody spec) (fun requestBodyObj =>
    if jsTruthyOpt requestBodyObj then
      let st := { st with totalItems := st.totalItems + 1 }
      JsOut.bind
        (hasValidDescription ((requestBodyObj.getD Json.nul).getProp "description"))
        (fun ok =>
          if !ok then
            let st := { st with itemsWithViolations := st.itemsWithViolations + 1 }
            .ok { st with violations := st.violations ++
              [mkViolationOp pathName method "requestBody"
                "Request body is missing a meaningful description" .warning
                "Add a description explaining the expected structure and purpose of the request body"] }
          else .ok st)
    else .ok st)

/-- `checkResponses`: every response entry is resolved and, when that
produced a value, its description checked. -/
def checkResponses (responses : Json) (pathName method : String) (spec : Json)
    (st : DocsCount) : JsOut DocsCount :=
  jsFoldM
    (fun (st : DocsCount) (rv : String × Json) =>
      let (statusCode, response) := rv
      JsOut.bind (resolveMaybeRef response spec) (fun responseObj =>
        if jsTruthyOpt responseObj then
          let st := { st with totalItems := st.totalItems + 1 }
          JsOut.bind
            (hasValidDescription ((responseObj.getD Json.nul).getProp "description"))
            (fun ok =>
              if !ok then
                let st := { st with itemsWithViolations := st.itemsWithViolations + 1 }
                .ok { st with violations := st.violations ++
                  [mkViolationOp pathName method ("responses." ++ statusCode)
                    ("Response " ++ statusCode ++ " is missing a meaningful description")
                    .error
                    "Add a description explaining the meaning of this response and when it occurs"] }
              else .ok st)
        else .ok st))
    st (jsEntries responses)

/-- The fixed method list of `checkOperations`. -/
def operationMethods : List String :=
  ["get", "post", "put", "delete", "patch", "options", "head", "trace"]

/-- `checkOperations`: per method, demand a description or summary, then
descend into parameters, request body and responses.  The `&&` in the
source short-circuits: the summary is only inspected when the
description check came back false. -/
def checkOperations (pathItem : Json) (pathName : String) (spec : Json)
    (st : DocsCount) : JsOut DocsCount :=
  jsFoldM
    (fun (st : DocsCount) (method : String) =>
      match pathItem.getProp method with
      | none => .ok st
      | some operation =>
          if !operation.truthy then .ok st
          else
            let st := { st with totalItems := st.totalItems + 1 }
            JsOut.bind
              (JsOut.bind (hasValidDescription (operation.getProp "description"))
                (fun d1 =>
                  if d1 then .ok false
                  else
                    JsOut.bind (hasValidDescription (operation.getProp "summary"))
                      (fun d2 => .ok (!d2))))
              (fun missing =>
                let st :=
                  if missing then
                    let st := { st with itemsWithViolations := st.itemsWithViolations + 1 }
                    { st with violations := st.violations ++
                      [mkViolationOp pathName (jsToUpper method) "description/summary"
                        "Operation is missing both a meaningful description and summary"
                        .error
                        "Add a detailed description or at least a summary explaining what this operation does"] }
                  else st
                JsOut.bind
                  (if jsTruthyOpt (operation.getProp "parameters") then
                    checkParameters ((operation.getProp "parameters").getD Json.nul)
                      pathName (some (jsToUpper method)) spec st
                  else .ok st)
                  (fun st =>
                    JsOut.bind
                      (if jsTruthyOpt (operation.getProp "requestBody") then
                        checkRequestBody ((operation.getProp "requestBody").getD Json.nul)
                          pathName (jsToUpper method) spec st
                      else .ok st)
                      (fun st =>
                        if jsTruthyOpt (operation.getProp "responses") then
                          checkResponses ((operation.getProp "responses").getD Json.nul)
                            pathName (jsToUpper method) spec st
                        else .ok st))))
    st operationMethods

/-- `checkPaths`: per path entry, demand a path description, check its
parameters and visit its operations. -/
def checkPaths (spec : Json) (st : DocsCount) : JsOut DocsCount :=
  if !(jsTruthyOpt (spec.getProp "paths")) then .ok st
  else
    jsFoldM
      (fun (st : DocsCount) (pv : String × Json) =>
        let (pathName, pathItem) := pv
        if !pathItem.truthy then .ok st
        else
          let st := { st with totalItems := st.totalItems + 1 }
          JsOut.bind (hasValidDescription (pathItem.getProp "description")) (fun ok =>
            let st :=
              if !ok then
                let st := { st with itemsWithViolations := st.itemsWithViolations + 1 }
                { st with violations := st.violations ++
                  [mkViolation pathName "description"
                    "Path is missing a meaningful description" .warning
                    "Add a description explaining the purpose of this path"] }
              else st
            JsOut.bind
              (if jsTruthyOpt (pathItem.getProp "parameters") then
                checkParameters ((pathItem.getProp "parameters").getD Json.nul)
                  pathName none spec st
              else .ok st)
              (fun st => checkOperations pathItem pathName spec st)))
      st (jsEntries ((spec.getProp "paths").getD Json.nul))

/-- The property loop of `checkComponentSchemas`, entered when
`schema.type === 'object'` and `schema.properties` is truthy. -/
def checkSchemaProperties (schemaName : String) (schema : Json)
    (st : DocsCount) : JsOut DocsCount :=
  let typeIsObject : Bool :=
    match schema.getProp "type" with
    | some (.str t) => t == "object"
    | _ => false
  if typeIsObject && jsTruthyOpt (schema.getProp "properties") then
    jsFoldM
      (fun (st : DocsCount) (pv : String × Json) =>
        let (propName, property) := pv
        JsOut.bind (isSchemaObject property) (fun isObj =>
          if !isObj then .ok st
          else
            let st := { st with totalItems := st.totalItems + 1 }
            JsOut.bind (hasValidDescription (property.getProp "description")) (fun ok =>
              if !ok then
                let st := { st with itemsWithViolations := st.itemsWithViolations + 1 }
                .ok { st with violations := st.violations ++
                  [mkViolation "components"
                    ("schemas." ++ schemaName ++ ".properties." ++ propName)
                    "Property is missing a meaningful description" .info
                    "Add a description explaining the purpose and expected values of this property"] }
              else .ok st)))
      st (jsEntries ((schema.getProp "properties").getD Json.nul))
  else .ok st

/-- `checkComponentSchemas`: every (non-reference) component schema needs
a description, and so does every property of object schemas. -/
def checkComponentSchemas (spec : Json) (st : DocsCount) : JsOut DocsCount :=
  let schemas? := jsOptChain (spec.getProp "components") "schemas"
  if !(jsTruthyOpt schemas?) then .ok st
  else
    jsFoldM
      (fun (st : DocsCount) (sv : String × Json) =>
        let (schemaName, schema) := sv
        JsOut.bind (isSchemaObject schema) (fun isObj =>
          if !isObj then .ok st
          else
            let st := { st with totalItems := st.totalItems + 1 }
            JsOut.bind (hasValidDescription (schema.getProp "description")) (fun ok =>
              let st :=
                if !ok then
                  let st := { st with itemsWithViolations := st.itemsWithViolations + 1 }
                  { st with violations := st.violations ++
                    [mkViolation "components" ("schemas." ++ schemaName)
                      "Schema is missing a meaningful description" .warning
                      "Add a description explaining the purpose and structure of this schema"] }
                else st
              checkSchemaProperties schemaName schema st)))
      st (jsEntries (schemas?.getD Json.nul))

/-- `DescriptionDocsRule.evaluate`: info, paths and component schemas are
scanned in order, and the counters feed the shared scoring helper. -/
def evaluate (spec : Json) : JsOut RuleResult :=
  let weight := CRITERIA_WEIGHTS_description_docs
  JsOut.bind (checkInfoDescription spec ⟨[], 0, 0⟩) (fun st =>
    JsOut.bind (checkPaths spec st) (fun st =>
      JsOut.bind (checkComponentSchemas spec st) (fun st =>
        .ok { score := calculateScore st.violations (st.totalItems : ℚ) weight,
              maxScore := weight, violations := st.violations })))

end DescriptionDocsRule

/-! ### `SchemaTypesRule` (src/scoring-engine/rules/schema-rule.ts,
preserved as src/unnamed/part_004) -/

/-- `Set.prototype.add` for a set of strings (insertion order kept). -/
def setAddStr (s : List String) (v : String) : List String :=
  if s.contains v then s else s ++ [v]

namespace SchemaTypesRule

/-- The two mutable accumulators of the rule: the violation list and the
`schemasWithViolations` set of schema paths. -/
structure SchemaState where
  violations : List RuleViolation
  schemasWithViolations : List String

/-- Append a violation. -/
def pushV (st : SchemaState) (v : RuleViolation) : SchemaState :=
  { st with violations := st.violations ++ [v] }

/-- `schemasWithViolations.add(path)`. -/
def addW (st : SchemaState) (p : String) : SchemaState :=
  { st with schemasWithViolations := setAddStr st.schemasWithViolations p }

/-- `PRIMITIVE_TYPES`. -/
def PRIMITIVE_TYPES : List String :=
  ["string", "number", "integer", "boolean", "array", "object", "null"]

/-- `STRING_FORMATS`. -/
def STRING_FORMATS : List String :=
  ["date", "date-time", "password", "byte", "binary", "email", "uuid",
   "uri", "hostname", "ipv4", "ipv6"]

/-- `NUMBER_FORMATS`. -/
def NUMBER_FORMATS : List String :=
  ["float", "double", "int32", "int64"]

/-- `originalPath.split('.')[0]`. -/
def pathHead (p : String) : String :=
  (((splitOnChar '.' p.data).map String.mk).headD "")

/-- `isSchemaDefined`: a truthy `type` or composition keyword. -/
def isSchemaDefined (schema : Json) : Bool :=
  jsTruthyOpt (schema.getProp "type") || jsTruthyOpt (schema.getProp "allOf") ||
  jsTruthyOpt (schema.getProp "oneOf") || jsTruthyOpt (schema.getProp "anyOf")

/-- `resolvedSchema.type === s` (strict comparison against a string
literal). -/
def typeIs (schema : Json) (s : String) : Bool :=
  match schema.getProp "type" with
  | some (.str t) => t == s
  | _ => false

/-- The body of `validateSchema`, with the recursive occurrences
abstracted as `rec` (the fueled recursion is tied below). -/
def validateSchemaBody
    (rec : Json → String → SchemaState → JsOut SchemaState)
    (schema : Json) (originalPath : String) (spec : Json) (st : SchemaState) :
    JsOut SchemaState :=
    JsOut.bind (resolveMaybeRef schema spec) (fun resolved? =>
      if !(jsTruthyOpt resolved?) then
        .ok (if (match schema with
                 | .obj fields => fields.any (fun p => p.1 == "$ref")
                 | _ => false) then
              let r := jsToStringU (schema.getProp "$ref")
              addW (pushV st (mkViolation (pathHead originalPath) originalPath
                ("Unresolved schema reference: " ++ r) .error
                ("Ensure the reference '" ++ r ++
                  "' points to a valid schema in the components or elsewhere.")))
                originalPath
            else st)
      else
        let resolvedSchema := resolved?.getD Json.nul
        let type? := resolvedSchema.getProp "type"
        let typeIncluded : Bool :=
          match type? with
          | some (.str t) => PRIMITIVE_TYPES.contains t
          | _ => false
        let st :=
          if !(isSchemaDefined resolvedSchema) then
            addW (pushV st (mkViolation (pathHead originalPath) originalPath
              "Schema lacks a type definition or composition keyword (allOf, oneOf, anyOf)"
              .error
              "Define an explicit type (string, number, object, etc.) or use a composition keyword."))
              originalPath
          else if jsTruthyOpt type? && !typeIncluded then
            addW (pushV st (mkViolation (pathHead originalPath) originalPath
              ("Schema uses invalid type: '" ++ jsToStringU type? ++ "'") .error
              ("Use standard OpenAPI types: " ++ String.intercalate ", " PRIMITIVE_TYPES)))
              originalPath
          else st
        let hasComposition : Bool :=
          jsTruthyOpt (resolvedSchema.getProp "allOf") ||
          jsTruthyOpt (resolvedSchema.getProp "oneOf") ||
          jsTruthyOpt (resolvedSchema.getProp "anyOf")
        let ap := resolvedSchema.getProp "additionalProperties"
        let apTypeofObject : Bool :=
          match ap with
          | some (.obj _) | some (.arr _) | some .nul => true
          | _ => false
        let apIsTrue : Bool :=
          match ap with
          | some (.bool true) => true
          | _ => false
        let properties? := resolvedSchema.getProp "properties"
        JsOut.bind
          (if typeIs resolvedSchema "object" then
            let hasPropertiesOrAdditional :=
              jsTruthyOpt properties? || apIsTrue || apTypeofObject
            let st :=
              if !hasPropertiesOrAdditional && !hasComposition then
                addW (pushV st (mkViolation (pathHead originalPath) originalPath
                  "Object schema has no properties or additionalProperties defined and is not using composition"
                  .warning
                  "Define properties, use additionalProperties, or use composition keywords to specify object structure"))
                  originalPath
              else st
            JsOut.bind
              (if jsTruthyOpt properties? then
                jsFoldM
                  (fun (st : SchemaState) (pv : String × Json) =>
                    rec pv.2
                      (originalPath ++ ".properties." ++ pv.1) st)
                  st (jsEntries (properties?.getD Json.nul))
              else .ok st)
              (fun st =>
                JsOut.bind
                  (if apTypeofObject then
                    rec (ap.getD Json.nul)
                      (originalPath ++ ".additionalProperties") st
                  else .ok st)
                  (fun st =>
                    let required? := resolvedSchema.getProp "required"
                    let requiredEmpty : Bool :=
                      !(jsTruthyOpt required?) ||
                        (match jsLengthNum (required?.getD Json.nul) with
                         | some n => n == 0
                         | none => false)
                    if jsTruthyOpt properties? ∧
                        (jsKeys (properties?.getD Json.nul)).length > 0 ∧
                        requiredEmpty then
                      .ok (pushV st (mkViolation (pathHead originalPath) originalPath
                        "Object schema has properties defined but none are marked as required"
                        .info
                        "Specify which properties are required for more precise validation"))
                    else .ok st))
          else .ok st)
          (fun st =>
            JsOut.bind
              (if typeIs resolvedSchema "array" then
                match resolvedSchema.getProp "items" with
                | some items =>
                    if items.truthy then
                      rec items (originalPath ++ ".items") st
                    else
                      .ok (addW (pushV st (mkViolation (pathHead originalPath) originalPath
                        "Array schema is missing items definition" .error
                        "Define items schema to specify the type of array elements"))
                        originalPath)
                | none =>
                    .ok (addW (pushV st (mkViolation (pathHead originalPath) originalPath
                      "Array schema is missing items definition" .error
                      "Define items schema to specify the type of array elements"))
                      originalPath)
              else .ok st)
              (fun st =>
                let format? := resolvedSchema.getProp "format"
                let formatIn (fs : List String) : Bool :=
                  match format? with
                  | some (.str f) => fs.contains f
                  | _ => false
                let st :=
                  if typeIs resolvedSchema "string" && jsTruthyOpt format? &&
                      !(formatIn STRING_FORMATS) then
                    pushV st (mkViolation (pathHead originalPath) originalPath
                      ("String uses non-standard format: '" ++ jsToStringU format? ++ "'")
                      .info
                      ("Consider using standard formats: " ++
                        String.intercalate ", " STRING_FORMATS))
                  else st
                let st :=
                  if (typeIs resolvedSchema "number" || typeIs resolvedSchema "integer") &&
                      jsTruthyOpt format? && !(formatIn NUMBER_FORMATS) then
                    pushV st (mkViolation (pathHead originalPath) originalPath
                      ("Number uses non-standard format: '" ++ jsToStringU format? ++ "'")
                      .info
                      ("Consider using standard formats: " ++
                        String.intercalate ", " NUMBER_FORMATS))
                  else st
                let st :=
                  if typeIs resolvedSchema "object" && apIsTrue &&
                      (!(jsTruthyOpt properties?) ||
                        (jsKeys (properties?.getD Json.nul)).length == 0) &&
                      !hasComposition then
                    addW (pushV st (mkViolation (pathHead originalPath) originalPath
                      "Schema defines a completely free-form object with no defined properties or composition"
                      .warning
                      "Define specific properties or a schema for additionalProperties for better type safety and clarity."))
                      originalPath
                  else st
                let compLoop (key : String) (st : SchemaState) : JsOut SchemaState :=
                  match resolvedSchema.getProp key with
                  | none => .ok st
                  | some v =>
                      if !v.truthy then .ok st
                      else
                        match v with
                        | .arr subs =>
                            jsFoldM
                              (fun (st : SchemaState) (iv : Nat × Json) =>
                                rec iv.2
                                  (originalPath ++ "." ++ key ++ "[" ++
                                    toString iv.1 ++ "]") st)
                              st subs.enum
                        | _ => .err
                JsOut.bind (compLoop "allOf" st) (fun st =>
                  JsOut.bind (compLoop "oneOf" st) (fun st =>
                    JsOut.bind (compLoop "anyOf" st) (fun st =>
                      JsOut.bind
                        (match resolvedSchema.getProp "enum" with
                         | none => .ok st
                         | some enumv =>
                            if !enumv.truthy then .ok st
                            else
                              let st :=
                                if (match jsLengthNum enumv with
                                    | some n => n == 0
                                    | none => false) then
                                  addW (pushV st (mkViolation (pathHead originalPath)
                                    originalPath "Schema has empty enum array" .error
                                    "Add enum values or remove the enum keyword"))
                                    originalPath
                                else st
                              JsOut.bind
                                (match enumv with
                                 | .arr l => .ok (l.any (fun e => e.isNull))
                                 | .str s => .ok (jsIncludes s "null")
                                 | _ => .err)
                                (fun includesNull =>
                                  if includesNull then
                                    let allowsNullType : Bool :=
                                      match type? with
                                      | some (.arr l) =>
                                          l.any (fun e =>
                                            match e with
                                            | .str t => t == "null"
                                            | _ => false)
                                      | _ => false
                                    let nullableTrue : Bool :=
                                      match resolvedSchema.getProp "nullable" with
                                      | some (.bool true) => true
                                      | _ => false
                                    if !nullableTrue && !allowsNullType then
                                      .ok (addW (pushV st (mkViolation
                                        (pathHead originalPath) originalPath
                                        "Enum includes null but schema is not marked as nullable or does not include \"null\" in type array"
                                        .warning
                                        "Add nullable: true or include \"null\" in the type array (for OpenAPI 3.1+)."))
                                        originalPath)
                                    else .ok st
                                  else .ok st))
                        (fun st =>
                          let st :=
                            if !(jsTruthyOpt (resolvedSchema.getProp "description")) then
                              pushV st (mkViolation (pathHead originalPath) originalPath
                                "Schema is missing a description" .info
                                "Add a description to explain the purpose of the schema.")
                            else st
                          JsOut.bind
                            (if typeIs resolvedSchema "object" && jsTruthyOpt properties? then
                              jsFoldM
                                (fun (st : SchemaState) (pv : String × Json) =>
                                  JsOut.bind (resolveMaybeRef pv.2 spec) (fun rp? =>
                                    if jsTruthyOpt rp? &&
                                        !(jsTruthyOpt (jsGetOpt rp? "description")) then
                                      .ok (pushV st (mkViolation (pathHead originalPath)
                                        (originalPath ++ ".properties." ++ pv.1)
                                        ("Schema property '" ++ pv.1 ++
                                          "' is missing a description")
                                        .info
                                        ("Add a description for the '" ++ pv.1 ++
                                          "' property.")))
                                    else .ok st))
                                st (jsEntries (properties?.getD Json.nul))
                            else .ok st)
                            (fun st =>
                              if !(jsTruthyOpt (resolvedSchema.getProp "example")) then
                                let sev : Severity :=
                                  if typeIs resolvedSchema "object" ||
                                      typeIs resolvedSchema "array" then .warning
                                  else .info
                                .ok (pushV st (mkViolation (pathHead originalPath)
                                  originalPath
                                  "Schema is missing examples (example or examples)"
                                  sev
                                  "Add example or examples to improve documentation and understanding."))
                              else .ok st))))))))

/-- `validateSchema`, indexed by explicit fuel: `$ref` resolution can
re-enter any part of the document, so the source's recursion is not
structural and a cyclic reference chain loops forever.  Fuel `0` yields
`.diverge`; any fuel bounding the actual recursion depth yields the
source's behaviour. -/
def validateSchemaF : Nat → Json → String → Json → SchemaState → JsOut SchemaState
  | 0, _, _, _, _ => .diverge
  | fuel + 1, schema, originalPath, spec, st =>
      validateSchemaBody (fun y q st2 => validateSchemaF fuel y q spec st2)
        schema originalPath spec st


/-- The media-type loop shared by the request-body and response checks:
each truthy `schema` is counted and validated. -/
def contentLoop (fuel : Nat) (spec : Json) (mkPath : String → String)
    (content : Json) (acc : Nat × SchemaState) : JsOut (Nat × SchemaState) :=
  jsFoldM
    (fun (acc : Nat × SchemaState) (mv : String × Json) =>
      let schema? := (mv.2).getProp "schema"
      if jsTruthyOpt schema? then
        JsOut.bind
          (validateSchemaF fuel (schema?.getD Json.nul) (mkPath mv.1) spec acc.2)
          (fun st => .ok (acc.1 + 1, st))
      else .ok acc)
    acc (jsEntries content)

/-- The header loop: headers may be references; a resolved header with a
truthy `schema` is counted and validated. -/
def headersLoop (fuel : Nat) (spec : Json) (mkPath : String → String)
    (headers : Json) (acc : Nat × SchemaState) : JsOut (Nat × SchemaState) :=
  jsFoldM
    (fun (acc : Nat × SchemaState) (hv : String × Json) =>
      JsOut.bind (resolveMaybeRef hv.2 spec) (fun rh? =>
        let schema? := jsOptChain rh? "schema"
        if jsTruthyOpt schema? then
          JsOut.bind
            (validateSchemaF fuel (schema?.getD Json.nul) (mkPath hv.1) spec acc.2)
            (fun st => .ok (acc.1 + 1, st))
        else .ok acc))
    acc (jsEntries headers)

/-- `checkComponentsForSchemas`: component schemas, parameters, request
bodies, responses (content and headers) and headers, in that order;
returns the number of schemas visited. -/
def checkComponentsForSchemas (fuel : Nat) (spec : Json) (st : SchemaState) :
    JsOut (Nat × SchemaState) :=
  let comp (k : String) : Option Json := jsOptChain (spec.getProp "components") k
  JsOut.bind
    (if jsTruthyOpt (comp "schemas") then
      jsFoldM
        (fun (acc : Nat × SchemaState) (sv : String × Json) =>
          JsOut.bind
            (validateSchemaF fuel sv.2 ("components.schemas." ++ sv.1) spec acc.2)
            (fun st => .ok (acc.1 + 1, st)))
        (0, st) (jsEntries ((comp "schemas").getD Json.nul))
    else .ok (0, st))
    (fun acc =>
      JsOut.bind
        (if jsTruthyOpt (comp "parameters") then
          jsFoldM
            (fun (acc : Nat × SchemaState) (pv : String × Json) =>
              JsOut.bind (resolveMaybeRef pv.2 spec) (fun rp? =>
                let schema? := jsOptChain rp? "schema"
                if jsTruthyOpt schema? then
                  JsOut.bind (validateSchemaF fuel (schema?.getD Json.nul)
                    ("components.parameters." ++ pv.1 ++ ".schema") spec acc.2)
                    (fun st => .ok (acc.1 + 1, st))
                else .ok acc))
            acc (jsEntries ((comp "parameters").getD Json.nul))
        else .ok acc)
        (fun acc =>
          JsOut.bind
            (if jsTruthyOpt (comp "requestBodies") then
              jsFoldM
                (fun (acc : Nat × SchemaState) (rv : String × Json) =>
                  JsOut.bind (resolveMaybeRef rv.2 spec) (fun rb? =>
                    let content? := jsOptChain rb? "content"
                    if jsTruthyOpt content? then
                      contentLoop fuel spec
                        (fun mt => "components.requestBodies." ++ rv.1 ++
                          ".content." ++ mt ++ ".schema")
                        (content?.getD Json.nul) acc
                    else .ok acc))
                acc (jsEntries ((comp "requestBodies").getD Json.nul))
            else .ok acc)
            (fun acc =>
              JsOut.bind
                (if jsTruthyOpt (comp "responses") then
                  jsFoldM
                    (fun (acc : Nat × SchemaState) (rv : String × Json) =>
                      JsOut.bind (resolveMaybeRef rv.2 spec) (fun rr? =>
                        let content? := jsOptChain rr? "content"
                        JsOut.bind
                          (if jsTruthyOpt content? then
                            contentLoop fuel spec
                              (fun mt => "components.responses." ++ rv.1 ++
                                ".content." ++ mt ++ ".schema")
                              (content?.getD Json.nul) acc
                          else .ok acc)
                          (fun acc =>
                            let headers? := jsOptChain rr? "headers"
                            if jsTruthyOpt headers? then
                              headersLoop fuel spec
                                (fun hn => "components.responses." ++ rv.1 ++
                                  ".headers." ++ hn ++ ".schema")
                                (headers?.getD Json.nul) acc
                            else .ok acc)))
                    acc (jsEntries ((comp "responses").getD Json.nul))
                else .ok acc)
                (fun acc =>
                  if jsTruthyOpt (comp "headers") then
                    headersLoop fuel spec
                      (fun hn => "components.headers." ++ hn ++ ".schema")
                      ((comp "headers").getD Json.nul) acc
                  else .ok acc))))

/-- `checkPathsForSchemas`: request bodies, responses and parameters of
every operation.  A `null` operation value under a method key throws
(`operation.requestBody` on `null`). -/
def checkPathsForSchemas (fuel : Nat) (spec : Json) (st : SchemaState) :
    JsOut (Nat × SchemaState) :=
  if !(jsTruthyOpt (spec.getProp "paths")) then .ok (0, st)
  else
    jsFoldM
      (fun (acc : Nat × SchemaState) (pv : String × Json) =>
        let (pathName, pathItem) := pv
        if !pathItem.truthy then .ok acc
        else
          jsFoldM
            (fun (acc : Nat × SchemaState) (mv : String × Json) =>
              let (method, operation) := mv
              if !(httpMethods.contains method) then .ok acc
              else if operation.isNull then .err
              else
                JsOut.bind
                  (if jsTruthyOpt (operation.getProp "requestBody") then
                    JsOut.bind
                      (resolveMaybeRef ((operation.getProp "requestBody").getD Json.nul) spec)
                      (fun rb? =>
                        let content? := jsOptChain rb? "content"
                        if jsTruthyOpt content? then
                          contentLoop fuel spec
                            (fun mt => pathName ++ "." ++ method ++
                              ".requestBody.content." ++ mt ++ ".schema")
                            (content?.getD Json.nul) acc
                        else .ok acc)
                  else .ok acc)
                  (fun acc =>
                    JsOut.bind
                      (if jsTruthyOpt (operation.getProp "responses") then
                        jsFoldM
                          (fun (acc : Nat × SchemaState) (sv : String × Json) =>
                            let (statusCode, response) := sv
                            JsOut.bind (resolveMaybeRef response spec) (fun rr? =>
                              let content? := jsOptChain rr? "content"
                              JsOut.bind
                                (if jsTruthyOpt content? then
                                  contentLoop fuel spec
                                    (fun mt => pathName ++ "." ++ method ++
                                      ".responses." ++ statusCode ++
                                      ".content." ++ mt ++ ".schema")
                                    (content?.getD Json.nul) acc
                                else .ok acc)
                                (fun acc =>
                                  let headers? := jsOptChain rr? "headers"
                                  if jsTruthyOpt headers? then
                                    headersLoop fuel spec
                                      (fun hn => pathName ++ "." ++ method ++
                                        ".responses." ++ statusCode ++
                                        ".headers." ++ hn ++ ".schema")
                                      (headers?.getD Json.nul) acc
                                  else .ok acc)))
                          acc (jsEntries ((operation.getProp "responses").getD Json.nul))
                      else .ok acc)
                      (fun acc =>
                        if jsTruthyOpt (operation.getProp "parameters") then
                          match (operation.getProp "parameters").getD Json.nul with
                          | .arr params =>
                              jsFoldM
                                (fun (acc : Nat × SchemaState) (ip : Nat × Json) =>
                                  JsOut.bind (resolveMaybeRef ip.2 spec) (fun rp? =>
                                    let schema? := jsOptChain rp? "schema"
                                    if jsTruthyOpt schema? then
                                      let nm := jsOptChain rp? "name"
                                      let paramName :=
                                        if jsTruthyOpt nm then jsToStringU nm
                                        else "index" ++ toString ip.1
                                      JsOut.bind (validateSchemaF fuel
                                        (schema?.getD Json.nul)
                                        (pathName ++ "." ++ method ++ ".parameters." ++
                                          paramName ++ ".schema") spec acc.2)
                                        (fun st => .ok (acc.1 + 1, st))
                                    else .ok acc))
                                acc params.enum
                          | _ => .err
                        else .ok acc)))
            acc (jsEntries pathItem))
      (0, st) (jsEntries ((spec.getProp "paths").getD Json.nul))

/-- `SchemaTypesRule.evaluate` with explicit fuel for the schema
recursion: visit components and paths, then score from the violation
percentage and severity-weighted violation count, with the error cap at
`weight - 2` and the floor at `0`. -/
def evaluate (fuel : Nat) (spec : Json) : JsOut RuleResult :=
  let weight := CRITERIA_WEIGHTS_schema_types
  JsOut.bind (checkComponentsForSchemas fuel spec ⟨[], []⟩) (fun acc1 =>
    JsOut.bind (checkPathsForSchemas fuel spec acc1.2) (fun acc2 =>
      let totalSchemas : Nat := acc1.1 + acc2.1
      let st := acc2.2
      let totalSchemasQ : ℚ := max 1 (totalSchemas : ℚ)
      let violationPercentage : ℚ :=
        (st.schemasWithViolations.length : ℚ) / totalSchemasQ
      let errorViolations : ℚ :=
        ((st.violations.filter (fun v => v.severity = .error)).length : ℚ)
      let warningViolations : ℚ :=
        ((st.violations.filter (fun v => v.severity = .warning)).length : ℚ)
      let infoViolations : ℚ :=
        ((st.violations.filter (fun v => v.severity = .info)).length : ℚ)
      let weightedViolationScore : ℚ :=
        (errorViolations * SEVERITY_SCORE_WEIGHTS .error +
          warningViolations * SEVERITY_SCORE_WEIGHTS .warning +
          infoViolations * SEVERITY_SCORE_WEIGHTS .info) / totalSchemasQ
      let combinedImpact : ℚ := (violationPercentage + weightedViolationScore) / 2
      let score0 : ℚ := jroundQ (weight * (1 - combinedImpact))
      let score1 : ℚ :=
        if 0 < errorViolations ∧ weight - 2 < score0 then weight - 2 else score0
      .ok { score := max 0 score1, maxScore := weight, violations := st.violations }))

end SchemaTypesRule

/-! ### `PathsOperationsRule` (src/scoring-engine/rules/path-rule.ts,
preserved as src/unnamed/part_005) -/

namespace PathsOperationsRule

/-- `'a' ≤ c ≤ 'z'`. -/
def isLowerAZ (c : Char) : Bool := 'a' ≤ c && c ≤ 'z'

/-- `'A' ≤ c ≤ 'Z'`. -/
def isUpperAZ (c : Char) : Bool := 'A' ≤ c && c ≤ 'Z'

/-- `'0' ≤ c ≤ '9'`. -/
def isDigit09 (c : Char) : Bool := '0' ≤ c && c ≤ '9'

/-- A word of the kebab-case regex body
`[a-z][a-z0-9]*(?:-[a-z0-9]+)*`, matched in full: nonempty groups of
`[a-z0-9]` separated by single dashes, the first beginning with a
letter. -/
def kebabWord (cs : List Char) : Bool :=
  match cs with
  | [] => false
  | c :: _ =>
      isLowerAZ c &&
        (splitOnChar '-' cs).all (fun g =>
          !g.isEmpty && g.all (fun x => isLowerAZ x || isDigit09 x))

/-- `NAMING_CONVENTIONS.kebabCase.test(p)` for
`/^\/[a-z][a-z0-9]*(?:-[a-z0-9]+)*(?:\/|$)/`: the leading slash plus the
whole first path segment as a kebab word (the trailing `(?:\/|$)` forces
the match to stop exactly at the next slash or the string's end). -/
def kebabCaseTest (p : String) : Bool :=
  match p.data with
  | '/' :: s => kebabWord (s.takeWhile (fun c => c ≠ '/'))
  | _ => false

/-- `NAMING_CONVENTIONS.pluralCollections.test(p)` for
`/^\/[a-z][a-z0-9]*(?:-[a-z0-9]+)*s(?:\/|$)/`: like the kebab test but
the first segment must be a kebab word followed by a literal `s`. -/
def pluralCollectionsTest (p : String) : Bool :=
  match p.data with
  | '/' :: s =>
      match (s.takeWhile (fun c => c ≠ '/')).reverse with
      | 's' :: wrev => kebabWord wrev.reverse
      | _ => false
  | _ => false

/-- The alternation of `NAMING_CONVENTIONS.verbInPath`, in source
order. -/
def verbList : List String :=
  ["get", "create", "update", "delete", "list", "search", "find", "fetch",
   "retrieve", "remove", "add", "edit", "modify", "process"]

/-- Case-insensitive (ASCII) prefix test. -/
def ciStartsWith : List Char → List Char → Bool
  | _, [] => true
  | [], _ :: _ => false
  | c :: cs, p :: ps => (c.toLower == p.toLower) && ciStartsWith cs ps

/-- `path.match(NAMING_CONVENTIONS.verbInPath)` reduced to its captured
group: the leftmost `/` followed by one of the verbs
(case-insensitively, first alternative wins), returning the verb as it
appears in the path. -/
def findVerb : List Char → Option String
  | [] => none
  | '/' :: rest =>
      match verbList.find? (fun v => ciStartsWith rest v.data) with
      | some v => some (String.mk (rest.take v.length))
      | none => findVerb rest
  | _ :: rest => findVerb rest

/-- `[a-zA-Z0-9_]`, the character class of
`NAMING_CONVENTIONS.pathParam`. -/
def isParamChar (c : Char) : Bool :=
  isLowerAZ c || isUpperAZ c || isDigit09 c || c = '_'

/-- All captures of `path.matchAll(/\x7b([a-zA-Z0-9_]+)\x7d/g)`, scanned
left to right; the fuel argument only bounds the scan by the string's
length. -/
def scanPathParamsF : Nat → List Char → List String
  | 0, _ => []
  | fuel + 1, cs =>
      match cs with
      | [] => []
      | '\x7b' :: rest =>
          let run := rest.takeWhile isParamChar
          (match rest.drop run.length with
           | '\x7d' :: tail =>
               if run.isEmpty then scanPathParamsF fuel rest
               else String.mk run :: scanPathParamsF fuel tail
           | _ => scanPathParamsF fuel rest)
      | _ :: rest => scanPathParamsF fuel rest

/-- `matchAll` with the path-parameter regex, as a list of parameter
names. -/
def scanPathParams (s : String) : List String :=
  scanPathParamsF s.data.length s.data

/-- `path.split('/').filter(Boolean)`. -/
def segmentsOf (p : String) : List String :=
  (((splitOnChar '/' p.data).map String.mk).filter (fun s => s ≠ ""))

/-- The non-collection endpoint names skipped by the plural-noun
check. -/
def nonCollectionNames : List String :=
  ["status", "health", "ping", "version", "info", "docs", "metrics"]

/-- `checkPathNamingConsistency`: trailing-slash consistency, kebab-case,
verbs in paths, and plural nouns for collection endpoints. -/
def checkPathNamingConsistency (paths : List String)
    (violations : List RuleViolation) : List RuleViolation :=
  let pathsWithTrailingSlash :=
    paths.filter (fun p => jsEndsWith p "/" && p ≠ "/")
  let pathsWithoutTrailingSlash :=
    paths.filter (fun p => !jsEndsWith p "/" && p ≠ "/")
  let violations :=
    if pathsWithTrailingSlash.length > 0 ∧ pathsWithoutTrailingSlash.length > 0 then
      violations ++ [mkViolation "" "paths"
        "Inconsistent use of trailing slashes in paths" .warning
        "Use trailing slashes consistently across all paths or remove them all"]
    else violations
  let nonKebabCasePaths := paths.filter (fun p => !kebabCaseTest p)
  let violations :=
    if nonKebabCasePaths.length > 0 then
      violations ++ [mkViolation (nonKebabCasePaths.headD "") "paths"
        "Paths should follow kebab-case naming convention" .warning
        "Use kebab-case for path segments (e.g., /user-profiles instead of /userProfiles or /user_profiles)"]
    else violations
  let violations :=
    paths.foldl
      (fun violations path =>
        match findVerb path.data with
        | some verb =>
            if !jsIncludes path "/actions/" && !jsEndsWith path "/actions" then
              violations ++ [mkViolation path path
                ("Path contains verb \"" ++ verb ++
                  "\" which should be avoided in resource paths")
                .warning
                "Use nouns for resources and HTTP methods to indicate actions. For non-CRUD operations, consider using a dedicated \"actions\" resource"]
            else violations
        | none => violations)
      violations
  let collectionPaths :=
    paths.filter (fun p =>
      match (segmentsOf p).getLast? with
      | none => true
      | some ls => !jsStartsWith ls "\x7b")
  collectionPaths.foldl
    (fun violations path =>
      if !pluralCollectionsTest path then
        match (segmentsOf path).getLast? with
        | some lastSegment =>
            if lastSegment ≠ "" ∧ !(nonCollectionNames.contains lastSegment) ∧
                !jsStartsWith lastSegment "\x7b" then
              violations ++ [mkViolation path path
                "Collection endpoints should use plural nouns" .info
                ("Consider renaming to use plural form (e.g., /" ++
                  lastSegment ++ "s)")]
            else violations
        | none => violations
      else violations)
    violations

/-- Append a value to an insertion-ordered string-keyed record of
string lists (`pathsByMethod[method].push(path)` and the resource
groups). -/
def addToGroup (groups : List (String × List String)) (k v : String) :
    List (String × List String) :=
  if groups.any (fun g => g.1 == k) then
    groups.map (fun g => if g.1 == k then (g.1, g.2 ++ [v]) else g)
  else groups ++ [(k, [v])]

/-- Whether two equally long segment lists can capture the same request:
at every position either segment is a parameter or they coincide. -/
def segmentsConflict (s1 s2 : List String) : Bool :=
  (s1.zip s2).all (fun p =>
    jsStartsWith p.1 "\x7b" || jsStartsWith p.2 "\x7b" || p.1 == p.2)

/-- The `i < j` double loop of the per-method conflict check. -/
def conflictPairs (method : String) (violations : List RuleViolation) :
    List String → List RuleViolation
  | [] => violations
  | p1 :: rest =>
      let violations :=
        rest.foldl
          (fun violations p2 =>
            let seg1 := segmentsOf p1
            let seg2 := segmentsOf p2
            if seg1.length = seg2.length ∧ segmentsConflict seg1 seg2 then
              violations ++ [mkViolation p1
                ("paths[\"" ++ p1 ++ "\"] and paths[\"" ++ p2 ++ "\"]")
                ("Potential path conflict for " ++ jsToUpper method ++
                  " method between \"" ++ p1 ++ "\" and \"" ++ p2 ++ "\"")
                .warning
                "Ensure these paths resolve to different resources or consider consolidating them"]
            else violations)
          violations
      conflictPairs method violations rest

/-- `checkOverlappingPaths`: duplicate keys, per-method conflict pairs
and resources appearing both top-level and nested.  The source also
builds an unused `pathPatterns` array of `RegExp` objects from the
paths; that dead computation is not modelled (for a path whose text
forms an invalid pattern the construction would throw, so the model
accepts a superset of the inputs the source completes on). -/
def checkOverlappingPaths (spec : Json) (paths : List String)
    (violations : List RuleViolation) : List RuleViolation :=
  let uniquePaths := paths.foldl (fun s p => setAddStr s p) []
  let violations :=
    if uniquePaths.length ≠ paths.length then
      violations ++ [mkViolation "" "paths"
        "Duplicate paths detected in the specification" .error
        "Remove duplicate path entries"]
    else violations
  let pathsByMethod :=
    paths.foldl
      (fun groups path =>
        match ((spec.getProp "paths").getD Json.nul).getProp path with
        | none => groups
        | some pathItem =>
            if !pathItem.truthy then groups
            else
              ((jsKeys pathItem).filter (fun k => httpMethods.contains k)).foldl
                (fun groups method => addToGroup groups method path)
                groups)
      []
  let violations :=
    pathsByMethod.foldl
      (fun violations mp => conflictPairs mp.1 violations mp.2)
      violations
  let resourceTypes :=
    paths.foldl
      (fun groups path =>
        (segmentsOf path).foldl
          (fun groups segment =>
            if !jsStartsWith segment "\x7b" then
              addToGroup groups (jsToLower segment) path
            else groups)
          groups)
      []
  resourceTypes.foldl
    (fun violations rt =>
      let (resourceType, pathsWithResource) := rt
      let topLevelPaths :=
        pathsWithResource.filter (fun p =>
          let segments := segmentsOf p
          segments.length ≥ 1 ∧
            jsToLower (segments.headD "") == resourceType)
      let nestedPaths :=
        pathsWithResource.filter (fun p =>
          let segments := segmentsOf p
          segments.length ≥ 3 ∧
            (segments.drop 1).any (fun s => jsToLower s == resourceType))
      if topLevelPaths.length > 0 ∧ nestedPaths.length > 0 then
        violations ++ [mkViolation (topLevelPaths.headD "")
          ("paths with resource \"" ++ resourceType ++ "\"")
          ("Resource \"" ++ resourceType ++
            "\" appears both as top-level and nested resource")
          .info
          "Consider if this design is intentional or if the API structure could be simplified"]
      else violations)
    violations

/-- Short-circuiting monadic `Array.prototype.some`. -/
def jsSomeM (f : α → JsOut Bool) : List α → JsOut Bool
  | [] => .ok false
  | a :: as =>
      JsOut.bind (f a) (fun b => if b then .ok true else jsSomeM f as)

/-- The `hasPathParam` test of `checkCrudConsistency`: a `$ref`
parameter counts as present, an inline one must have the id name and
`in: path`.  `.some` on a truthy non-array `parameters` value throws, as
does `in` applied to a primitive element. -/
def hasPathParam (operation : Json) (idParamName : String) : JsOut Bool :=
  match operation.getProp "parameters" with
  | none => .ok false
  | some .nul => .ok false
  | some (.arr ps) =>
      jsSomeM
        (fun param =>
          match param with
          | .obj fields =>
              if fields.any (fun p => p.1 == "$ref") then .ok true
              else
                .ok ((match (Json.obj fields).getProp "name" with
                      | some (.str n) => n == idParamName
                      | _ => false) &&
                     (match (Json.obj fields).getProp "in" with
                      | some (.str i) => i == "path"
                      | _ => false))
          | .arr _ => .ok false
          | _ => .err)
        ps
  | some _ => .err

/-- `checkCrudConsistency`: group paths by their first segment, then
check collection endpoints (first such path) and id-parameterised
resource endpoints for conventional CRUD methods and for the id
parameter's presence in every read/update/delete operation. -/
def checkCrudConsistency (spec : Json) (paths : List String)
    (violations : List RuleViolation) : JsOut (List RuleViolation) :=
  let resourceGroups :=
    paths.foldl
      (fun groups path =>
        match (segmentsOf path).headD "" with
        | "" => groups
        | s0 => addToGroup groups (jsToLower s0) path)
      []
  jsFoldM
    (fun (violations : List RuleViolation) (rg : String × List String) =>
      let (resourceType, resourcePaths0) := rg
      let collectionPaths :=
        resourcePaths0.filter (fun p =>
          let segments := segmentsOf p
          segments.length = 1 ∨
            (segments.length > 1 ∧
              !jsStartsWith ((segments.drop 1).headD "") "\x7b"))
      let resourcePaths :=
        resourcePaths0.filter (fun p =>
          let segments := segmentsOf p
          segments.length > 1 ∧
            jsStartsWith ((segments.drop 1).headD "") "\x7b")
      let violations :=
        if collectionPaths.length > 0 then
          let collectionPath := collectionPaths.headD ""
          match ((spec.getProp "paths").getD Json.nul).getProp collectionPath with
          | none => violations
          | some pathItem =>
              if !pathItem.truthy then violations
              else
                let violations :=
                  if !(jsTruthyOpt (pathItem.getProp "get")) then
                    violations ++ [mkViolation collectionPath
                      ("paths[\"" ++ collectionPath ++ "\"]")
                      ("Collection endpoint for \"" ++ resourceType ++
                        "\" is missing GET operation for listing")
                      .info
                      "Consider adding GET method to retrieve a list of resources"]
                  else violations
                let violations :=
                  if !(jsTruthyOpt (pathItem.getProp "post")) then
                    violations ++ [mkViolation collectionPath
                      ("paths[\"" ++ collectionPath ++ "\"]")
                      ("Collection endpoint for \"" ++ resourceType ++
                        "\" is missing POST operation for creation")
                      .info
                      "Consider adding POST method to create new resources"]
                  else violations
                let violations :=
                  if jsTruthyOpt (pathItem.getProp "put") then
                    violations ++ [mkViolation collectionPath
                      ("paths[\"" ++ collectionPath ++ "\"].put")
                      ("PUT method on collection endpoint \"" ++ collectionPath ++
                        "\" is unusual")
                      .warning
                      "PUT is typically used for replacing a specific resource, not for collections"]
                  else violations
                if jsTruthyOpt (pathItem.getProp "delete") then
                  violations ++ [mkViolation collectionPath
                    ("paths[\"" ++ collectionPath ++ "\"].delete")
                    ("DELETE method on collection endpoint \"" ++ collectionPath ++
                      "\" should be used carefully")
                    .info
                    "Ensure DELETE on a collection is intentional (bulk delete) and has appropriate safeguards"]
                else violations
        else violations
      jsFoldM
        (fun (violations : List RuleViolation) (resourcePath : String) =>
          match ((spec.getProp "paths").getD Json.nul).getProp resourcePath with
          | none => .ok violations
          | some pathItem =>
              if !pathItem.truthy then .ok violations
              else
                let segments := segmentsOf resourcePath
                let idParam := segments.find? (fun s => jsStartsWith s "\x7b")
                let idParamName :=
                  match idParam with
                  | some ip => String.mk ((ip.data.drop 1).dropLast)
                  | none => "id"
                let violations :=
                  if !(jsTruthyOpt (pathItem.getProp "get")) then
                    violations ++ [mkViolation resourcePath
                      ("paths[\"" ++ resourcePath ++ "\"]")
                      ("Resource endpoint \"" ++ resourcePath ++
                        "\" is missing GET operation for retrieval")
                      .info
                      "Consider adding GET method to retrieve the resource"]
                  else violations
                let violations :=
                  if !(jsTruthyOpt (pathItem.getProp "put")) ∧
                      !(jsTruthyOpt (pathItem.getProp "patch")) then
                    violations ++ [mkViolation resourcePath
                      ("paths[\"" ++ resourcePath ++ "\"]")
                      ("Resource endpoint \"" ++ resourcePath ++
                        "\" is missing PUT or PATCH operation for updates")
                      .info
                      "Consider adding PUT (full replacement) or PATCH (partial update) method"]
                  else violations
                let violations :=
                  if !(jsTruthyOpt (pathItem.getProp "delete")) then
                    violations ++ [mkViolation resourcePath
                      ("paths[\"" ++ resourcePath ++ "\"]")
                      ("Resource endpoint \"" ++ resourcePath ++
                        "\" is missing DELETE operation for deletion")
                      .info
                      "Consider adding DELETE method to remove the resource"]
                  else violations
                let violations :=
                  if jsTruthyOpt (pathItem.getProp "post") ∧
                      jsStartsWith (segments.getLastD "") "\x7b" then
                    violations ++ [mkViolation resourcePath
                      ("paths[\"" ++ resourcePath ++ "\"].post")
                      ("POST method on resource endpoint \"" ++ resourcePath ++
                        "\" is unusual")
                      .info
                      "POST is typically used for creation or actions. Consider using PUT/PATCH for updates or adding a sub-resource or /actions segment"]
                  else violations
                if jsTruthyOpt (pathItem.getProp "get") ∨
                    jsTruthyOpt (pathItem.getProp "put") ∨
                    jsTruthyOpt (pathItem.getProp "patch") ∨
                    jsTruthyOpt (pathItem.getProp "delete") then
                  let operations :=
                    ([pathItem.getProp "get", pathItem.getProp "put",
                      pathItem.getProp "patch", pathItem.getProp "delete"].filterMap
                      (fun o? => if jsTruthyOpt o? then o? else none))
                  jsFoldM
                    (fun (violations : List RuleViolation) (operation : Json) =>
                      JsOut.bind (hasPathParam operation idParamName) (fun hp =>
                        if !hp then
                          .ok (violations ++ [mkViolation resourcePath
                            ("paths[\"" ++ resourcePath ++ "\"]")
                            ("Path parameter \"" ++ idParamName ++
                              "\" is not defined in all operations")
                            .error
                            ("Ensure the path parameter \"" ++ idParamName ++
                              "\" is properly defined in all operations")])
                        else .ok violations))
                    violations operations
                else .ok violations)
        violations resourcePaths)
    violations resourceGroups

/-- `HTTP_METHODS` in object-literal order, reduced to the `hasBody`
flag (the only field the checks read). -/
def HTTP_METHODS : List (String × Bool) :=
  [("get", false), ("post", true), ("put", true), ("delete", false),
   ("patch", true), ("head", false), ("options", false), ("trace", false)]

/-- `checkHttpMethodConsistency`: request-body expectations per method
and conventional success codes. -/
def checkHttpMethodConsistency (spec : Json) (paths : List String)
    (violations : List RuleViolation) : List RuleViolation :=
  paths.foldl
    (fun violations path =>
      match ((spec.getProp "paths").getD Json.nul).getProp path with
      | none => violations
      | some pathItem =>
          if !pathItem.truthy then violations
          else
            HTTP_METHODS.foldl
              (fun violations mh =>
                let (method, hasBody) := mh
                match pathItem.getProp method with
                | none => violations
                | some operation =>
                    if !operation.truthy then violations
                    else
                      let violations :=
                        if !hasBody ∧ jsTruthyOpt (operation.getProp "requestBody") then
                          violations ++ [mkViolation path
                            ("paths[\"" ++ path ++ "\"]." ++ method ++ ".requestBody")
                            (jsToUpper method ++ " method should not have a request body")
                            .warning
                            ("Remove the request body from the " ++ jsToUpper method ++
                              " operation or change the HTTP method")]
                        else violations
                      let violations :=
                        if hasBody ∧ !(jsTruthyOpt (operation.getProp "requestBody")) ∧
                            (method == "put" ∨ method == "post") then
                          violations ++ [mkViolation path
                            ("paths[\"" ++ path ++ "\"]." ++ method)
                            (jsToUpper method ++ " method is missing a request body")
                            .warning
                            ("Add a request body to the " ++ jsToUpper method ++
                              " operation or consider if another HTTP method is more appropriate")]
                        else violations
                      match operation.getProp "responses" with
                      | none => violations
                      | some responses =>
                          if !responses.truthy then violations
                          else
                            let successResponses :=
                              (jsKeys responses).filter (fun code =>
                                jsStartsWith code "2" || code == "default")
                            let violations :=
                              if successResponses.length = 0 then
                                violations ++ [mkViolation path
                                  ("paths[\"" ++ path ++ "\"]." ++ method ++ ".responses")
                                  (jsToUpper method ++ " operation is missing success response")
                                  .warning
                                  "Add appropriate success response codes (e.g., 200, 201, 204)"]
                              else violations
                            let violations :=
                              if method == "post" ∧
                                  !(jsTruthyOpt (responses.getProp "201")) then
                                violations ++ [mkViolation path
                                  ("paths[\"" ++ path ++ "\"]." ++ method ++ ".responses")
                                  "POST operation should typically return 201 Created for resource creation"
                                  .info
                                  "Consider adding a 201 response for resource creation operations"]
                              else violations
                            let violations :=
                              if (method == "put" ∨ method == "patch") ∧
                                  !(jsTruthyOpt (responses.getProp "200")) ∧
                                  !(jsTruthyOpt (responses.getProp "204")) then
                                violations ++ [mkViolation path
                                  ("paths[\"" ++ path ++ "\"]." ++ method ++ ".responses")
                                  (jsToUpper method ++ " operation should return 200 OK or 204 No Content")
                                  .info
                                  "Consider adding 200 (with response body) or 204 (without response body) for update operations"]
                              else violations
                            if method == "delete" ∧
                                !(jsTruthyOpt (responses.getProp "204")) then
                              violations ++ [mkViolation path
                                ("paths[\"" ++ path ++ "\"]." ++ method ++ ".responses")
                                "DELETE operation should typically return 204 No Content"
                                .info
                                "Consider using 204 No Content for successful deletion operations"]
                            else violations)
              violations)
    violations

/-- `/^[a-z][a-zA-Z0-9]*Id$/.test(p)`. -/
def camelIdTest (p : String) : Bool :=
  match p.data.reverse with
  | 'd' :: 'I' :: midrev =>
      (match midrev.reverse with
       | c :: mid =>
           isLowerAZ c && mid.all (fun x => isLowerAZ x || isUpperAZ x || isDigit09 x)
       | [] => false)
  | _ => false

/-- `/^[a-z][a-z0-9]*_id$/.test(p)`. -/
def snakeIdTest (p : String) : Bool :=
  match p.data.reverse with
  | 'd' :: 'i' :: '_' :: midrev =>
      (match midrev.reverse with
       | c :: mid => isLowerAZ c && mid.all (fun x => isLowerAZ x || isDigit09 x)
       | [] => false)
  | _ => false

/-- Collect the names of inline `in: path` parameters of a parameter
array; `$ref` entries are skipped, a truthy non-array throws, and so does
`in` on a primitive element.  An absent `name` adds `undefined` to the
set, which no string can match; it is represented by `null`, equally
unmatchable. -/
def collectPathParamNames (parameters : Json) : JsOut (List Json) :=
  match parameters with
  | .arr ps =>
      jsFoldM
        (fun (acc : List Json) (param : Json) =>
          match param with
          | .obj fields =>
              if fields.any (fun p => p.1 == "$ref") then .ok acc
              else if (match (Json.obj fields).getProp "in" with
                       | some (.str i) => i == "path"
                       | _ => false) then
                .ok (acc ++ [((Json.obj fields).getProp "name").getD Json.nul])
              else .ok acc
          | .arr _ => .ok acc
          | _ => .err)
        [] ps
  | _ => .err

/-- `checkPathParameterConsistency`: id-parameter naming conventions
across the document, then per path and operation that every templated
parameter is declared with `in: path`. -/
def checkPathParameterConsistency (spec : Json) (paths : List String)
    (violations : List RuleViolation) : JsOut (List RuleViolation) :=
  let allParamNames :=
    paths.foldl
      (fun acc p => (scanPathParams p).foldl (fun acc n => setAddStr acc n) acc)
      []
  let idParams := allParamNames.filter (fun n => jsEndsWith (jsToLower n) "id")
  let violations :=
    if idParams.length > 1 then
      let camelCaseIds := idParams.filter camelIdTest
      let snakeCaseIds := idParams.filter snakeIdTest
      if camelCaseIds.length > 0 ∧ snakeCaseIds.length > 0 then
        violations ++ [mkViolation "" "paths"
          "Inconsistent ID parameter naming conventions" .warning
          ("Standardize on either camelCase (" ++ camelCaseIds.headD "" ++
            ") or snake_case (" ++ snakeCaseIds.headD "" ++ ") for ID parameters")]
      else violations
    else violations
  jsFoldM
    (fun (violations : List RuleViolation) (path : String) =>
      match ((spec.getProp "paths").getD Json.nul).getProp path with
      | none => .ok violations
      | some pathItem =>
          if !pathItem.truthy then .ok violations
          else
            let pathParamNames := scanPathParams path
            if pathParamNames.length = 0 then .ok violations
            else
              jsFoldM
                (fun (violations : List RuleViolation) (mv : String × Json) =>
                  let (method, operation) := mv
                  if !(httpMethods.contains method) then .ok violations
                  else if operation.isNull then .err
                  else
                    JsOut.bind
                      (if jsTruthyOpt (operation.getProp "parameters") then
                        collectPathParamNames
                          ((operation.getProp "parameters").getD Json.nul)
                      else .ok [])
                      (fun opNames =>
                        JsOut.bind
                          (if jsTruthyOpt (pathItem.getProp "parameters") then
                            collectPathParamNames
                              ((pathItem.getProp "parameters").getD Json.nul)
                          else .ok [])
                          (fun itemNames =>
                            let definedParams := opNames ++ itemNames
                            .ok (pathParamNames.foldl
                              (fun violations paramName =>
                                if !(definedParams.any (fun n =>
                                    jsSameValue n (Json.str paramName))) then
                                  violations ++ [mkViolation path
                                    ("paths[\"" ++ path ++ "\"]." ++ method)
                                    ("Path parameter \x7b" ++ paramName ++
                                      "\x7d is not defined in " ++ jsToUpper method ++
                                      " operation")
                                    .error
                                    ("Add the path parameter \"" ++ paramName ++
                                      "\" to the operation parameters")]
                                else violations)
                              violations))))
                violations (jsEntries pathItem))
    violations paths

/-- `PathsOperationsRule.evaluate`: score `0` with a single error when
no paths exist; otherwise run the five checks and apply the penalty
formula (`0.7`/`0.2`/`0.1` per error/warning/info and path, the cap at
`weight * 0.7` when any error exists, then round and clamp at zero).
Numbers are exact rationals, so `0.7`, `0.2` and `0.1` stand for the
source's double constants. -/
def evaluate (spec : Json) : JsOut RuleResult :=
  let weight := CRITERIA_WEIGHTS_paths_operations
  let paths? := spec.getProp "paths"
  if !(jsTruthyOpt paths?) ∨ (jsKeys (paths?.getD Json.nul)).length = 0 then
    .ok { score := 0, maxScore := weight,
          violations := [mkViolation "" "paths"
            "No paths defined in the API specification" .error
            "Define paths for your API endpoints"] }
  else
    let paths := jsKeys (paths?.getD Json.nul)
    let violations := checkPathNamingConsistency paths []
    let violations := checkOverlappingPaths spec paths violations
    JsOut.bind (checkCrudConsistency spec paths violations) (fun violations =>
      let violations := checkHttpMethodConsistency spec paths violations
      JsOut.bind (checkPathParameterConsistency spec paths violations)
        (fun violations =>
          let errorViolations : ℚ :=
            ((violations.filter (fun v => v.severity = .error)).length : ℚ)
          let warningViolations : ℚ :=
            ((violations.filter (fun v => v.severity = .warning)).length : ℚ)
          let infoViolations : ℚ :=
            ((violations.filter (fun v => v.severity = .info)).length : ℚ)
          let totalPaths : ℚ := (paths.length : ℚ)
          let errorPenalty : ℚ := errorViolations / totalPaths * (7 / 10)
          let warningPenalty : ℚ := warningViolations / totalPaths * (1 / 5)
          let infoPenalty : ℚ := infoViolations / totalPaths * (1 / 10)
          let score0 : ℚ :=
            weight * (1 - min 1 (errorPenalty + warningPenalty + infoPenalty))
          let score1 : ℚ :=
            if 0 < errorViolations ∧ weight * (7 / 10) < score0 then
              weight * (7 / 10)
            else score0
          .ok { score := max 0 (jroundQ score1), maxScore := weight,
                violations := violations }))

end PathsOperationsRule

/-! ### Claim C5: unresolved schema references -/

/-- A pattern found as a prefix is found as a substring. -/
theorem containsSub_of_isPrefixOf (p s : List Char)
    (h : List.isPrefixOf p s = true) : containsSub p s = true := by
  cases s with
  | nil => simpa [containsSub] using h
  | cons c rest => simp [containsSub, h]

/-- C5.  A schema node that is exactly a `$ref` object whose pointer
does not resolve (`resolveReference` yields `undefined`) makes
`validateSchema` return normally for every positive fuel and every
incoming state, appending exactly one violation — of severity `error`,
with a message containing `Unresolved schema reference` — and recursing
no further (the returned state is final for that branch). -/
theorem schema_rule_unresolved_ref_reports_error
    (fuel : Nat) (spec : Json) (path : String) (st : SchemaTypesRule.SchemaState)
    (r : String) (h : resolveReference r spec = .ok none) :
    SchemaTypesRule.validateSchemaF (fuel + 1) (Json.obj [("$ref", Json.str r)]) path spec st =
      .ok { violations := st.violations ++
              [{ path := SchemaTypesRule.pathHead path, operation := none,
                 location := path,
                 message := "Unresolved schema reference: " ++ r,
                 severity := .error,
                 suggestion := "Ensure the reference '" ++ r ++
                   "' points to a valid schema in the components or elsewhere." }],
            schemasWithViolations := setAddStr st.schemasWithViolations path } ∧
    jsIncludes ("Unresolved schema reference: " ++ r)
      "Unresolved schema reference" = true := by
  constructor
  · show JsOut.bind (resolveMaybeRef (Json.obj [("$ref", Json.str r)]) spec) _ = _
    rw [show resolveMaybeRef (Json.obj [("$ref", Json.str r)]) spec =
      resolveReference r spec from rfl, h]
    rfl
  · have hpre : List.isPrefixOf ("Unresolved schema reference").data
        (("Unresolved schema reference: ").data ++ r.data) = true := rfl
    have hdata : ("Unresolved schema reference: " ++ r).data =
        ("Unresolved schema reference: ").data ++ r.data := by
      simp [String.data_append]
    simpa [jsIncludes, hdata] using
      containsSub_of_isPrefixOf _ _ hpre

/-- A document whose components hold no schemas, so the reference in the
claim's example dangles. -/
def specC5 : Json :=
  Json.obj [("components", Json.obj [("schemas", Json.obj [])])]

/-- Witness for C5 at the claim's own example pointer. -/
theorem schema_rule_unresolved_ref_reports_error_witness :
    resolveReference "#/components/schemas/NonExistent" specC5 = .ok none ∧
    (SchemaTypesRule.validateSchemaF 1
        (Json.obj [("$ref", Json.str "#/components/schemas/NonExistent")])
        "components.schemas.X" specC5 ⟨[], []⟩ =
      .ok { violations :=
              [{ path := SchemaTypesRule.pathHead "components.schemas.X",
                 operation := none,
                 location := "components.schemas.X",
                 message := "Unresolved schema reference: " ++
                   "#/components/schemas/NonExistent",
                 severity := .error,
                 suggestion := "Ensure the reference '" ++
                   "#/components/schemas/NonExistent" ++
                   "' points to a valid schema in the components or elsewhere." }],
            schemasWithViolations := setAddStr [] "components.schemas.X" } ∧
      jsIncludes ("Unresolved schema reference: " ++
        "#/components/schemas/NonExistent") "Unresolved schema reference" = true) :=
  ⟨rfl, schema_rule_unresolved_ref_reports_error 0 specC5 "components.schemas.X"
    ⟨[], []⟩ "#/components/schemas/NonExistent" rfl⟩


/-! ### Claim C3: score bounds for all seven rules -/

/-- Inversion of a successful monadic bind. -/
theorem JsOut.bind_eq_ok {α β : Type} {x : JsOut α} {f : α → JsOut β} {b : β} :
    JsOut.bind x f = .ok b ↔ ∃ a, x = .ok a ∧ f a = .ok b := by
  cases x <;> simp [JsOut.bind]

/-- `Math.round` of a non-negative number is non-negative. -/
theorem jroundQ_nonneg {q : ℚ} (h : 0 ≤ q) : 0 ≤ jroundQ q := by
  have h1 : (0 : ℤ) ≤ jround q := Int.le_floor.mpr (by push_cast; linarith)
  unfold jroundQ
  exact_mod_cast h1

/-- `Math.round` never exceeds an integer bound on its argument. -/
theorem jroundQ_le_nat {q : ℚ} {m : ℕ} (h : q ≤ (m : ℚ)) : jroundQ q ≤ (m : ℚ) := by
  have h2 : jround q < (m : ℤ) + 1 := Int.floor_lt.mpr (by push_cast; linarith)
  have h3 : jround q ≤ (m : ℤ) := by omega
  unfold jroundQ
  exact_mod_cast h3

/-- The shared scoring helper always lands in `[0, weight]` for a
natural-number weight. -/
theorem calculateScore_bounds (vs : List RuleViolation) (t : ℚ) (m : ℕ) :
    0 ≤ calculateScore vs t (m : ℚ) ∧ calculateScore vs t (m : ℚ) ≤ (m : ℚ) := by
  simp only [calculateScore]
  have hden : (0 : ℚ) < max 1 t := lt_max_of_lt_left one_pos
  have hsc : jroundQ ((m : ℚ) *
      (1 - (((vs.filter (fun v => v.severity = .error)).length : ℚ) *
        SEVERITY_SCORE_WEIGHTS .error +
        ((vs.filter (fun v => v.severity = .warning)).length : ℚ) *
        SEVERITY_SCORE_WEIGHTS .warning +
        ((vs.filter (fun v => v.severity = .info)).length : ℚ) *
        SEVERITY_SCORE_WEIGHTS .info) / max 1 t)) ≤ (m : ℚ) := by
    apply jroundQ_le_nat
    have hwvp : 0 ≤ (((vs.filter (fun v => v.severity = .error)).length : ℚ) *
        SEVERITY_SCORE_WEIGHTS .error +
        ((vs.filter (fun v => v.severity = .warning)).length : ℚ) *
        SEVERITY_SCORE_WEIGHTS .warning +
        ((vs.filter (fun v => v.severity = .info)).length : ℚ) *
        SEVERITY_SCORE_WEIGHTS .info) / max 1 t := by
      apply div_nonneg _ hden.le
      simp only [SEVERITY_SCORE_WEIGHTS]
      positivity
    nlinarith [Nat.cast_nonneg (α := ℚ) m]
  constructor
  · exact le_max_left 0 _
  · apply max_le (by positivity)
    split
    · have hm : (0 : ℚ) ≤ (m : ℚ) := Nat.cast_nonneg m
      linarith
    · exact hsc

/-- Rounding `w * (1 - x)` for a non-negative impact `x` stays at or
below the natural-number weight `w`. -/
theorem jround_scaled_le {w x : ℚ} {m : ℕ} (hw : w = (m : ℚ)) (hx : 0 ≤ x) :
    jroundQ (w * (1 - x)) ≤ w := by
  rw [hw]
  exact jroundQ_le_nat (by nlinarith [Nat.cast_nonneg (α := ℚ) m])

/-- C3.  Every rule evaluator that returns normally returns a
`RuleResult` with `0 ≤ score ≤ maxScore` and `maxScore` equal to the
rule's configured weight (schema 20, docs 20, paths 15, response codes
15, examples 10, security 10, miscellaneous 10); the fueled evaluators
satisfy this for every fuel. -/
theorem rules_score_bounds :
    (∀ fuel spec r, SchemaTypesRule.evaluate fuel spec = .ok r →
      0 ≤ r.score ∧ r.score ≤ r.maxScore ∧
        r.maxScore = CRITERIA_WEIGHTS_schema_types) ∧
    (∀ spec r, DescriptionDocsRule.evaluate spec = .ok r →
      0 ≤ r.score ∧ r.score ≤ r.maxScore ∧
        r.maxScore = CRITERIA_WEIGHTS_description_docs) ∧
    (∀ spec r, PathsOperationsRule.evaluate spec = .ok r →
      0 ≤ r.score ∧ r.score ≤ r.maxScore ∧
        r.maxScore = CRITERIA_WEIGHTS_paths_operations) ∧
    (∀ spec r, ResponseCodesRule.evaluate spec = .ok r →
      0 ≤ r.score ∧ r.score ≤ r.maxScore ∧
        r.maxScore = CRITERIA_WEIGHTS_response_codes) ∧
    (∀ spec r, ExamplesRule.evaluate spec = .ok r →
      0 ≤ r.score ∧ r.score ≤ r.maxScore ∧
        r.maxScore = CRITERIA_WEIGHTS_examples) ∧
    (∀ spec r, SecurityRule.evaluate spec = .ok r →
      0 ≤ r.score ∧ r.score ≤ r.maxScore ∧
        r.maxScore = CRITERIA_WEIGHTS_security) ∧
    (∀ fuel spec r, MiscRule.evaluate fuel spec = .ok r →
      0 ≤ r.score ∧ r.score ≤ r.maxScore ∧
        r.maxScore = CRITERIA_WEIGHTS_miscellaneous) := by
  refine ⟨?_, ?_, ?_, ?_, ?_, ?_, ?_⟩
  · intro fuel spec r h
    unfold SchemaTypesRule.evaluate at h
    rw [JsOut.bind_eq_ok] at h
    obtain ⟨acc1, h1, h⟩ := h
    rw [JsOut.bind_eq_ok] at h
    obtain ⟨acc2, h2, h⟩ := h
    simp only [JsOut.ok.injEq] at h
    subst h
    refine ⟨le_max_left 0 _, ?_, rfl⟩
    apply max_le (by norm_num [CRITERIA_WEIGHTS_schema_types])
    split
    · norm_num [CRITERIA_WEIGHTS_schema_types]
    · apply jround_scaled_le (m := 20) (by norm_num [CRITERIA_WEIGHTS_schema_types])
      have hden : (0 : ℚ) < max 1 ((acc1.1 + acc2.1 : ℕ) : ℚ) :=
        lt_max_of_lt_left one_pos
      apply div_nonneg _ (by norm_num)
      apply add_nonneg
      · exact div_nonneg (by positivity) hden.le
      · apply div_nonneg _ hden.le
        simp only [SEVERITY_SCORE_WEIGHTS]
        positivity
  · intro spec r h
    unfold DescriptionDocsRule.evaluate at h
    rw [JsOut.bind_eq_ok] at h
    obtain ⟨s1, h1, h⟩ := h
    rw [JsOut.bind_eq_ok] at h
    obtain ⟨s2, h2, h⟩ := h
    rw [JsOut.bind_eq_ok] at h
    obtain ⟨s3, h3, h⟩ := h
    simp only [JsOut.ok.injEq] at h
    subst h
    have hb := calculateScore_bounds s3.violations (s3.totalItems : ℚ) 20
    have h20 : ((20 : ℕ) : ℚ) = CRITERIA_WEIGHTS_description_docs := by
      norm_num [CRITERIA_WEIGHTS_description_docs]
    rw [h20] at hb
    exact ⟨hb.1, hb.2, rfl⟩
  · intro spec r h
    unfold PathsOperationsRule.evaluate at h
    simp only [] at h
    split at h
    · simp only [JsOut.ok.injEq] at h
      subst h
      refine ⟨?_, ?_, rfl⟩ <;> norm_num [CRITERIA_WEIGHTS_paths_operations]
    · rw [JsOut.bind_eq_ok] at h
      obtain ⟨v1, h1, h⟩ := h
      rw [JsOut.bind_eq_ok] at h
      obtain ⟨v2, h2, h⟩ := h
      simp only [JsOut.ok.injEq] at h
      subst h
      refine ⟨le_max_left 0 _, ?_, rfl⟩
      apply max_le (by norm_num [CRITERIA_WEIGHTS_paths_operations])
      split
      · norm_num [CRITERIA_WEIGHTS_paths_operations, jroundQ, jround]
      · apply jround_scaled_le (m := 15)
          (by norm_num [CRITERIA_WEIGHTS_paths_operations])
        apply le_min (by norm_num)
        positivity
  · intro spec r h
    unfold ResponseCodesRule.evaluate at h
    simp only [] at h
    split at h
    · simp only [JsOut.ok.injEq] at h
      subst h
      refine ⟨?_, ?_, rfl⟩ <;> norm_num [CRITERIA_WEIGHTS_response_codes]
    · rw [JsOut.bind_eq_ok] at h
      obtain ⟨st, h1, h⟩ := h
      simp only [JsOut.ok.injEq] at h
      subst h
      have hb := calculateScore_bounds st.2.2 ((st.2.1 : ℕ) : ℚ) 15
      have h15 : ((15 : ℕ) : ℚ) = CRITERIA_WEIGHTS_response_codes := by
        norm_num [CRITERIA_WEIGHTS_response_codes]
      rw [h15] at hb
      exact ⟨hb.1, hb.2, rfl⟩
  · intro spec r h
    unfold ExamplesRule.evaluate at h
    simp only [] at h
    split at h
    · simp only [JsOut.ok.injEq] at h
      subst h
      refine ⟨?_, ?_, rfl⟩ <;> norm_num [CRITERIA_WEIGHTS_examples]
    · rw [JsOut.bind_eq_ok] at h
      obtain ⟨st, h1, h⟩ := h
      simp only [JsOut.ok.injEq] at h
      subst h
      refine ⟨le_max_left 0 _, ?_, rfl⟩
      exact max_le (by norm_num [CRITERIA_WEIGHTS_examples]) (min_le_left _ _)
  · intro spec r h
    unfold SecurityRule.evaluate at h
    rw [JsOut.bind_eq_ok] at h
    obtain ⟨a, h1, h⟩ := h
    simp only [JsOut.ok.injEq] at h
    subst h
    refine ⟨?_, ?_, rfl⟩
    · simp only [SecurityRule.calcScore]
      exact jroundQ_nonneg (le_max_left 0 _)
    · simp only [SecurityRule.calcScore]
      have h10 : ((10 : ℕ) : ℚ) = CRITERIA_WEIGHTS_security := by
        norm_num [CRITERIA_WEIGHTS_security]
      rw [← h10]
      apply jroundQ_le_nat
      apply max_le (by norm_num)
      exact le_trans (min_le_left _ _) (by norm_num [CRITERIA_WEIGHTS_security])
  · intro fuel spec r h
    unfold MiscRule.evaluate at h
    rw [JsOut.bind_eq_ok] at h
    obtain ⟨r2, h2, h⟩ := h
    rw [JsOut.bind_eq_ok] at h
    obtain ⟨r3, h3, h⟩ := h
    rw [JsOut.bind_eq_ok] at h
    obtain ⟨r4, h4, h⟩ := h
    rw [JsOut.bind_eq_ok] at h
    obtain ⟨r6, h6, h⟩ := h
    rw [JsOut.bind_eq_ok] at h
    obtain ⟨r7, h7, h⟩ := h
    simp only [JsOut.ok.injEq] at h
    subst h
    refine ⟨le_max_left 0 _, ?_, rfl⟩
    exact max_le (by norm_num [CRITERIA_WEIGHTS_miscellaneous]) (min_le_left _ _)

/-- A minimal document (an empty `info` object) on which every rule
returns normally. -/
def specMinimal : Json := Json.obj [("info", Json.obj [])]

/-- Witness for C3: all seven evaluators applied to the minimal
document. -/
theorem rules_score_bounds_witness :
    (∃ r, SchemaTypesRule.evaluate 1 specMinimal = .ok r ∧
      0 ≤ r.score ∧ r.score ≤ r.maxScore) ∧
    (∃ r, DescriptionDocsRule.evaluate specMinimal = .ok r ∧
      0 ≤ r.score ∧ r.score ≤ r.maxScore) ∧
    (∃ r, PathsOperationsRule.evaluate specMinimal = .ok r ∧
      0 ≤ r.score ∧ r.score ≤ r.maxScore) ∧
    (∃ r, ResponseCodesRule.evaluate specMinimal = .ok r ∧
      0 ≤ r.score ∧ r.score ≤ r.maxScore) ∧
    (∃ r, ExamplesRule.evaluate specMinimal = .ok r ∧
      0 ≤ r.score ∧ r.score ≤ r.maxScore) ∧
    (∃ r, SecurityRule.evaluate specMinimal = .ok r ∧
      0 ≤ r.score ∧ r.score ≤ r.maxScore) ∧
    (∃ r, MiscRule.evaluate 5 specMinimal = .ok r ∧
      0 ≤ r.score ∧ r.score ≤ r.maxScore) :=
  ⟨⟨_, rfl, (rules_score_bounds.1 1 specMinimal _ rfl).1,
      (rules_score_bounds.1 1 specMinimal _ rfl).2.1⟩,
   ⟨_, rfl, (rules_score_bounds.2.1 specMinimal _ rfl).1,
      (rules_score_bounds.2.1 specMinimal _ rfl).2.1⟩,
   ⟨_, rfl, (rules_score_bounds.2.2.1 specMinimal _ rfl).1,
      (rules_score_bounds.2.2.1 specMinimal _ rfl).2.1⟩,
   ⟨_, rfl, (rules_score_bounds.2.2.2.1 specMinimal _ rfl).1,
      (rules_score_bounds.2.2.2.1 specMinimal _ rfl).2.1⟩,
   ⟨_, rfl, (rules_score_bounds.2.2.2.2.1 specMinimal _ rfl).1,
      (rules_score_bounds.2.2.2.2.1 specMinimal _ rfl).2.1⟩,
   ⟨_, rfl, (rules_score_bounds.2.2.2.2.2.1 specMinimal _ rfl).1,
      (rules_score_bounds.2.2.2.2.2.1 specMinimal _ rfl).2.1⟩,
   ⟨_, rfl, (rules_score_bounds.2.2.2.2.2.2 5 specMinimal _ rfl).1,
      (rules_score_bounds.2.2.2.2.2.2 5 specMinimal _ rfl).2.1⟩⟩

/-! ### Claim C10: termination of the schema traversal -/

/-- A bind diverges when its first component does. -/
theorem bind_ne_diverge_left {α β : Type} {a : JsOut α} {f : α → JsOut β}
    (h : JsOut.bind a f ≠ .diverge) : a ≠ .diverge := by
  cases a <;> simp_all [JsOut.bind]

/-- A bind of non-diverging parts does not diverge. -/
theorem bind_nd {α β : Type} {a : JsOut α} {f : α → JsOut β}
    (ha : a ≠ .diverge) (hf : ∀ v, a = .ok v → f v ≠ .diverge) :
    JsOut.bind a f ≠ .diverge := by
  cases a with
  | ok v => exact hf v rfl
  | err => simp [JsOut.bind]
  | diverge => exact absurd rfl ha

/-- Binds with continuations that agree on non-diverging runs agree. -/
theorem bind_congr_nd {α β : Type} {a : JsOut α} {f g : α → JsOut β}
    (h : ∀ v, a = .ok v → f v ≠ .diverge → g v = f v)
    (hnd : JsOut.bind a f ≠ .diverge) : JsOut.bind a g = JsOut.bind a f := by
  cases a with
  | ok v => exact h v rfl hnd
  | err => rfl
  | diverge => rfl

/-- A fold of non-diverging steps does not diverge. -/
theorem foldM_nd {σ α : Type} {f : σ → α → JsOut σ} {l : List α}
    (h : ∀ st a, a ∈ l → f st a ≠ .diverge) :
    ∀ st, jsFoldM f st l ≠ .diverge := by
  induction l with
  | nil => intro st; simp
  | cons a as ih =>
      intro st
      simp only [jsFoldM_cons]
      apply bind_nd (h st a (by simp))
      intro v _
      exact ih (fun st b hb => h st b (by simp [hb])) v

/-- Folds whose steps agree on non-diverging runs agree. -/
theorem foldM_congr_nd {σ α : Type} {f g : σ → α → JsOut σ} {l : List α}
    (h : ∀ st a, a ∈ l → f st a ≠ .diverge → g st a = f st a) :
    ∀ st, jsFoldM f st l ≠ .diverge → jsFoldM g st l = jsFoldM f st l := by
  induction l with
  | nil => intro st _; rfl
  | cons a as ih =>
      intro st hnd
      simp only [jsFoldM_cons] at hnd ⊢
      have h1 : f st a ≠ .diverge := bind_ne_diverge_left hnd
      rw [h st a (by simp) h1]
      apply bind_congr_nd _ hnd
      intro v hv hnd2
      exact ih (fun st b hb => h st b (by simp [hb])) v hnd2

/-- The reference walk never diverges. -/
theorem resolveRefWalk_ne_diverge : ∀ (parts : List String) (cur : Json),
    resolveRefWalk cur parts ≠ .diverge := by
  intro parts
  induction parts with
  | nil => intro cur; simp [resolveRefWalk]
  | cons p ps ih =>
      intro cur
      cases cur <;> simp only [resolveRefWalk] <;> try simp
      all_goals
        (cases h : Json.getProp _ p with
         | none => simp
         | some v =>
             simp only []
             split
             · exact ih v
             · simp)

/-- `resolveReference` never diverges. -/
theorem resolveReference_ne_diverge (r : String) (spec : Json) :
    resolveReference r spec ≠ .diverge := by
  unfold resolveReference
  split
  · exact resolveRefWalk_ne_diverge _ _
  · simp

/-- `resolveMaybeRef` never diverges. -/
theorem resolveMaybeRef_ne_diverge (x spec : Json) :
    resolveMaybeRef x spec ≠ .diverge := by
  unfold resolveMaybeRef
  cases x <;> simp
  split
  · split
    · exact resolveReference_ne_diverge _ _
    · simp
    · simp
  · simp

/-- The child schemas the traversal recurses into, computed from the
resolved value: property schemas and `additionalProperties` of object
schemas, `items` of array schemas, and the branches of
`allOf`/`oneOf`/`anyOf`. -/
def childrenOfResolved (resolved? : Option Json) : List Json :=
  if !(jsTruthyOpt resolved?) then []
  else
    let r := resolved?.getD Json.nul
    let ap := r.getProp "additionalProperties"
    let apTypeofObject : Bool :=
      match ap with
      | some (.obj _) | some (.arr _) | some .nul => true
      | _ => false
    let properties? := r.getProp "properties"
    let objKids :=
      if SchemaTypesRule.typeIs r "object" then
        (if jsTruthyOpt properties? then
          (jsEntries (properties?.getD Json.nul)).map Prod.snd
        else []) ++
        (if apTypeofObject then [ap.getD Json.nul] else [])
      else []
    let itemKids :=
      if SchemaTypesRule.typeIs r "array" then
        match r.getProp "items" with
        | some items => if items.truthy then [items] else []
        | none => []
      else []
    let compKids (key : String) : List Json :=
      match r.getProp key with
      | some (.arr subs) => if (Json.arr subs).truthy then subs else []
      | _ => []
    objKids ++ itemKids ++ compKids "allOf" ++ compKids "oneOf" ++ compKids "anyOf"

/-- The child schemas of a schema node in a given document: resolve,
then read the recursion targets off the resolved value. -/
def childrenOf (spec x : Json) : List Json :=
  match resolveMaybeRef x spec with
  | .ok o => childrenOfResolved o
  | _ => []

/-- An element paired by `enum` is an element of the list. -/
theorem snd_mem_of_mem_enum {α : Type} {l : List α} {iv : ℕ × α}
    (h : iv ∈ l.enum) : iv.2 ∈ l := by
  have h2 := List.mem_map_of_mem Prod.snd h
  rwa [List.enum_map_snd] at h2

theorem mem_childrenOfResolved_props {resolved? : Option Json} {pv : String × Json}
    (h1 : jsTruthyOpt resolved? = true)
    (hobj : SchemaTypesRule.typeIs (resolved?.getD Json.nul) "object" = true)
    (hprops : jsTruthyOpt ((resolved?.getD Json.nul).getProp "properties") = true)
    (hpv : pv ∈ jsEntries (((resolved?.getD Json.nul).getProp "properties").getD Json.nul)) :
    pv.2 ∈ childrenOfResolved resolved? := by
  simp [childrenOfResolved, h1, hobj, hprops]
  exact Or.inl ⟨pv.1, by simpa using hpv⟩

theorem mem_childrenOfResolved_ap {resolved? : Option Json}
    (h1 : jsTruthyOpt resolved? = true)
    (hobj : SchemaTypesRule.typeIs (resolved?.getD Json.nul) "object" = true)
    (hap : (match (resolved?.getD Json.nul).getProp "additionalProperties" with
            | some (.obj _) | some (.arr _) | some .nul => true
            | _ => false) = true) :
    ((resolved?.getD Json.nul).getProp "additionalProperties").getD Json.nul ∈
      childrenOfResolved resolved? := by
  simp [childrenOfResolved, h1, hobj]
  exact Or.inr (Or.inl hap)

theorem mem_childrenOfResolved_items {resolved? : Option Json} {items : Json}
    (h1 : jsTruthyOpt resolved? = true)
    (harr : SchemaTypesRule.typeIs (resolved?.getD Json.nul) "array" = true)
    (hitem : (resolved?.getD Json.nul).getProp "items" = some items)
    (htr : items.truthy = true) :
    items ∈ childrenOfResolved resolved? := by
  simp [childrenOfResolved, h1, harr, hitem, htr]

theorem mem_childrenOfResolved_comp {resolved? : Option Json} {key : String}
    {subs : List Json} {y : Json}
    (h1 : jsTruthyOpt resolved? = true)
    (hkey : key = "allOf" ∨ key = "oneOf" ∨ key = "anyOf")
    (hk : (resolved?.getD Json.nul).getProp key = some (Json.arr subs))
    (hy : y ∈ subs) :
    y ∈ childrenOfResolved resolved? := by
  rcases hkey with h | h | h <;> subst h <;>
    simp [childrenOfResolved, h1, hk, Json.truthy, hy]


/-- If the recursion does not diverge on any child of the schema node,
one unfolding of the body does not diverge. -/
theorem validateSchemaBody_nd
    (rec : Json → String → SchemaTypesRule.SchemaState → JsOut SchemaTypesRule.SchemaState)
    (schema : Json) (p : String) (spec : Json) (st : SchemaTypesRule.SchemaState)
    (hrec : ∀ y ∈ childrenOf spec schema, ∀ q st2, rec y q st2 ≠ .diverge) :
    SchemaTypesRule.validateSchemaBody rec schema p spec st ≠ .diverge := by
  unfold SchemaTypesRule.validateSchemaBody
  apply bind_nd (resolveMaybeRef_ne_diverge _ _)
  intro resolved? hres
  have hrec' : ∀ y ∈ childrenOfResolved resolved?, ∀ q st2, rec y q st2 ≠ .diverge := by
    intro y hy
    exact hrec y (by unfold childrenOf; rw [hres]; exact hy)
  clear hres hrec
  simp only []
  split
  · simp
  · rename_i htruthy0
    have htruthy : jsTruthyOpt resolved? = true := by simpa using htruthy0
    apply bind_nd
    · split
      · rename_i hobj
        apply bind_nd
        · split
          · rename_i hprops
            apply foldM_nd
            intro st3 pv hpv
            exact hrec' pv.2 (mem_childrenOfResolved_props htruthy hobj hprops hpv) _ _
          · simp
        · intro v _
          apply bind_nd
          · split
            · rename_i hap
              exact hrec' _ (mem_childrenOfResolved_ap htruthy hobj hap) _ _
            · simp
          · intro v2 _
            split <;> simp
      · simp
    · intro v _
      apply bind_nd
      · split
        · rename_i harr
          split
          · rename_i items hitem
            split
            · rename_i htr
              exact hrec' items (mem_childrenOfResolved_items htruthy harr hitem htr) _ _
            · simp
          · simp
        · simp
      · intro v3 _
        apply bind_nd
        · split
          · simp
          · rename_i va hva
            split
            · simp
            · split
              · rename_i subs
                apply foldM_nd
                intro st4 iv hiv
                exact hrec' iv.2
                  (mem_childrenOfResolved_comp htruthy (Or.inl rfl) hva
                    (snd_mem_of_mem_enum hiv)) _ _
              · simp
        · intro v4 _
          apply bind_nd
          · split
            · simp
            · rename_i va hva
              split
              · simp
              · split
                · rename_i subs
                  apply foldM_nd
                  intro st4 iv hiv
                  exact hrec' iv.2
                    (mem_childrenOfResolved_comp htruthy (Or.inr (Or.inl rfl)) hva
                      (snd_mem_of_mem_enum hiv)) _ _
                · simp
          · intro v5 _
            apply bind_nd
            · split
              · simp
              · rename_i va hva
                split
                · simp
                · split
                  · rename_i subs
                    apply foldM_nd
                    intro st4 iv hiv
                    exact hrec' iv.2
                      (mem_childrenOfResolved_comp htruthy (Or.inr (Or.inr rfl)) hva
                        (snd_mem_of_mem_enum hiv)) _ _
                  · simp
            · intro v6 _
              apply bind_nd
              · split
                · simp
                · split
                  · simp
                  · apply bind_nd
                    · split <;> simp
                    · intro v7 _
                      split
                      · split <;> simp
                      · simp
              · intro v8 _
                apply bind_nd
                · split
                  · apply foldM_nd
                    intro st5 pv _
                    apply bind_nd (resolveMaybeRef_ne_diverge _ _)
                    intro v9 _
                    split <;> simp
                  · simp
                · intro v10 _
                  split <;> simp

/-- Full bind congruence up to non-divergence of the reference run. -/
theorem bind_congr_nd2 {α β : Type} {a a' : JsOut α} {f g : α → JsOut β}
    (hnd : JsOut.bind a f ≠ .diverge)
    (ha : a ≠ .diverge → a' = a)
    (hf : ∀ v, a = .ok v → f v ≠ .diverge → g v = f v) :
    JsOut.bind a' g = JsOut.bind a f := by
  rw [ha (bind_ne_diverge_left hnd)]
  exact bind_congr_nd hf hnd

/-- Two recursion functions that agree wherever the first does not
diverge give equal bodies, provided the first body run does not
diverge. -/
theorem validateSchemaBody_congr
    (rec rec' : Json → String → SchemaTypesRule.SchemaState → JsOut SchemaTypesRule.SchemaState)
    (schema : Json) (p : String) (spec : Json) (st : SchemaTypesRule.SchemaState)
    (hrec : ∀ y q st2, rec y q st2 ≠ .diverge → rec' y q st2 = rec y q st2)
    (hnd : SchemaTypesRule.validateSchemaBody rec schema p spec st ≠ .diverge) :
    SchemaTypesRule.validateSchemaBody rec' schema p spec st =
      SchemaTypesRule.validateSchemaBody rec schema p spec st := by
  unfold SchemaTypesRule.validateSchemaBody at hnd ⊢
  apply bind_congr_nd _ hnd
  intro resolved? hres hnd2
  simp only [] at hnd2 ⊢
  split
  · rfl
  · rename_i hcond
    rw [if_neg hcond] at hnd2
    apply bind_congr_nd2 hnd2
    · intro hndA
      split
      · rename_i hobj
        rw [if_pos hobj] at hndA
        apply bind_congr_nd2 hndA
        · intro hndP
          split
          · rename_i hprops
            rw [if_pos hprops] at hndP
            exact foldM_congr_nd (fun st3 pv _ h => hrec pv.2 _ st3 h) _ hndP
          · rfl
        · intro v hv hnd3
          apply bind_congr_nd2 hnd3
          · intro hnd4
            split
            · rename_i hap
              rw [if_pos hap] at hnd4
              exact hrec _ _ _ hnd4
            · rfl
          · intro v2 _ _
            rfl
      · rfl
    · intro v hv hnd5
      apply bind_congr_nd2 hnd5
      · intro hnd6
        split
        · rename_i harr
          rw [if_pos harr] at hnd6
          split
          · rename_i items hitem
            nth_rewrite 1 [hitem] at hnd6
            simp only [] at hnd6
            split
            · rename_i htr
              rw [if_pos htr] at hnd6
              exact hrec _ _ _ hnd6
            · rfl
          · rfl
        · rfl
      · intro v3 _ hnd7
        apply bind_congr_nd2 hnd7
        · intro hnd8
          split
          · rfl
          · rename_i va hva
            nth_rewrite 1 [hva] at hnd8
            simp only [] at hnd8
            split
            · rfl
            · rename_i hntr
              rw [if_neg hntr] at hnd8
              split
              · simp only [] at hnd8
                exact foldM_congr_nd (fun st4 iv _ h => hrec iv.2 _ st4 h) _ hnd8
              · rfl
        · intro v4 _ hnd9
          apply bind_congr_nd2 hnd9
          · intro hnd10
            split
            · rfl
            · rename_i va hva
              nth_rewrite 1 [hva] at hnd10
              simp only [] at hnd10
              split
              · rfl
              · rename_i hntr
                rw [if_neg hntr] at hnd10
                split
                · simp only [] at hnd10
                  exact foldM_congr_nd (fun st4 iv _ h => hrec iv.2 _ st4 h) _ hnd10
                · rfl
          · intro v5 _ hnd11
            apply bind_congr_nd2 hnd11
            · intro hnd12
              split
              · rfl
              · rename_i va hva
                nth_rewrite 1 [hva] at hnd12
                simp only [] at hnd12
                split
                · rfl
                · rename_i hntr
                  rw [if_neg hntr] at hnd12
                  split
                  · simp only [] at hnd12
                    exact foldM_congr_nd (fun st4 iv _ h => hrec iv.2 _ st4 h) _ hnd12
                  · rfl
            · intro v6 _ _
              rfl

/-- Once the traversal completes at some fuel, any larger fuel computes
the same result. -/
theorem validateSchemaF_mono : ∀ (n m : Nat), n ≤ m → ∀ (x : Json) (p : String)
    (spec : Json) (st : SchemaTypesRule.SchemaState),
    SchemaTypesRule.validateSchemaF n x p spec st ≠ .diverge →
    SchemaTypesRule.validateSchemaF m x p spec st =
      SchemaTypesRule.validateSchemaF n x p spec st := by
  intro n
  induction n with
  | zero =>
      intro m _ x p spec st hnd
      exact absurd rfl hnd
  | succ n ih =>
      intro m hm x p spec st hnd
      obtain ⟨m', rfl⟩ : ∃ m', m = m' + 1 := ⟨m - 1, by omega⟩
      simp only [SchemaTypesRule.validateSchemaF] at hnd ⊢
      exact validateSchemaBody_congr _ _ _ _ _ _
        (fun y q st2 h => ih m' (by omega) y q spec st2 h) hnd

/-- A common fuel sufficient for finitely many child schemas. -/
theorem exists_uniform_fuel {spec : Json} {l : List Json}
    (h : ∀ y ∈ l, ∃ n, ∀ q st,
      SchemaTypesRule.validateSchemaF n y q spec st ≠ .diverge) :
    ∃ N, ∀ y ∈ l, ∀ q st,
      SchemaTypesRule.validateSchemaF N y q spec st ≠ .diverge := by
  induction l with
  | nil => exact ⟨0, by simp⟩
  | cons a as ih =>
      obtain ⟨n, hn⟩ := h a (by simp)
      obtain ⟨N, hN⟩ := ih (fun y hy => h y (by simp [hy]))
      refine ⟨max n N, ?_⟩
      intro y hy q st
      rcases List.mem_cons.mp hy with rfl | hy
      · rw [validateSchemaF_mono n (max n N) (le_max_left _ _) y q spec st (hn q st)]
        exact hn q st
      · rw [validateSchemaF_mono N (max n N) (le_max_right _ _) y q spec st
          (hN y hy q st)]
        exact hN y hy q st

/-- The schema node `{"$ref": "#/components/schemas/A"}`. -/
def cyclicRefNode : Json :=
  Json.obj [("$ref", Json.str "#/components/schemas/A")]

/-- A document whose schema `A` is an object whose property `x` refers
back to `A`: the reachable schema graph has a cycle. -/
def cyclicSpec : Json :=
  Json.obj [("components", Json.obj [("schemas", Json.obj [("A",
    Json.obj [("type", Json.str "object"),
              ("properties", Json.obj [("x", cyclicRefNode)])])])])]

/-- Extracting the continuation of a completed bind. -/
theorem bind_ok_nd {α β : Type} {a : JsOut α} {f : α → JsOut β} {v : α}
    (h : JsOut.bind a f ≠ .diverge) (ha : a = .ok v) : f v ≠ .diverge := by
  rw [ha] at h
  simpa using h

/-- On the cyclic document the traversal exhausts any fuel. -/
theorem cyclic_ref_diverges : ∀ (fuel : Nat) (p : String)
    (st : SchemaTypesRule.SchemaState),
    SchemaTypesRule.validateSchemaF fuel cyclicRefNode p cyclicSpec st = .diverge := by
  intro fuel
  induction fuel with
  | zero => intro p st; rfl
  | succ n ih =>
      intro p st
      by_contra hne
      simp only [SchemaTypesRule.validateSchemaF] at hne
      unfold SchemaTypesRule.validateSchemaBody at hne
      have e1 := bind_ok_nd hne (show resolveMaybeRef cyclicRefNode cyclicSpec =
        .ok (some (Json.obj [("type", Json.str "object"),
          ("properties", Json.obj [("x", cyclicRefNode)])])) from rfl)
      simp only [] at e1
      rw [if_neg (by decide)] at e1
      have e2 := bind_ne_diverge_left e1
      rw [if_pos (by decide)] at e2
      have e3 := bind_ne_diverge_left e2
      rw [if_pos (by decide)] at e3
      rw [show jsEntries ((((some (Json.obj [("type", Json.str "object"),
          ("properties", Json.obj [("x", cyclicRefNode)])])).getD
            Json.nul).getProp "properties").getD Json.nul) =
        [("x", cyclicRefNode)] from rfl] at e3
      rw [jsFoldM_cons] at e3
      have e4 := bind_ne_diverge_left e3
      simp only [] at e4
      exact e4 (ih _ _)

/-- C10.  The traversal of `validateSchema` terminates on every schema
whose reachable child graph (through `$ref` resolution into `properties`,
`items`, `additionalProperties` and `allOf`/`oneOf`/`anyOf` branches)
admits no infinite descent — `Acc` over the child relation, which for the
finitely-branching graph of a document is exactly acyclicity of the
reachable schema graph: some fuel makes the fueled traversal complete.
Conversely the source carries no visited-set or depth bound, and the
precondition is required: on a document whose schema `A` has a property
referring back to `A`, the traversal exhausts every fuel. -/
theorem schema_validation_terminates_iff_acyclic_precondition :
    (∀ spec schema, Acc (fun y x => y ∈ childrenOf spec x) schema →
      ∃ fuel, ∀ p st,
        SchemaTypesRule.validateSchemaF fuel schema p spec st ≠ .diverge) ∧
    (∀ fuel p st,
      SchemaTypesRule.validateSchemaF fuel cyclicRefNode p cyclicSpec st =
        .diverge) := by
  constructor
  · intro spec schema hacc
    induction hacc with
    | intro x hx ih =>
        obtain ⟨N, hN⟩ := exists_uniform_fuel (fun y hy => ih y hy)
        refine ⟨N + 1, ?_⟩
        intro p st
        simp only [SchemaTypesRule.validateSchemaF]
        exact validateSchemaBody_nd _ _ _ _ _ (fun y hy q st2 => hN y hy q st2)
  · exact cyclic_ref_diverges

/-- A leaf schema with no children. -/
def stringSchema : Json := Json.obj [("type", Json.str "string")]

/-- Witness for C10: the child relation below `stringSchema` in the
empty document is trivially well-founded, so the traversal terminates. -/
theorem schema_validation_terminates_witness :
    ∃ fuel, ∀ p st, SchemaTypesRule.validateSchemaF fuel stringSchema p
      (Json.obj []) st ≠ .diverge :=
  schema_validation_terminates_iff_acyclic_precondition.1 (Json.obj []) stringSchema
    (Acc.intro _ (fun _ hy => absurd hy (by
      rw [show childrenOf (Json.obj []) stringSchema = [] from rfl]
      simp)))

/-! ### Claim C8: docs-score monotonicity under added descriptions -/

/-- The counterexample document: the path key `users` has no slash, so
the JSON pointer `#/paths/users/get/description` can walk into it. -/
def docsSpecBefore : Json :=
  Json.obj [
    ("info", Json.obj [("description", Json.str "A demonstration API")]),
    ("paths", Json.obj [("users", Json.obj [("get", Json.obj [
      ("responses", Json.obj [
        ("a", Json.obj [("$ref", Json.str "#/paths/users/get/description")]),
        ("b", Json.obj [("$ref", Json.str "#/paths/users/get/description")])])])])])]

/-- The same document after adding the meaningful description
`hello world` to the GET operation (nothing else changed). -/
def docsSpecAfter : Json :=
  Json.obj [
    ("info", Json.obj [("description", Json.str "A demonstration API")]),
    ("paths", Json.obj [("users", Json.obj [("get", Json.obj [
      ("responses", Json.obj [
        ("a", Json.obj [("$ref", Json.str "#/paths/users/get/description")]),
        ("b", Json.obj [("$ref", Json.str "#/paths/users/get/description")])]),
      ("description", Json.str "hello world")])])])]

/-- C8 counterexample: before the change the GET operation under the
path key `users` lacks any meaningful description or summary (one error
violation, three counted items, score 12); adding the meaningful
description `hello world` removes that violation but makes the two
response `$ref`s — which point at `#/paths/users/get/description` —
suddenly resolve to the new description string, adding two response
description errors and two counted items, so the score drops to 11. -/
theorem docs_monotonicity_counterexample :
    ∃ r1 r2, DescriptionDocsRule.evaluate docsSpecBefore = .ok r1 ∧
      DescriptionDocsRule.evaluate docsSpecAfter = .ok r2 ∧
      r1.score = 12 ∧ r2.score = 11 ∧ r2.score < r1.score ∧
      DescriptionDocsRule.hasValidDescription
        ((Json.obj [("responses", Json.obj [
          ("a", Json.obj [("$ref", Json.str "#/paths/users/get/description")]),
          ("b", Json.obj [("$ref", Json.str "#/paths/users/get/description")])])]).getProp
          "description") = .ok false ∧
      DescriptionDocsRule.hasValidDescription
        (some (Json.str "hello world")) = .ok true := by
  refine ⟨_, _, rfl, rfl, ?_, ?_, ?_, rfl, rfl⟩ <;>
    norm_num +decide [calculateScore, mkViolation, mkViolationOp, SEVERITY_SCORE_WEIGHTS,
      CRITERIA_WEIGHTS_description_docs, jroundQ, jround, List.filter_cons,
      List.filter_nil]

namespace DescriptionDocsRule

/-- Pointwise combination of two counter states: the rule's checks only
ever extend the state, so every run from `st` is the run from the empty
state with `st` prepended. -/
def DocsCount.add (a b : DocsCount) : DocsCount :=
  ⟨a.violations ++ b.violations, a.totalItems + b.totalItems,
    a.itemsWithViolations + b.itemsWithViolations⟩

/-- The empty counter state. -/
def DocsCount.zero : DocsCount := ⟨[], 0, 0⟩

theorem DocsCount.zero_add (d : DocsCount) : DocsCount.zero.add d = d := by
  cases d; simp [DocsCount.add, DocsCount.zero]

theorem DocsCount.add_assoc (a b c : DocsCount) :
    (a.add b).add c = a.add (b.add c) := by
  cases a; cases b; cases c
  simp [DocsCount.add, Nat.add_assoc]

/-- Delta form of a state transformer: running from `st` equals running
from the empty state and prepending `st`. -/
def Delta (g : DocsCount → JsOut DocsCount) : Prop :=
  ∀ st, g st = JsOut.bind (g DocsCount.zero) (fun d => .ok (st.add d))

theorem JsOut.bind_assoc {α β γ : Type} (a : JsOut α) (f : α → JsOut β)
    (g : β → JsOut γ) :
    JsOut.bind (JsOut.bind a f) g = JsOut.bind a (fun x => JsOut.bind (f x) g) := by
  cases a <;> rfl

/-- A fold of delta steps is delta. -/
theorem delta_foldM {α : Type} {f : DocsCount → α → JsOut DocsCount} {l : List α}
    (h : ∀ a ∈ l, Delta (fun st => f st a)) :
    Delta (fun st => jsFoldM f st l) := by
  induction l with
  | nil =>
      intro st
      simp only [jsFoldM_nil, JsOut.bind_ok]
      cases st
      simp [DocsCount.add, DocsCount.zero]
  | cons a as ih =>
      intro st
      have ha : ∀ st2, f st2 a = JsOut.bind (f DocsCount.zero a)
          (fun d => .ok (st2.add d)) := h a (by simp)
      have hrec : ∀ st2, jsFoldM f st2 as = JsOut.bind (jsFoldM f DocsCount.zero as)
          (fun d => .ok (st2.add d)) := ih (fun b hb => h b (by simp [hb]))
      simp only [jsFoldM_cons]
      rw [ha st, JsOut.bind_assoc]
      conv_rhs => rw [ha DocsCount.zero, JsOut.bind_assoc]
      cases hfa : f DocsCount.zero a with
      | ok d =>
          simp only [JsOut.bind_ok]
          rw [hrec (st.add d), hrec (DocsCount.zero.add d)]
          rw [JsOut.bind_assoc, DocsCount.zero_add]
          cases hrest : jsFoldM f DocsCount.zero as with
          | ok d2 => simp [DocsCount.add_assoc]
          | err => rfl
          | diverge => rfl
      | err => rfl
      | diverge => rfl

end DescriptionDocsRule

/-- A node at a resolution site whose handling cannot depend on the
document: either it carries no local (`#/`) `$ref`, or it is malformed in
a way that throws identically under every document. -/
def topRefBlind (x : Json) : Bool :=
  match x with
  | .obj fields =>
      if fields.any (fun p => p.1 == "$ref") then
        match (Json.obj fields).getProp "$ref" with
        | some (.str r) => !jsStartsWith r "#/"
        | _ => true
      else true
  | _ => true

/-- A pointer that does not start with `#/` resolves to `undefined` in
every document. -/
theorem resolveReference_not_local {r : String} (h : jsStartsWith r "#/" = false)
    (s : Json) : resolveReference r s = .ok none := by
  unfold resolveReference
  rw [if_neg (by simp [h])]

namespace DescriptionDocsRule

/-- `checkOneParameter` on a blind parameter is independent of the
document and extends any incoming state by a fixed delta. -/
theorem checkOneParameter_delta (pn : String) (mth : Option String)
    {param : Json} (hb : topRefBlind param = true) (s1 s2 : Json)
    (st : DocsCount) :
    checkOneParameter pn mth s1 st param =
      JsOut.bind (checkOneParameter pn mth s2 DocsCount.zero param)
        (fun d => .ok (st.add d)) := by
  unfold checkOneParameter
  cases param with
  | obj fields =>
      simp only []
      by_cases href : fields.any (fun p => p.1 == "$ref") = true
      · rw [if_pos href, if_pos href]
        simp only [topRefBlind, if_pos href] at hb
        cases href2 : (Json.obj fields).getProp "$ref" with
        | none => simp [href2]
        | some v =>
            cases v with
            | str r =>
                rw [href2] at hb
                simp only [] at hb ⊢
                rw [resolveReference_not_local (by simpa using hb) s1,
                  resolveReference_not_local (by simpa using hb) s2]
                simp [jsTruthyOpt, DocsCount.add, DocsCount.zero]
            | nul => simp [href2]
            | bool b => simp [href2]
            | num q => simp [href2]
            | arr l => simp [href2]
            | obj f2 => simp [href2]
      · rw [if_neg href, if_neg href]
        simp only [JsOut.bind_ok, jsTruthyOpt, Json.truthy]
        cases hv : hasValidDescription ((Json.obj fields).getProp "description") with
        | ok b =>
            cases b <;>
              simp [hv, DocsCount.add, DocsCount.zero]
        | err => simp [hv]
        | diverge => simp [hv]
  | arr elems =>
      simp only [JsOut.bind_ok, jsTruthyOpt, Json.truthy]
      cases hv : hasValidDescription ((Json.arr elems).getProp "description") with
      | ok b =>
          cases b <;>
            simp [hv, DocsCount.add, DocsCount.zero]
      | err => simp [hv]
      | diverge => simp [hv]
  | nul => rfl
  | bool b => rfl
  | num q => rfl
  | str s => rfl

end DescriptionDocsRule

/-- Blind resolution is independent of the document. -/
theorem resolveMaybeRef_blind {x : Json} (h : topRefBlind x = true) (s1 s2 : Json) :
    resolveMaybeRef x s1 = resolveMaybeRef x s2 := by
  cases x <;> try rfl
  rename_i fields
  simp only [resolveMaybeRef]
  split
  · rename_i hsp
    have hany : (fields.any (fun p => p.1 == "$ref")) = true := by
      simpa [Json.hasProp] using hsp
    simp only [topRefBlind, if_pos hany] at h
    cases href2 : (Json.obj fields).getProp "$ref" with
    | none => rfl
    | some v =>
        cases v <;> try rfl
        rename_i r
        rw [href2] at h
        simp only [] at h ⊢
        rw [resolveReference_not_local (by simpa using h) s1,
          resolveReference_not_local (by simpa using h) s2]
  · rfl

namespace DescriptionDocsRule

/-- Two-document delta form for folds whose steps have it. -/
theorem delta_foldM2 {α : Type} {f g : DocsCount → α → JsOut DocsCount} {l : List α}
    (h : ∀ a ∈ l, ∀ st, f st a =
      JsOut.bind (g DocsCount.zero a) (fun d => .ok (st.add d)))
    (hg : ∀ a ∈ l, Delta (fun st => g st a)) :
    ∀ st, jsFoldM f st l =
      JsOut.bind (jsFoldM g DocsCount.zero l) (fun d => .ok (st.add d)) := by
  induction l with
  | nil =>
      intro st
      simp only [jsFoldM_nil, JsOut.bind_ok]
      cases st
      simp [DocsCount.add, DocsCount.zero]
  | cons a as ih =>
      intro st
      have hrec := ih (fun b hb => h b (by simp [hb])) (fun b hb => hg b (by simp [hb]))
      have hgfold : ∀ st2, jsFoldM g st2 as =
          JsOut.bind (jsFoldM g DocsCount.zero as) (fun d => .ok (st2.add d)) :=
        delta_foldM (fun b hb => hg b (by simp [hb]))
      simp only [jsFoldM_cons]
      rw [h a (by simp) st, JsOut.bind_assoc]
      conv_rhs => rw [JsOut.bind_assoc]
      cases hga : g DocsCount.zero a with
      | ok d =>
          simp only [JsOut.bind_ok]
          rw [hrec (st.add d), hgfold d]
          cases hrest : jsFoldM g DocsCount.zero as with
          | ok d2 => simp [DocsCount.add_assoc]
          | err => rfl
          | diverge => rfl
      | err => rfl
      | diverge => rfl

/-- Blindness of every element of a `parameters` value. -/
def paramsBlind (x : Option Json) : Bool :=
  match x with
  | some (.arr l) => l.all topRefBlind
  | _ => true

/-- `checkParameters` on blind parameters: document-independent delta. -/
theorem checkParameters_delta {parameters : Json}
    (hb : paramsBlind (some parameters) = true) (pn : String) (mth : Option String)
    (s1 s2 : Json) (st : DocsCount) :
    checkParameters parameters pn mth s1 st =
      JsOut.bind (checkParameters parameters pn mth s2 DocsCount.zero)
        (fun d => .ok (st.add d)) := by
  unfold checkParameters
  cases parameters <;> try rfl
  rename_i elems
  simp only [paramsBlind, List.all_eq_true] at hb
  exact delta_foldM2
    (fun a ha st2 => checkOneParameter_delta pn mth (hb a ha) s1 s2 st2)
    (fun a ha st2 => checkOneParameter_delta pn mth (hb a ha) s2 s2 st2) st

/-- `checkRequestBody` on a blind body: document-independent delta. -/
theorem checkRequestBody_delta {rb : Json} (hb : topRefBlind rb = true)
    (pn mth : String) (s1 s2 : Json) (st : DocsCount) :
    checkRequestBody rb pn mth s1 st =
      JsOut.bind (checkRequestBody rb pn mth s2 DocsCount.zero)
        (fun d => .ok (st.add d)) := by
  unfold checkRequestBody
  rw [resolveMaybeRef_blind hb s1 s2]
  cases hres : resolveMaybeRef rb s2 with
  | ok o =>
      simp only [JsOut.bind_ok]
      by_cases ht : jsTruthyOpt o = true
      · rw [if_pos ht, if_pos ht]
        cases hv : hasValidDescription ((o.getD Json.nul).getProp "description") with
        | ok b => cases b <;> simp [hv, DocsCount.add, DocsCount.zero]
        | err => simp [hv]
        | diverge => simp [hv]
      · rw [if_neg ht, if_neg ht]
        simp [DocsCount.add, DocsCount.zero]
  | err => rfl
  | diverge => rfl

/-- `checkResponses` on blind entries: document-independent delta. -/
theorem checkResponses_delta {responses : Json}
    (hb : (jsEntries responses).all (fun sv => topRefBlind sv.2) = true)
    (pn mth : String) (s1 s2 : Json) (st : DocsCount) :
    checkResponses responses pn mth s1 st =
      JsOut.bind (checkResponses responses pn mth s2 DocsCount.zero)
        (fun d => .ok (st.add d)) := by
  unfold checkResponses
  simp only [List.all_eq_true] at hb
  refine delta_foldM2 ?_ ?_ st
  · intro a ha st2
    simp only []
    rw [resolveMaybeRef_blind (hb a ha) s1 s2]
    cases hres : resolveMaybeRef a.2 s2 with
    | ok o =>
        simp only [JsOut.bind_ok]
        by_cases ht : jsTruthyOpt o = true
        · rw [if_pos ht, if_pos ht]
          cases hv : hasValidDescription ((o.getD Json.nul).getProp "description") with
          | ok b => cases b <;> simp [hv, DocsCount.add, DocsCount.zero]
          | err => simp [hv]
          | diverge => simp [hv]
        · rw [if_neg ht, if_neg ht]
          simp [DocsCount.add, DocsCount.zero]
    | err => rfl
    | diverge => rfl
  · intro a ha st2
    simp only []
    cases hres : resolveMaybeRef a.2 s2 with
    | ok o =>
        simp only [JsOut.bind_ok]
        by_cases ht : jsTruthyOpt o = true
        · rw [if_pos ht, if_pos ht]
          cases hv : hasValidDescription ((o.getD Json.nul).getProp "description") with
          | ok b => cases b <;> simp [hv, DocsCount.add, DocsCount.zero]
          | err => simp [hv]
          | diverge => simp [hv]
        · rw [if_neg ht, if_neg ht]
          simp [DocsCount.add, DocsCount.zero]
    | err => rfl
    | diverge => rfl

end DescriptionDocsRule

namespace DescriptionDocsRule

theorem DocsCount.add_zero (st : DocsCount) : st.add DocsCount.zero = st := by
  cases st; simp [DocsCount.add, DocsCount.zero]

/-- The identity transformer is a (zero) delta. -/
theorem delta_id (st : DocsCount) :
    (.ok st : JsOut DocsCount) =
      JsOut.bind (.ok DocsCount.zero) (fun d => .ok (st.add d)) := by
  simp [DocsCount.add_zero]

/-- Delta form of a three-stage bind chain started from an extended
state. -/
theorem delta_seq3
    {P1 P2 R1 R2 S1f S2f : DocsCount → JsOut DocsCount}
    (hP : ∀ st, P1 st = JsOut.bind (P2 DocsCount.zero) (fun d => .ok (st.add d)))
    (hP2 : ∀ st, P2 st = JsOut.bind (P2 DocsCount.zero) (fun d => .ok (st.add d)))
    (hR : ∀ st, R1 st = JsOut.bind (R2 DocsCount.zero) (fun d => .ok (st.add d)))
    (hR2 : ∀ st, R2 st = JsOut.bind (R2 DocsCount.zero) (fun d => .ok (st.add d)))
    (hS : ∀ st, S1f st = JsOut.bind (S2f DocsCount.zero) (fun d => .ok (st.add d)))
    (hS2 : ∀ st, S2f st = JsOut.bind (S2f DocsCount.zero) (fun d => .ok (st.add d)))
    (st c : DocsCount) :
    JsOut.bind (P1 (st.add c)) (fun st3 => JsOut.bind (R1 st3) S1f) =
      JsOut.bind (JsOut.bind (P2 c) (fun st3 => JsOut.bind (R2 st3) S2f))
        (fun d => .ok (st.add d)) := by
  rw [hP (st.add c), hP2 c, JsOut.bind_assoc, JsOut.bind_assoc, JsOut.bind_assoc]
  cases hp : P2 DocsCount.zero with
  | err => rfl
  | diverge => rfl
  | ok d1 =>
      simp only [JsOut.bind_ok]
      rw [hR ((st.add c).add d1), hR2 (c.add d1), JsOut.bind_assoc,
        JsOut.bind_assoc, JsOut.bind_assoc]
      cases hr : R2 DocsCount.zero with
      | err => rfl
      | diverge => rfl
      | ok d2 =>
          simp only [JsOut.bind_ok]
          rw [hS (((st.add c).add d1).add d2), hS2 ((c.add d1).add d2),
            JsOut.bind_assoc]
          cases hs : S2f DocsCount.zero with
          | err => rfl
          | diverge => rfl
          | ok d3 => simp [DocsCount.add_assoc]

end DescriptionDocsRule

namespace DescriptionDocsRule

/-- Blindness of every resolution site an operation check touches. -/
def opSitesBlind (operation : Json) : Bool :=
  paramsBlind (operation.getProp "parameters") &&
  (match operation.getProp "requestBody" with
   | some rb => topRefBlind rb
   | none => true) &&
  (match operation.getProp "responses" with
   | some rs => (jsEntries rs).all (fun sv => topRefBlind sv.2)
   | none => true)

/-- The parameters / request body / responses stages of one operation,
run from a state `st.add stZ`, are document-independent deltas. -/
theorem checkOperations_children_delta {operation : Json} (pn M : String)
    (hbp : paramsBlind (operation.getProp "parameters") = true)
    (hbr : (match operation.getProp "requestBody" with
            | some rb => topRefBlind rb
            | none => true) = true)
    (hbs : (match operation.getProp "responses" with
            | some rs => (jsEntries rs).all (fun sv => topRefBlind sv.2)
            | none => true) = true)
    (s1 s2 : Json) (st stZ stL : DocsCount) (hrel : stL = st.add stZ) :
    JsOut.bind
      (if jsTruthyOpt (operation.getProp "parameters") then
        checkParameters ((operation.getProp "parameters").getD Json.nul)
          pn (some M) s1 stL
      else .ok stL)
      (fun st3 =>
        JsOut.bind
          (if jsTruthyOpt (operation.getProp "requestBody") then
            checkRequestBody ((operation.getProp "requestBody").getD Json.nul)
              pn M s1 st3
          else .ok st3)
          (fun st4 =>
            if jsTruthyOpt (operation.getProp "responses") then
              checkResponses ((operation.getProp "responses").getD Json.nul)
                pn M s1 st4
            else .ok st4)) =
      JsOut.bind
        (JsOut.bind
          (if jsTruthyOpt (operation.getProp "parameters") then
            checkParameters ((operation.getProp "parameters").getD Json.nul)
              pn (some M) s2 stZ
          else .ok stZ)
          (fun st3 =>
            JsOut.bind
              (if jsTruthyOpt (operation.getProp "requestBody") then
                checkRequestBody ((operation.getProp "requestBody").getD Json.nul)
                  pn M s2 st3
              else .ok st3)
              (fun st4 =>
                if jsTruthyOpt (operation.getProp "responses") then
                  checkResponses ((operation.getProp "responses").getD Json.nul)
                    pn M s2 st4
                else .ok st4)))
        (fun d => .ok (st.add d)) := by
  subst hrel
  have hP : ∀ (sA : Json) (s : DocsCount),
      (if jsTruthyOpt (operation.getProp "parameters") then
        checkParameters ((operation.getProp "parameters").getD Json.nul)
          pn (some M) sA s
      else .ok s) =
      JsOut.bind
        (if jsTruthyOpt (operation.getProp "parameters") then
          checkParameters ((operation.getProp "parameters").getD Json.nul)
            pn (some M) s2 DocsCount.zero
        else .ok DocsCount.zero)
        (fun d => .ok (s.add d)) := by
    intro sA s
    by_cases h : jsTruthyOpt (operation.getProp "parameters") = true
    · rw [if_pos h, if_pos h]
      have hb2 : paramsBlind (some ((operation.getProp "parameters").getD Json.nul)) = true := by
        cases hgp : operation.getProp "parameters" with
        | none => simp [jsTruthyOpt, hgp] at h
        | some v => rw [hgp] at hbp; simpa using hbp
      exact checkParameters_delta hb2 pn (some M) sA s2 s
    · rw [if_neg h, if_neg h]
      exact delta_id s
  have hR : ∀ (sA : Json) (s : DocsCount),
      (if jsTruthyOpt (operation.getProp "requestBody") then
        checkRequestBody ((operation.getProp "requestBody").getD Json.nul) pn M sA s
      else .ok s) =
      JsOut.bind
        (if jsTruthyOpt (operation.getProp "requestBody") then
          checkRequestBody ((operation.getProp "requestBody").getD Json.nul)
            pn M s2 DocsCount.zero
        else .ok DocsCount.zero)
        (fun d => .ok (s.add d)) := by
    intro sA s
    by_cases h : jsTruthyOpt (operation.getProp "requestBody") = true
    · rw [if_pos h, if_pos h]
      have hb2 : topRefBlind ((operation.getProp "requestBody").getD Json.nul) = true := by
        cases hgp : operation.getProp "requestBody" with
        | none => simp [jsTruthyOpt, hgp] at h
        | some v => rw [hgp] at hbr; simpa using hbr
      exact checkRequestBody_delta hb2 pn M sA s2 s
    · rw [if_neg h, if_neg h]
      exact delta_id s
  have hS : ∀ (sA : Json) (s : DocsCount),
      (if jsTruthyOpt (operation.getProp "responses") then
        checkResponses ((operation.getProp "responses").getD Json.nul) pn M sA s
      else .ok s) =
      JsOut.bind
        (if jsTruthyOpt (operation.getProp "responses") then
          checkResponses ((operation.getProp "responses").getD Json.nul)
            pn M s2 DocsCount.zero
        else .ok DocsCount.zero)
        (fun d => .ok (s.add d)) := by
    intro sA s
    by_cases h : jsTruthyOpt (operation.getProp "responses") = true
    · rw [if_pos h, if_pos h]
      have hb2 : (jsEntries ((operation.getProp "responses").getD Json.nul)).all
          (fun sv => topRefBlind sv.2) = true := by
        cases hgp : operation.getProp "responses" with
        | none => simp [jsTruthyOpt, hgp] at h
        | some v => rw [hgp] at hbs; simpa using hbs
      exact checkResponses_delta hb2 pn M sA s2 s
    · rw [if_neg h, if_neg h]
      exact delta_id s
  exact delta_seq3 (hP s1) (hP s2) (hR s1) (hR s2) (hS s1) (hS s2) st stZ

end DescriptionDocsRule

/-- Pointwise congruence of bind continuations. -/
theorem bind_congr_fun {α β : Type} (a : JsOut α) {f g : α → JsOut β}
    (h : ∀ v, f v = g v) : JsOut.bind a f = JsOut.bind a g := by
  cases a <;> simp [JsOut.bind, h]

namespace DescriptionDocsRule

/-- Right-associated form of `checkOperations_children_delta`. -/
theorem checkOperations_children_delta2 {operation : Json} (pn M : String)
    (hbp : paramsBlind (operation.getProp "parameters") = true)
    (hbr : (match operation.getProp "requestBody" with
            | some rb => topRefBlind rb
            | none => true) = true)
    (hbs : (match operation.getProp "responses" with
            | some rs => (jsEntries rs).all (fun sv => topRefBlind sv.2)
            | none => true) = true)
    (s1 s2 : Json) (st stZ stL : DocsCount) (hrel : stL = st.add stZ) :
    JsOut.bind
      (if jsTruthyOpt (operation.getProp "parameters") then
        checkParameters ((operation.getProp "parameters").getD Json.nul)
          pn (some M) s1 stL
      else .ok stL)
      (fun st3 =>
        JsOut.bind
          (if jsTruthyOpt (operation.getProp "requestBody") then
            checkRequestBody ((operation.getProp "requestBody").getD Json.nul)
              pn M s1 st3
          else .ok st3)
          (fun st4 =>
            if jsTruthyOpt (operation.getProp "responses") then
              checkResponses ((operation.getProp "responses").getD Json.nul)
                pn M s1 st4
            else .ok st4)) =
      JsOut.bind
        (if jsTruthyOpt (operation.getProp "parameters") then
          checkParameters ((operation.getProp "parameters").getD Json.nul)
            pn (some M) s2 stZ
        else .ok stZ)
        (fun st3 =>
          JsOut.bind
            (if jsTruthyOpt (operation.getProp "requestBody") then
              checkRequestBody ((operation.getProp "requestBody").getD Json.nul)
                pn M s2 st3
            else .ok st3)
            (fun st4 =>
              JsOut.bind
                (if jsTruthyOpt (operation.getProp "responses") then
                  checkResponses ((operation.getProp "responses").getD Json.nul)
                    pn M s2 st4
                else .ok st4)
                (fun d => .ok (st.add d)))) := by
  have h := checkOperations_children_delta pn M hbp hbr hbs s1 s2 st stZ stL hrel
  simpa only [JsOut.bind_assoc] using h

/-- `checkOperations` on an item whose operations are blind:
document-independent delta. -/
theorem checkOperations_delta {item : Json}
    (hb : operationMethods.all (fun m =>
      match item.getProp m with
      | some op => opSitesBlind op
      | none => true) = true)
    (pn : String) (s1 s2 : Json) (st : DocsCount) :
    checkOperations item pn s1 st =
      JsOut.bind (checkOperations item pn s2 DocsCount.zero)
        (fun d => .ok (st.add d)) := by
  unfold checkOperations
  simp only [List.all_eq_true] at hb
  refine delta_foldM2 ?_ ?_ st <;>
  · intro m hm st2
    simp only []
    have hbm := hb m hm
    cases hop : item.getProp m with
    | none => simp [DocsCount.add_zero]
    | some operation =>
        rw [hop] at hbm
        simp only [opSitesBlind, Bool.and_eq_true] at hbm
        obtain ⟨⟨hbp, hbr⟩, hbs⟩ := hbm
        simp only []
        by_cases htr : operation.truthy = true
        · rw [if_neg (by simp [htr]), if_neg (by simp [htr])]
          simp only [JsOut.bind_assoc]
          refine bind_congr_fun _ (fun d1 => ?_)
          refine bind_congr_fun _ (fun missing => ?_)
          refine checkOperations_children_delta2 pn (jsToUpper m) hbp hbr hbs
            _ s2 st2 _ _ ?_
          cases missing <;> simp [DocsCount.add, DocsCount.zero]
        · rw [if_pos (by simp [Bool.not_eq_true] at htr; simp [htr]),
            if_pos (by simp [Bool.not_eq_true] at htr; simp [htr])]
          simp [DocsCount.add_zero]

end DescriptionDocsRule

namespace DescriptionDocsRule

/-- `List.find?` over an append searches the left part first. -/
theorem find?_key_append (X Y : List (String × Json)) (k : String) :
    (X ++ Y).find? (fun p => p.1 = k) =
      ((X.find? (fun p => p.1 = k)).orElse (fun _ => Y.find? (fun p => p.1 = k))) := by
  induction X with
  | nil => rfl
  | cons a X ih =>
      by_cases h : a.1 = k
      · rw [List.cons_append, List.find?_cons_of_pos _ (by simpa using h),
          List.find?_cons_of_pos _ (by simpa using h)]
        rfl
      · rw [List.cons_append, List.find?_cons_of_neg _ (by simpa using h),
          List.find?_cons_of_neg _ (by simpa using h), ih]

/-- Object lookup at a key other than `k0` ignores the value stored in a
middle `k0` binding. -/
theorem getProp_obj_mid_ne (X Y : List (String × Json)) (k0 : String) (v v' : Json)
    (k : String) (hk : k ≠ k0) :
    (Json.obj (X ++ (k0, v) :: Y)).getProp k =
      (Json.obj (X ++ (k0, v') :: Y)).getProp k := by
  simp only [Json.getProp]
  rw [find?_key_append, find?_key_append,
    List.find?_cons_of_neg _ (by simpa using Ne.symm hk),
    List.find?_cons_of_neg _ (by simpa using Ne.symm hk)]

/-- Object lookup at `k0` finds a middle binding when no earlier key
equals `k0`. -/
theorem getProp_obj_mid_hit (X Y : List (String × Json)) (k0 : String) (v : Json)
    (hX : ∀ kv ∈ X, kv.1 ≠ k0) :
    (Json.obj (X ++ (k0, v) :: Y)).getProp k0 = some v := by
  simp only [Json.getProp]
  rw [find?_key_append, List.find?_eq_none.2 (fun x hx => by simpa using hX x hx),
    List.find?_cons_of_pos _ (by simp)]
  rfl

/-- Appending a binding with a fresh key leaves other lookups unchanged. -/
theorem getProp_obj_snoc_ne (OF : List (String × Json)) (k0 : String) (v : Json)
    (k : String) (hk : k ≠ k0) :
    (Json.obj (OF ++ [(k0, v)])).getProp k = (Json.obj OF).getProp k := by
  simp only [Json.getProp]
  rw [find?_key_append, List.find?_cons_of_neg _ (by simpa using Ne.symm hk)]
  cases OF.find? (fun p => p.1 = k) <;> rfl

/-- Lookup of an absent key. -/
theorem getProp_obj_none (OF : List (String × Json)) (k : String)
    (h : ∀ kv ∈ OF, kv.1 ≠ k) : (Json.obj OF).getProp k = none := by
  simp only [Json.getProp]
  rw [List.find?_eq_none.2 (fun x hx => by simpa using h x hx)]
  rfl

/-- Delta form of a two-stage bind chain started from an extended state. -/
theorem delta_seq2
    {P1 P2 : DocsCount → JsOut DocsCount} {Q1 Q2 : DocsCount → JsOut DocsCount}
    (hP : ∀ st, P1 st = JsOut.bind (P2 DocsCount.zero) (fun d => .ok (st.add d)))
    (hP2 : ∀ st, P2 st = JsOut.bind (P2 DocsCount.zero) (fun d => .ok (st.add d)))
    (hQ : ∀ st, Q1 st = JsOut.bind (Q2 DocsCount.zero) (fun d => .ok (st.add d)))
    (hQ2 : ∀ st, Q2 st = JsOut.bind (Q2 DocsCount.zero) (fun d => .ok (st.add d)))
    (st c : DocsCount) :
    JsOut.bind (P1 (st.add c)) Q1 =
      JsOut.bind (JsOut.bind (P2 c) Q2) (fun d => .ok (st.add d)) := by
  rw [hP (st.add c), hP2 c, JsOut.bind_assoc, JsOut.bind_assoc, JsOut.bind_assoc]
  cases hp : P2 DocsCount.zero with
  | err => rfl
  | diverge => rfl
  | ok d1 =>
      simp only [JsOut.bind_ok]
      rw [hQ ((st.add c).add d1), hQ2 (c.add d1), JsOut.bind_assoc]
      cases hq : Q2 DocsCount.zero with
      | err => rfl
      | diverge => rfl
      | ok d2 => simp [DocsCount.add_assoc]

/-- The parameters / request body / responses chain of one operation. -/
def opChildren (operation : Json) (pathName M : String) (spec : Json)
    (st : DocsCount) : JsOut DocsCount :=
  JsOut.bind
    (if jsTruthyOpt (operation.getProp "parameters") then
      checkParameters ((operation.getProp "parameters").getD Json.nul)
        pathName (some M) spec st
    else .ok st)
    (fun st =>
      JsOut.bind
        (if jsTruthyOpt (operation.getProp "requestBody") then
          checkRequestBody ((operation.getProp "requestBody").getD Json.nul)
            pathName M spec st
        else .ok st)
        (fun st =>
          if jsTruthyOpt (operation.getProp "responses") then
            checkResponses ((operation.getProp "responses").getD Json.nul)
              pathName M spec st
          else .ok st))

/-- The per-method step of `checkOperations`. -/
def opStep (pathItem : Json) (pathName : String) (spec : Json)
    (st : DocsCount) (method : String) : JsOut DocsCount :=
  match pathItem.getProp method with
  | none => .ok st
  | some operation =>
      if !operation.truthy then .ok st
      else
        let st := { st with totalItems := st.totalItems + 1 }
        JsOut.bind
          (JsOut.bind (hasValidDescription (operation.getProp "description"))
            (fun d1 =>
              if d1 then .ok false
              else
                JsOut.bind (hasValidDescription (operation.getProp "summary"))
                  (fun d2 => .ok (!d2))))
          (fun missing =>
            let st :=
              if missing then
                let st := { st with itemsWithViolations := st.itemsWithViolations + 1 }
                { st with violations := st.violations ++
                  [mkViolationOp pathName (jsToUpper method) "description/summary"
                    "Operation is missing both a meaningful description and summary"
                    .error
                    "Add a detailed description or at least a summary explaining what this operation does"] }
              else st
            opChildren operation pathName (jsToUpper method) spec st)

/-- `checkOperations` is the fold of `opStep` over the method list. -/
theorem checkOperations_eq (pathItem : Json) (pathName : String) (spec : Json)
    (st : DocsCount) :
    checkOperations pathItem pathName spec st =
      jsFoldM (opStep pathItem pathName spec) st operationMethods := rfl

/-- The per-entry step of `checkPaths`. -/
def pathStep (spec : Json) (st : DocsCount) (pv : String × Json) : JsOut DocsCount :=
  if !pv.2.truthy then .ok st
  else
    let st := { st with totalItems := st.totalItems + 1 }
    JsOut.bind (hasValidDescription (pv.2.getProp "description")) (fun ok =>
      let st :=
        if !ok then
          let st := { st with itemsWithViolations := st.itemsWithViolations + 1 }
          { st with violations := st.violations ++
            [mkViolation pv.1 "description"
              "Path is missing a meaningful description" .warning
              "Add a description explaining the purpose of this path"] }
        else st
      JsOut.bind
        (if jsTruthyOpt (pv.2.getProp "parameters") then
          checkParameters ((pv.2.getProp "parameters").getD Json.nul)
            pv.1 none spec st
        else .ok st)
        (fun st => checkOperations pv.2 pv.1 spec st))

/-- `checkPaths` is the fold of `pathStep` over the path entries. -/
theorem checkPaths_eq (spec : Json) (st : DocsCount) :
    checkPaths spec st =
      if !(jsTruthyOpt (spec.getProp "paths")) then .ok st
      else jsFoldM (pathStep spec) st
        (jsEntries ((spec.getProp "paths").getD Json.nul)) := rfl

/-- `opChildren` only looks at three fixed properties of the operation. -/
theorem opChildren_congr {op op' : Json} (pn M : String) (s : Json)
    (h1 : op'.getProp "parameters" = op.getProp "parameters")
    (h2 : op'.getProp "requestBody" = op.getProp "requestBody")
    (h3 : op'.getProp "responses" = op.getProp "responses") (st : DocsCount) :
    opChildren op' pn M s st = opChildren op pn M s st := by
  unfold opChildren
  rw [h1, h2, h3]

/-- `opStep` only looks at the item through the method property. -/
theorem opStep_congr {item item' : Json} (pn : String) (s : Json)
    (m2 : String) (hpp : item'.getProp m2 = item.getProp m2) (st : DocsCount) :
    opStep item' pn s st m2 = opStep item pn s st m2 := by
  unfold opStep
  rw [hpp]

/-- `opSitesBlind` only looks at three fixed properties of the operation. -/
theorem opSitesBlind_congr {op op' : Json}
    (h1 : op'.getProp "parameters" = op.getProp "parameters")
    (h2 : op'.getProp "requestBody" = op.getProp "requestBody")
    (h3 : op'.getProp "responses" = op.getProp "responses") :
    opSitesBlind op' = opSitesBlind op := by
  unfold opSitesBlind
  rw [h1, h2, h3]

/-- `opChildren` on a blind operation: document-independent delta. -/
theorem opChildren_delta {operation : Json} (pn M : String)
    (hb : opSitesBlind operation = true) (s1 s2 : Json) (st : DocsCount) :
    opChildren operation pn M s1 st =
      JsOut.bind (opChildren operation pn M s2 DocsCount.zero)
        (fun d => .ok (st.add d)) := by
  simp only [opSitesBlind, Bool.and_eq_true] at hb
  obtain ⟨⟨hbp, hbr⟩, hbs⟩ := hb
  exact checkOperations_children_delta pn M hbp hbr hbs s1 s2 st
    DocsCount.zero st (DocsCount.add_zero st).symm

end DescriptionDocsRule

namespace DescriptionDocsRule

/-- `opStep` at a method whose operation is blind: document-independent
delta. -/
theorem opStep_delta {item : Json} {m2 : String}
    (hb : (match item.getProp m2 with
           | some op => opSitesBlind op
           | none => true) = true)
    (pn : String) (s1 s2 : Json) (st : DocsCount) :
    opStep item pn s1 st m2 =
      JsOut.bind (opStep item pn s2 DocsCount.zero m2)
        (fun d => .ok (st.add d)) := by
  unfold opStep
  split
  · simp [DocsCount.add_zero]
  · rename_i operation hop
    rw [hop] at hb
    have hb2 : opSitesBlind operation = true := hb
    by_cases htr : operation.truthy = true
    · rw [if_neg (by simp [htr]), if_neg (by simp [htr])]
      simp only [JsOut.bind_assoc]
      refine bind_congr_fun _ (fun d1 => ?_)
      refine bind_congr_fun _ (fun missing => ?_)
      conv_rhs => rw [opChildren_delta pn (jsToUpper m2) hb2 s2 s2]
      rw [opChildren_delta pn (jsToUpper m2) hb2 s1 s2, JsOut.bind_assoc]
      refine bind_congr_fun _ (fun dd => ?_)
      simp only [JsOut.bind_ok]
      cases missing <;>
        simp [DocsCount.add, DocsCount.zero, List.append_assoc, Nat.add_assoc]
    · rw [if_pos (by simp [Bool.not_eq_true] at htr; simp [htr]),
        if_pos (by simp [Bool.not_eq_true] at htr; simp [htr])]
      simp [DocsCount.add_zero]

/-- Blindness of every resolution site a path item check touches. -/
def itemSitesBlind (item : Json) : Bool :=
  paramsBlind (item.getProp "parameters") &&
  operationMethods.all (fun m =>
    match item.getProp m with
    | some op => opSitesBlind op
    | none => true)

/-- The parameters / operations tail of one path entry, run from an
extended state: document-independent delta. -/
theorem pathTail_delta {item : Json} (pn : String)
    (hbp : paramsBlind (item.getProp "parameters") = true)
    (hops : operationMethods.all (fun m =>
      match item.getProp m with
      | some op => opSitesBlind op
      | none => true) = true)
    (s1 s2 : Json) (st stZ stL : DocsCount) (hrel : stL = st.add stZ) :
    JsOut.bind
      (if jsTruthyOpt (item.getProp "parameters") then
        checkParameters ((item.getProp "parameters").getD Json.nul) pn none s1 stL
      else .ok stL)
      (fun st2 => checkOperations item pn s1 st2) =
      JsOut.bind
        (JsOut.bind
          (if jsTruthyOpt (item.getProp "parameters") then
            checkParameters ((item.getProp "parameters").getD Json.nul) pn none s2 stZ
          else .ok stZ)
          (fun st2 => checkOperations item pn s2 st2))
        (fun d => .ok (st.add d)) := by
  subst hrel
  have hP : ∀ (sA : Json) (s : DocsCount),
      (if jsTruthyOpt (item.getProp "parameters") then
        checkParameters ((item.getProp "parameters").getD Json.nul) pn none sA s
      else .ok s) =
      JsOut.bind
        (if jsTruthyOpt (item.getProp "parameters") then
          checkParameters ((item.getProp "parameters").getD Json.nul)
            pn none s2 DocsCount.zero
        else .ok DocsCount.zero)
        (fun d => .ok (s.add d)) := by
    intro sA s
    by_cases h : jsTruthyOpt (item.getProp "parameters") = true
    · rw [if_pos h, if_pos h]
      have hb2 : paramsBlind (some ((item.getProp "parameters").getD Json.nul)) = true := by
        cases hgp : item.getProp "parameters" with
        | none => simp [jsTruthyOpt, hgp] at h
        | some v => rw [hgp] at hbp; simpa using hbp
      exact checkParameters_delta hb2 pn none sA s2 s
    · rw [if_neg h, if_neg h]
      exact delta_id s
  have hQ : ∀ (sA : Json) (s : DocsCount),
      checkOperations item pn sA s =
        JsOut.bind (checkOperations item pn s2 DocsCount.zero)
          (fun d => .ok (s.add d)) :=
    fun sA s => checkOperations_delta hops pn sA s2 s
  exact delta_seq2 (hP s1) (hP s2) (hQ s1) (hQ s2) st stZ

/-- `pathStep` on a blind path item: document-independent delta. -/
theorem pathStep_delta {pv : String × Json} (hb : itemSitesBlind pv.2 = true)
    (s1 s2 : Json) (st : DocsCount) :
    pathStep s1 st pv =
      JsOut.bind (pathStep s2 DocsCount.zero pv) (fun d => .ok (st.add d)) := by
  simp only [itemSitesBlind, Bool.and_eq_true] at hb
  obtain ⟨hbp, hops⟩ := hb
  unfold pathStep
  by_cases htr : pv.2.truthy = true
  · rw [if_neg (by simp [htr]), if_neg (by simp [htr])]
    cases hv : hasValidDescription (pv.2.getProp "description") with
    | err => rfl
    | diverge => rfl
    | ok okv =>
        simp only [JsOut.bind_ok]
        refine pathTail_delta pv.1 hbp hops s1 s2 st _ _ ?_
        cases okv <;> simp [DocsCount.add, DocsCount.zero]
  · rw [if_pos (by simp [Bool.not_eq_true] at htr; simp [htr]),
      if_pos (by simp [Bool.not_eq_true] at htr; simp [htr])]
    simp [DocsCount.add_zero]

/-- A blind path entry is processed identically under every document. -/
theorem pathStep_eq_of_blind {pv : String × Json} (hb : itemSitesBlind pv.2 = true)
    (s1 s2 : Json) (st : DocsCount) :
    pathStep s1 st pv = pathStep s2 st pv :=
  (pathStep_delta hb s1 s2 st).trans (pathStep_delta hb s2 s2 st).symm

/-- A blind path entry's step is a delta. -/
theorem pathStep_delta_self {pv : String × Json} (hb : itemSitesBlind pv.2 = true)
    (s : Json) : Delta (fun st => pathStep s st pv) :=
  fun st => pathStep_delta hb s s st

end DescriptionDocsRule

namespace DescriptionDocsRule

/-- The first run's state carries exactly one extra violation `E` and one
extra item with violations, somewhere in the middle of the list. -/
def InsRel (E : RuleViolation) (a b : DocsCount) : Prop :=
  ∃ V1 V2, a.violations = V1 ++ E :: V2 ∧ b.violations = V1 ++ V2 ∧
    a.totalItems = b.totalItems ∧
    a.itemsWithViolations = b.itemsWithViolations + 1

/-- Equal states or one inserted violation. -/
def RelE (E : RuleViolation) (a b : DocsCount) : Prop := a = b ∨ InsRel E a b

/-- Lifted to run outcomes: equal failure modes, or normal results
related by `RelE`. -/
def GRel (E : RuleViolation) (x y : JsOut DocsCount) : Prop :=
  (x = .err ∧ y = .err) ∨ (x = .diverge ∧ y = .diverge) ∨
    ∃ a b, x = .ok a ∧ y = .ok b ∧ RelE E a b

theorem RelE_add {E : RuleViolation} {a b : DocsCount} (h : RelE E a b)
    (d : DocsCount) : RelE E (a.add d) (b.add d) := by
  rcases h with rfl | ⟨V1, V2, hva, hvb, ht, hw⟩
  · exact Or.inl rfl
  · refine Or.inr ⟨V1, V2 ++ d.violations, ?_, ?_, ?_, ?_⟩
    · simp [DocsCount.add, hva]
    · simp [DocsCount.add, hvb]
    · simp only [DocsCount.add, ht]
    · simp only [DocsCount.add, hw]; omega

theorem grel_refl (E : RuleViolation) (x : JsOut DocsCount) : GRel E x x := by
  cases x with
  | ok a => exact Or.inr (Or.inr ⟨a, a, rfl, rfl, Or.inl rfl⟩)
  | err => exact Or.inl ⟨rfl, rfl⟩
  | diverge => exact Or.inr (Or.inl ⟨rfl, rfl⟩)

theorem grel_bind_left {α : Type} {E : RuleViolation} (v : JsOut α)
    {k1 k2 : α → JsOut DocsCount}
    (h : ∀ s, GRel E (k1 s) (k2 s)) :
    GRel E (JsOut.bind v k1) (JsOut.bind v k2) := by
  cases v with
  | ok s => exact h s
  | err => exact Or.inl ⟨rfl, rfl⟩
  | diverge => exact Or.inr (Or.inl ⟨rfl, rfl⟩)

/-- A common delta continuation preserves the inserted-violation
relation. -/
theorem grel_bind_delta {E : RuleViolation} {x y : JsOut DocsCount}
    (hxy : GRel E x y) {h : DocsCount → JsOut DocsCount} (hd : Delta h) :
    GRel E (JsOut.bind x h) (JsOut.bind y h) := by
  rcases hxy with ⟨hx, hy⟩ | ⟨hx, hy⟩ | ⟨a, b, hx, hy, hab⟩
  · subst hx; subst hy; exact Or.inl ⟨rfl, rfl⟩
  · subst hx; subst hy; exact Or.inr (Or.inl ⟨rfl, rfl⟩)
  · subst hx; subst hy
    show GRel E (h a) (h b)
    rw [hd a, hd b]
    cases hz : h DocsCount.zero with
    | err => exact Or.inl ⟨rfl, rfl⟩
    | diverge => exact Or.inr (Or.inl ⟨rfl, rfl⟩)
    | ok dd => exact Or.inr (Or.inr ⟨a.add dd, b.add dd, rfl, rfl, RelE_add hab dd⟩)

/-- Pointwise-equal steps fold to the same outcome. -/
theorem jsFoldM_congr {σ α : Type} {f g : σ → α → JsOut σ} {l : List α}
    (h : ∀ a ∈ l, ∀ st, f st a = g st a) :
    ∀ st, jsFoldM f st l = jsFoldM g st l := by
  induction l with
  | nil => intro st; rfl
  | cons a as ih =>
      intro st
      rw [jsFoldM_cons, jsFoldM_cons, h a (by simp)]
      exact bind_congr_fun _ (fun s => ih (fun b hb => h b (by simp [hb])) s)

/-- Folding two step functions that agree everywhere except at one
distinguished element, where they produce `GRel`-related outcomes,
yields `GRel`-related folds (the steps after the distinguished element
must be deltas so the inserted violation is carried through). -/
theorem grel_foldM {α : Type} {E : RuleViolation}
    {f g : DocsCount → α → JsOut DocsCount}
    (L1 : List α) (a0 a0' : α) (L2 : List α)
    (heq1 : ∀ a ∈ L1, ∀ st, f st a = g st a)
    (heq2 : ∀ a ∈ L2, ∀ st, f st a = g st a)
    (hdg2 : ∀ a ∈ L2, Delta (fun st => g st a))
    (h0 : ∀ st, GRel E (f st a0) (g st a0')) :
    ∀ st, GRel E (jsFoldM f st (L1 ++ a0 :: L2))
      (jsFoldM g st (L1 ++ a0' :: L2)) := by
  induction L1 with
  | nil =>
      intro st
      simp only [List.nil_append, jsFoldM_cons]
      rw [bind_congr_fun (f st a0) (fun s => jsFoldM_congr heq2 s)]
      exact grel_bind_delta (h0 st) (delta_foldM hdg2)
  | cons a L1' ih =>
      intro st
      simp only [List.cons_append, jsFoldM_cons]
      rw [heq1 a (by simp) st]
      exact grel_bind_left _ (fun s => ih (fun b hb st2 => heq1 b (by simp [hb]) st2) s)

/-- `grel_foldM` specialised to the fixed method list, split at an
arbitrary member. -/
theorem grel_foldM_methods {E : RuleViolation}
    {f g : DocsCount → String → JsOut DocsCount} {m : String}
    (hm : m ∈ operationMethods)
    (hother : ∀ m2 ∈ operationMethods, m2 ≠ m → ∀ st, f st m2 = g st m2)
    (hdg : ∀ m2 ∈ operationMethods, Delta (fun st => g st m2))
    (h0 : ∀ st, GRel E (f st m) (g st m)) :
    ∀ st, GRel E (jsFoldM f st operationMethods)
      (jsFoldM g st operationMethods) := by
  have hm' : m = "get" ∨ m = "post" ∨ m = "put" ∨ m = "delete" ∨ m = "patch" ∨
      m = "options" ∨ m = "head" ∨ m = "trace" := by
    simpa [operationMethods] using hm
  rcases hm' with rfl | rfl | rfl | rfl | rfl | rfl | rfl | rfl
  · exact grel_foldM [] "get" "get"
      ["post", "put", "delete", "patch", "options", "head", "trace"]
      (by intro a ha st2; simp at ha)
      (by intro a ha st2; fin_cases ha <;> exact hother _ (by decide) (by decide) st2)
      (by intro a ha; fin_cases ha <;> exact hdg _ (by decide))
      h0
  · exact grel_foldM ["get"] "post" "post"
      ["put", "delete", "patch", "options", "head", "trace"]
      (by intro a ha st2; fin_cases ha <;> exact hother _ (by decide) (by decide) st2)
      (by intro a ha st2; fin_cases ha <;> exact hother _ (by decide) (by decide) st2)
      (by intro a ha; fin_cases ha <;> exact hdg _ (by decide))
      h0
  · exact grel_foldM ["get", "post"] "put" "put"
      ["delete", "patch", "options", "head", "trace"]
      (by intro a ha st2; fin_cases ha <;> exact hother _ (by decide) (by decide) st2)
      (by intro a ha st2; fin_cases ha <;> exact hother _ (by decide) (by decide) st2)
      (by intro a ha; fin_cases ha <;> exact hdg _ (by decide))
      h0
  · exact grel_foldM ["get", "post", "put"] "delete" "delete"
      ["patch", "options", "head", "trace"]
      (by intro a ha st2; fin_cases ha <;> exact hother _ (by decide) (by decide) st2)
      (by intro a ha st2; fin_cases ha <;> exact hother _ (by decide) (by decide) st2)
      (by intro a ha; fin_cases ha <;> exact hdg _ (by decide))
      h0
  · exact grel_foldM ["get", "post", "put", "delete"] "patch" "patch"
      ["options", "head", "trace"]
      (by intro a ha st2; fin_cases ha <;> exact hother _ (by decide) (by decide) st2)
      (by intro a ha st2; fin_cases ha <;> exact hother _ (by decide) (by decide) st2)
      (by intro a ha; fin_cases ha <;> exact hdg _ (by decide))
      h0
  · exact grel_foldM ["get", "post", "put", "delete", "patch"] "options" "options"
      ["head", "trace"]
      (by intro a ha st2; fin_cases ha <;> exact hother _ (by decide) (by decide) st2)
      (by intro a ha st2; fin_cases ha <;> exact hother _ (by decide) (by decide) st2)
      (by intro a ha; fin_cases ha <;> exact hdg _ (by decide))
      h0
  · exact grel_foldM ["get", "post", "put", "delete", "patch", "options"] "head" "head"
      ["trace"]
      (by intro a ha st2; fin_cases ha <;> exact hother _ (by decide) (by decide) st2)
      (by intro a ha st2; fin_cases ha <;> exact hother _ (by decide) (by decide) st2)
      (by intro a ha; fin_cases ha <;> exact hdg _ (by decide))
      h0
  · exact grel_foldM ["get", "post", "put", "delete", "patch", "options", "head"]
      "trace" "trace" []
      (by intro a ha st2; fin_cases ha <;> exact hother _ (by decide) (by decide) st2)
      (by intro a ha st2; simp at ha)
      (by intro a ha; simp at ha)
      h0

end DescriptionDocsRule

namespace DescriptionDocsRule

/-- A delta transformer started from `st.add stZ` equals the run from
`stZ` with `st` prepended. -/
theorem delta_shift (G : DocsCount → JsOut DocsCount)
    (hG : ∀ s, G s = JsOut.bind (G DocsCount.zero) (fun d => .ok (s.add d)))
    (st stZ stL : DocsCount) (hrel : stL = st.add stZ) :
    G stL = JsOut.bind (G stZ) (fun d => .ok (st.add d)) := by
  subst hrel
  rw [hG (st.add stZ), hG stZ, JsOut.bind_assoc]
  cases hz : G DocsCount.zero with
  | err => rfl
  | diverge => rfl
  | ok dd => simp [DocsCount.add_assoc]

/-- The schema-property loop only ever extends the state. -/
theorem checkSchemaProperties_delta (sn : String) (schema : Json) :
    Delta (fun st => checkSchemaProperties sn schema st) := by
  intro st
  simp only [checkSchemaProperties]
  by_cases hc : ((match schema.getProp "type" with
      | some (.str t) => t == "object"
      | _ => false) && jsTruthyOpt (schema.getProp "properties")) = true
  · rw [if_pos hc, if_pos hc]
    refine delta_foldM ?_ st
    intro pv _ st2
    simp only []
    cases hio : isSchemaObject pv.2 with
    | err => rfl
    | diverge => rfl
    | ok isObj =>
        simp only [JsOut.bind_ok]
        cases isObj with
        | false => simp [DocsCount.add_zero]
        | true =>
            cases hv : hasValidDescription (pv.2.getProp "description") with
            | err => rfl
            | diverge => rfl
            | ok okb =>
                simp only [JsOut.bind_ok]
                cases okb <;> simp [DocsCount.add, DocsCount.zero]
  · rw [if_neg hc, if_neg hc]
    exact delta_id st

/-- `checkComponentSchemas` only ever extends the state. -/
theorem checkComponentSchemas_delta (spec : Json) :
    Delta (fun st => checkComponentSchemas spec st) := by
  intro st
  simp only [checkComponentSchemas]
  by_cases hc : jsTruthyOpt (jsOptChain (spec.getProp "components") "schemas") = true
  · rw [if_neg (by simp [hc]), if_neg (by simp [hc])]
    refine delta_foldM ?_ st
    intro sv _ st2
    simp only []
    cases hio : isSchemaObject sv.2 with
    | err => rfl
    | diverge => rfl
    | ok isObj =>
        simp only [JsOut.bind_ok]
        cases isObj with
        | false => simp [DocsCount.add_zero]
        | true =>
            cases hv : hasValidDescription (sv.2.getProp "description") with
            | err => rfl
            | diverge => rfl
            | ok okb =>
                simp only [JsOut.bind_ok]
                have hd : ∀ s, checkSchemaProperties sv.1 sv.2 s =
                    JsOut.bind (checkSchemaProperties sv.1 sv.2 DocsCount.zero)
                      (fun d => .ok (s.add d)) :=
                  fun s => checkSchemaProperties_delta sv.1 sv.2 s
                refine delta_shift (checkSchemaProperties sv.1 sv.2) hd st2 _ _ ?_
                cases okb <;> simp [DocsCount.add, DocsCount.zero]
  · rw [if_pos (by simp [hc]), if_pos (by simp [hc])]
    exact delta_id st

/-- `checkInfoDescription` only reads the `info` property. -/
theorem checkInfoDescription_congr {s1 s2 : Json}
    (h : s2.getProp "info" = s1.getProp "info") (st : DocsCount) :
    checkInfoDescription s2 st = checkInfoDescription s1 st := by
  unfold checkInfoDescription
  rw [h]

/-- `checkComponentSchemas` only reads the `components` property. -/
theorem checkComponentSchemas_congr {s1 s2 : Json}
    (h : s2.getProp "components" = s1.getProp "components") (st : DocsCount) :
    checkComponentSchemas s2 st = checkComponentSchemas s1 st := by
  unfold checkComponentSchemas
  rw [h]

end DescriptionDocsRule

namespace DescriptionDocsRule

/-- A string that trims to at least the minimum length is a valid
description. -/
theorem hasValidDescription_of_long {d : String}
    (h : MIN_DESCRIPTION_LENGTH ≤ (jsTrim d).length) :
    hasValidDescription (some (.str d)) = .ok true := by
  have hdne : d ≠ "" := by
    intro he
    rw [he] at h
    exact absurd h (by decide)
  simp [hasValidDescription, Json.truthy, hdne, h]

/-- The operation-level violation for a missing description/summary. -/
def opMissingViolation (pathName method : String) : RuleViolation :=
  mkViolationOp pathName (jsToUpper method) "description/summary"
    "Operation is missing both a meaningful description and summary" .error
    "Add a detailed description or at least a summary explaining what this operation does"

/-- `opStep` at an absent method. -/
theorem opStep_none {item : Json} {method : String}
    (h : item.getProp method = none) (pn : String) (s : Json) (st : DocsCount) :
    opStep item pn s st method = .ok st := by
  unfold opStep
  rw [h]

/-- `opStep` at a present method, with the state updates spelled out. -/
theorem opStep_some {item : Json} {method : String} {operation : Json}
    (h : item.getProp method = some operation) (pn : String) (s : Json)
    (st : DocsCount) :
    opStep item pn s st method =
      (if !operation.truthy then .ok st
       else
         JsOut.bind
           (JsOut.bind (hasValidDescription (operation.getProp "description"))
             (fun d1 =>
               if d1 then .ok false
               else
                 JsOut.bind (hasValidDescription (operation.getProp "summary"))
                   (fun d2 => .ok (!d2))))
           (fun missing =>
             opChildren operation pn (jsToUpper method) s
               (if missing then
                 { violations := st.violations ++ [opMissingViolation pn method],
                   totalItems := st.totalItems + 1,
                   itemsWithViolations := st.itemsWithViolations + 1 }
               else
                 { violations := st.violations, totalItems := st.totalItems + 1,
                   itemsWithViolations := st.itemsWithViolations }))) := by
  unfold opStep
  rw [h]
  rfl

/-- The modified operation: before, description and summary are both
missing (summary validity `b = false`) and the error violation is pushed;
after adding a meaningful description the violation disappears and
everything else — in particular every resolution-dependent child check —
is unchanged.  When the summary was already valid (`b = true`) the two
runs coincide. -/
theorem opStep_modified
    (p0 m d : String) (spec spec2 : Json) (b : Bool)
    (C D OF : List (String × Json))
    (hC : ∀ kv ∈ C, kv.1 ≠ m)
    (hOF : ∀ kv ∈ OF, kv.1 ≠ "description")
    (hdlen : MIN_DESCRIPTION_LENGTH ≤ (jsTrim d).length)
    (hsum : hasValidDescription ((Json.obj OF).getProp "summary") = .ok b)
    (hop_blind : opSitesBlind (.obj OF) = true)
    (st : DocsCount) :
    GRel (opMissingViolation p0 m)
      (opStep (.obj (C ++ (m, .obj OF) :: D)) p0 spec st m)
      (opStep (.obj (C ++ (m, .obj (OF ++ [("description", .str d)])) :: D))
        p0 spec2 st m) := by
  have hp1 : (Json.obj (OF ++ [("description", Json.str d)])).getProp "parameters" =
      (Json.obj OF).getProp "parameters" :=
    getProp_obj_snoc_ne OF "description" (Json.str d) "parameters" (by decide)
  have hp2 : (Json.obj (OF ++ [("description", Json.str d)])).getProp "requestBody" =
      (Json.obj OF).getProp "requestBody" :=
    getProp_obj_snoc_ne OF "description" (Json.str d) "requestBody" (by decide)
  have hp3 : (Json.obj (OF ++ [("description", Json.str d)])).getProp "responses" =
      (Json.obj OF).getProp "responses" :=
    getProp_obj_snoc_ne OF "description" (Json.str d) "responses" (by decide)
  have hit1 : (Json.obj (C ++ (m, Json.obj OF) :: D)).getProp m =
      some (.obj OF) :=
    getProp_obj_mid_hit C D m (.obj OF) hC
  have hit2 : (Json.obj (C ++ (m, Json.obj (OF ++ [("description", Json.str d)])) :: D)).getProp m =
      some (.obj (OF ++ [("description", Json.str d)])) :=
    getProp_obj_mid_hit C D m _ hC
  have hdB : (Json.obj OF).getProp "description" = none :=
    getProp_obj_none OF "description" hOF
  rw [opStep_some hit1 p0 spec st, opStep_some hit2 p0 spec2 st]
  rw [hdB, getProp_obj_mid_hit OF [] "description" (Json.str d) hOF]
  rw [hasValidDescription_of_long hdlen,
    show hasValidDescription none = JsOut.ok false from rfl]
  simp only [Json.truthy, Bool.not_true]
  cases b with
  | true =>
      simp only [JsOut.bind_ok, hsum, Bool.not_true, Bool.not_false,
        Bool.false_eq_true, if_false, if_true]
      have heq : ∀ s2 : DocsCount, opChildren (Json.obj OF) p0 (jsToUpper m) spec s2 =
          opChildren (Json.obj (OF ++ [("description", Json.str d)])) p0
            (jsToUpper m) spec2 s2 := by
        intro s2
        rw [opChildren_delta p0 (jsToUpper m) hop_blind spec spec2 s2,
          opChildren_congr p0 (jsToUpper m) spec2 hp1 hp2 hp3 s2,
          opChildren_delta p0 (jsToUpper m) hop_blind spec2 spec2 s2]
      rw [heq]
      exact grel_refl _ _
  | false =>
      simp only [JsOut.bind_ok, hsum, Bool.not_true, Bool.not_false,
        Bool.false_eq_true, if_false, if_true]
      rw [opChildren_congr p0 (jsToUpper m) spec2 hp1 hp2 hp3]
      rw [opChildren_delta p0 (jsToUpper m) hop_blind spec spec2]
      rw [opChildren_delta p0 (jsToUpper m) hop_blind spec2 spec2
        { violations := st.violations, totalItems := st.totalItems + 1,
          itemsWithViolations := st.itemsWithViolations }]
      cases hch : opChildren (Json.obj OF) p0 (jsToUpper m) spec2 DocsCount.zero with
      | err => exact Or.inl ⟨rfl, rfl⟩
      | diverge => exact Or.inr (Or.inl ⟨rfl, rfl⟩)
      | ok dd =>
          refine Or.inr (Or.inr ⟨_, _, rfl, rfl, Or.inr
            ⟨st.violations, dd.violations, ?_, ?_, ?_, ?_⟩⟩)
          · simp [DocsCount.add]
          · simp [DocsCount.add]
          · simp [DocsCount.add]
          · simp only [DocsCount.add]
            omega

end DescriptionDocsRule

namespace DescriptionDocsRule

/-- The `checkOperations` fold on the modified path item: all other
methods step identically, the modified method is `GRel`-related. -/
theorem checkOperations_grel
    (p0 m d : String) (spec spec2 : Json) (b : Bool)
    (C D OF : List (String × Json))
    (hm : m ∈ operationMethods)
    (hC : ∀ kv ∈ C, kv.1 ≠ m)
    (hOF : ∀ kv ∈ OF, kv.1 ≠ "description")
    (hdlen : MIN_DESCRIPTION_LENGTH ≤ (jsTrim d).length)
    (hsum : hasValidDescription ((Json.obj OF).getProp "summary") = .ok b)
    (hops : operationMethods.all (fun m2 =>
      match (Json.obj (C ++ (m, Json.obj OF) :: D)).getProp m2 with
      | some op => opSitesBlind op
      | none => true) = true) :
    ∀ s, GRel (opMissingViolation p0 m)
      (checkOperations (.obj (C ++ (m, .obj OF) :: D)) p0 spec s)
      (checkOperations
        (.obj (C ++ (m, .obj (OF ++ [("description", .str d)])) :: D)) p0 spec2 s) := by
  have hp1 : (Json.obj (OF ++ [("description", Json.str d)])).getProp "parameters" =
      (Json.obj OF).getProp "parameters" :=
    getProp_obj_snoc_ne OF "description" (Json.str d) "parameters" (by decide)
  have hp2 : (Json.obj (OF ++ [("description", Json.str d)])).getProp "requestBody" =
      (Json.obj OF).getProp "requestBody" :=
    getProp_obj_snoc_ne OF "description" (Json.str d) "requestBody" (by decide)
  have hp3 : (Json.obj (OF ++ [("description", Json.str d)])).getProp "responses" =
      (Json.obj OF).getProp "responses" :=
    getProp_obj_snoc_ne OF "description" (Json.str d) "responses" (by decide)
  have hit1 : (Json.obj (C ++ (m, Json.obj OF) :: D)).getProp m = some (.obj OF) :=
    getProp_obj_mid_hit C D m (.obj OF) hC
  have hit2 : (Json.obj (C ++ (m, Json.obj (OF ++ [("description", Json.str d)])) :: D)).getProp m =
      some (.obj (OF ++ [("description", Json.str d)])) :=
    getProp_obj_mid_hit C D m _ hC
  have hop_blind : opSitesBlind (.obj OF) = true := by
    have h2 := (List.all_eq_true.mp hops) m hm
    rw [hit1] at h2
    exact h2
  have hother : ∀ m2 ∈ operationMethods, m2 ≠ m → ∀ st,
      opStep (Json.obj (C ++ (m, Json.obj OF) :: D)) p0 spec st m2 =
      opStep (Json.obj (C ++ (m, Json.obj (OF ++ [("description", Json.str d)])) :: D))
        p0 spec2 st m2 := by
    intro m2 hm2 hne st
    have hpp : (Json.obj (C ++ (m, Json.obj (OF ++ [("description", Json.str d)])) :: D)).getProp m2 =
        (Json.obj (C ++ (m, Json.obj OF) :: D)).getProp m2 :=
      getProp_obj_mid_ne C D m (Json.obj (OF ++ [("description", Json.str d)]))
        (Json.obj OF) m2 hne
    have hbl2 := (List.all_eq_true.mp hops) m2 hm2
    calc opStep (Json.obj (C ++ (m, Json.obj OF) :: D)) p0 spec st m2
        = JsOut.bind (opStep (Json.obj (C ++ (m, Json.obj OF) :: D)) p0 spec2
            DocsCount.zero m2) (fun dd => .ok (st.add dd)) :=
          opStep_delta hbl2 p0 spec spec2 st
      _ = opStep (Json.obj (C ++ (m, Json.obj OF) :: D)) p0 spec2 st m2 :=
          (opStep_delta hbl2 p0 spec2 spec2 st).symm
      _ = opStep (Json.obj (C ++ (m, Json.obj (OF ++ [("description", Json.str d)])) :: D))
            p0 spec2 st m2 :=
          (opStep_congr p0 spec2 m2 hpp st).symm
  have hdg : ∀ m2 ∈ operationMethods, Delta (fun st =>
      opStep (Json.obj (C ++ (m, Json.obj (OF ++ [("description", Json.str d)])) :: D))
        p0 spec2 st m2) := by
    intro m2 hm2
    by_cases hne : m2 = m
    · subst hne
      have hbl : opSitesBlind (Json.obj (OF ++ [("description", Json.str d)])) = true := by
        rw [opSitesBlind_congr hp1 hp2 hp3]
        exact hop_blind
      have hbl2 : (match (Json.obj (C ++ (m2, Json.obj (OF ++ [("description", Json.str d)])) :: D)).getProp m2 with
          | some op => opSitesBlind op
          | none => true) = true := by
        rw [hit2]
        exact hbl
      exact fun st => opStep_delta hbl2 p0 spec2 spec2 st
    · have hpp : (Json.obj (C ++ (m, Json.obj (OF ++ [("description", Json.str d)])) :: D)).getProp m2 =
          (Json.obj (C ++ (m, Json.obj OF) :: D)).getProp m2 :=
        getProp_obj_mid_ne C D m (Json.obj (OF ++ [("description", Json.str d)]))
          (Json.obj OF) m2 hne
      have hbl2 : (match (Json.obj (C ++ (m, Json.obj (OF ++ [("description", Json.str d)])) :: D)).getProp m2 with
          | some op => opSitesBlind op
          | none => true) = true := by
        rw [hpp]
        exact (List.all_eq_true.mp hops) m2 hm2
      exact fun st => opStep_delta hbl2 p0 spec2 spec2 st
  have h0 : ∀ st, GRel (opMissingViolation p0 m)
      (opStep (Json.obj (C ++ (m, Json.obj OF) :: D)) p0 spec st m)
      (opStep (Json.obj (C ++ (m, Json.obj (OF ++ [("description", Json.str d)])) :: D))
        p0 spec2 st m) :=
    fun st => opStep_modified p0 m d spec spec2 b C D OF hC hOF hdlen hsum hop_blind st
  intro s
  rw [checkOperations_eq, checkOperations_eq]
  exact grel_foldM_methods hm hother hdg h0 s

end DescriptionDocsRule

namespace DescriptionDocsRule

/-- State after the path-description check of one path entry. -/
def pathDescState (st : DocsCount) (pn : String) (okv : Bool) : DocsCount :=
  if !okv then
    { violations := st.violations ++
        [mkViolation pn "description" "Path is missing a meaningful description"
          .warning "Add a description explaining the purpose of this path"],
      totalItems := st.totalItems + 1,
      itemsWithViolations := st.itemsWithViolations + 1 }
  else
    { violations := st.violations, totalItems := st.totalItems + 1,
      itemsWithViolations := st.itemsWithViolations }

/-- `pathStep` on a pair, with the state updates spelled out. -/
theorem pathStep_pair (s : Json) (st : DocsCount) (pn : String) (item : Json) :
    pathStep s st (pn, item) =
      if !item.truthy then .ok st
      else
        JsOut.bind (hasValidDescription (item.getProp "description")) (fun okv =>
          JsOut.bind
            (if jsTruthyOpt (item.getProp "parameters") then
              checkParameters ((item.getProp "parameters").getD Json.nul)
                pn none s (pathDescState st pn okv)
            else .ok (pathDescState st pn okv))
            (fun st2 => checkOperations item pn s st2)) := rfl

/-- The modified path entry: `GRel`-related outcomes. -/
theorem pathStep_modified
    (p0 m d : String) (spec spec2 : Json) (b : Bool)
    (C D OF : List (String × Json))
    (hm : m ∈ operationMethods)
    (hC : ∀ kv ∈ C, kv.1 ≠ m)
    (hOF : ∀ kv ∈ OF, kv.1 ≠ "description")
    (hdlen : MIN_DESCRIPTION_LENGTH ≤ (jsTrim d).length)
    (hsum : hasValidDescription ((Json.obj OF).getProp "summary") = .ok b)
    (hitem : itemSitesBlind (Json.obj (C ++ (m, Json.obj OF) :: D)) = true)
    (st : DocsCount) :
    GRel (opMissingViolation p0 m)
      (pathStep spec st (p0, .obj (C ++ (m, .obj OF) :: D)))
      (pathStep spec2 st
        (p0, .obj (C ++ (m, .obj (OF ++ [("description", .str d)])) :: D))) := by
  simp only [itemSitesBlind, Bool.and_eq_true] at hitem
  obtain ⟨hbp, hops⟩ := hitem
  have hmd : m ≠ "description" := by
    intro he
    subst he
    exact absurd hm (by decide)
  have hmp : m ≠ "parameters" := by
    intro he
    subst he
    exact absurd hm (by decide)
  have hdesc_eq : (Json.obj (C ++ (m, Json.obj (OF ++ [("description", Json.str d)])) :: D)).getProp "description" =
      (Json.obj (C ++ (m, Json.obj OF) :: D)).getProp "description" :=
    getProp_obj_mid_ne C D m (Json.obj (OF ++ [("description", Json.str d)]))
      (Json.obj OF) "description" (Ne.symm hmd)
  have hpar_eq : (Json.obj (C ++ (m, Json.obj (OF ++ [("description", Json.str d)])) :: D)).getProp "parameters" =
      (Json.obj (C ++ (m, Json.obj OF) :: D)).getProp "parameters" :=
    getProp_obj_mid_ne C D m (Json.obj (OF ++ [("description", Json.str d)]))
      (Json.obj OF) "parameters" (Ne.symm hmp)
  rw [pathStep_pair, pathStep_pair]
  simp only [Json.truthy, Bool.not_true, Bool.false_eq_true, if_false]
  rw [hdesc_eq, hpar_eq]
  refine grel_bind_left _ ?_
  intro okv
  have hPsame : ∀ stM : DocsCount,
      (if jsTruthyOpt ((Json.obj (C ++ (m, Json.obj OF) :: D)).getProp "parameters") then
        checkParameters (((Json.obj (C ++ (m, Json.obj OF) :: D)).getProp "parameters").getD Json.nul)
          p0 none spec stM
      else .ok stM) =
      (if jsTruthyOpt ((Json.obj (C ++ (m, Json.obj OF) :: D)).getProp "parameters") then
        checkParameters (((Json.obj (C ++ (m, Json.obj OF) :: D)).getProp "parameters").getD Json.nul)
          p0 none spec2 stM
      else .ok stM) := by
    intro stM
    by_cases h : jsTruthyOpt ((Json.obj (C ++ (m, Json.obj OF) :: D)).getProp "parameters") = true
    · rw [if_pos h, if_pos h]
      have hb2 : paramsBlind (some (((Json.obj (C ++ (m, Json.obj OF) :: D)).getProp "parameters").getD Json.nul)) = true := by
        cases hgp : (Json.obj (C ++ (m, Json.obj OF) :: D)).getProp "parameters" with
        | none => simp [jsTruthyOpt, hgp] at h
        | some v => rw [hgp] at hbp; simpa using hbp
      exact (checkParameters_delta hb2 p0 none spec spec2 stM).trans
        (checkParameters_delta hb2 p0 none spec2 spec2 stM).symm
    · rw [if_neg h, if_neg h]
  rw [hPsame (pathDescState st p0 okv)]
  refine grel_bind_left _ ?_
  intro st2
  exact checkOperations_grel p0 m d spec spec2 b C D OF hm hC hOF hdlen hsum hops st2

end DescriptionDocsRule

namespace DescriptionDocsRule

/-- `checkPaths` on the two documents: every other entry behaves
identically, the modified entry is `GRel`-related, and the inserted
violation survives the remaining blind entries. -/
theorem checkPaths_grel
    (p0 m d : String) (spec spec2 : Json) (b : Bool)
    (A B C D OF : List (String × Json))
    (hm : m ∈ operationMethods)
    (hC : ∀ kv ∈ C, kv.1 ≠ m)
    (hOF : ∀ kv ∈ OF, kv.1 ≠ "description")
    (hdlen : MIN_DESCRIPTION_LENGTH ≤ (jsTrim d).length)
    (hsum : hasValidDescription ((Json.obj OF).getProp "summary") = .ok b)
    (hblindAB : ∀ pv ∈ A ++ B, itemSitesBlind pv.2 = true)
    (hitem : itemSitesBlind (Json.obj (C ++ (m, Json.obj OF) :: D)) = true)
    (hpaths1 : spec.getProp "paths" =
      some (.obj (A ++ (p0, .obj (C ++ (m, .obj OF) :: D)) :: B)))
    (hpaths2 : spec2.getProp "paths" =
      some (.obj (A ++ (p0, .obj (C ++ (m, .obj (OF ++ [("description", .str d)])) :: D)) :: B))) :
    ∀ s, GRel (opMissingViolation p0 m) (checkPaths spec s) (checkPaths spec2 s) := by
  intro s
  rw [checkPaths_eq, checkPaths_eq, hpaths1, hpaths2]
  simp only [jsTruthyOpt, Json.truthy, Bool.not_true, Bool.false_eq_true, if_false,
    Option.getD_some, jsEntries]
  exact grel_foldM A _ _ B
    (fun a ha st => pathStep_eq_of_blind (hblindAB a (List.mem_append_left B ha)) spec spec2 st)
    (fun a ha st => pathStep_eq_of_blind (hblindAB a (List.mem_append_right A ha)) spec spec2 st)
    (fun a ha => pathStep_delta_self (hblindAB a (List.mem_append_right A ha)) spec2)
    (fun st => pathStep_modified p0 m d spec spec2 b C D OF hm hC hOF hdlen hsum hitem st)
    s

end DescriptionDocsRule

namespace DescriptionDocsRule

/-- `Math.round` is monotone. -/
theorem jroundQ_mono {a b : ℚ} (h : a ≤ b) : jroundQ a ≤ jroundQ b := by
  unfold jroundQ jround
  exact_mod_cast Int.floor_le_floor (by linarith)

/-- The final clamp of `calculateScore` is monotone once the rounded
score is and the first run has an error violation. -/
theorem score_clamp_mono {e1 e2 s1 s2 w : ℚ}
    (hs : s1 ≤ s2) (he1 : 0 < e1) :
    max 0 (if 0 < e1 ∧ w - 2 < s1 then w - 2 else s1) ≤
      max 0 (if 0 < e2 ∧ w - 2 < s2 then w - 2 else s2) := by
  refine max_le_max le_rfl ?_
  split
  · rename_i hB
    split
    · exact le_rfl
    · exact le_of_lt (lt_of_lt_of_le hB.2 hs)
  · rename_i hB
    split
    · exact not_lt.mp (fun hlt => hB ⟨he1, hlt⟩)
    · exact hs

/-- Removing one error-severity violation (totals unchanged) never
lowers the shared score. -/
theorem calculateScore_insert_error_le (V1 V2 : List RuleViolation)
    (E : RuleViolation) (hE : E.severity = Severity.error) (T w : ℚ) (hw : 0 ≤ w) :
    calculateScore (V1 ++ E :: V2) T w ≤ calculateScore (V1 ++ V2) T w := by
  have hfe : ((V1 ++ E :: V2).filter (fun v => v.severity = Severity.error)).length =
      ((V1 ++ V2).filter (fun v => v.severity = Severity.error)).length + 1 := by
    simp [List.filter_append, List.filter_cons, hE]
    omega
  have hfw : ((V1 ++ E :: V2).filter (fun v => v.severity = Severity.warning)).length =
      ((V1 ++ V2).filter (fun v => v.severity = Severity.warning)).length := by
    simp [List.filter_append, List.filter_cons, hE]
  have hfi : ((V1 ++ E :: V2).filter (fun v => v.severity = Severity.info)).length =
      ((V1 ++ V2).filter (fun v => v.severity = Severity.info)).length := by
    simp [List.filter_append, List.filter_cons, hE]
  simp only [calculateScore, hfe, hfw, hfi]
  refine score_clamp_mono ?_ ?_
  · apply jroundQ_mono
    apply mul_le_mul_of_nonneg_left _ hw
    apply sub_le_sub_left
    refine (div_le_div_right (lt_max_of_lt_left one_pos)).mpr ?_
    push_cast
    have h0 : (0:ℚ) ≤ SEVERITY_SCORE_WEIGHTS Severity.error := by
      simp [SEVERITY_SCORE_WEIGHTS]
    nlinarith [h0]
  · push_cast
    positivity

end DescriptionDocsRule

open DescriptionDocsRule

/-- C8 amended: adding a meaningful description to an operation that
lacked one never lowers the Description & Documentation score, provided
the paths section is resolution-blind (no local `#/` `$ref` at the
resolution sites the rule consults), so that the added text cannot
change what other checks resolve.  (Without that proviso the claim is
false: see the counterexample, where the added description is itself the
target of response `$ref`s.)  The modified operation sits at method `m`
of path `p0`; its fields `OF` carry no description, its summary check
returns `b`, and the added description `d` trims to the minimum length. -/
theorem docs_monotonicity_amended
    (spec spec2 : Json) (p0 m d : String) (b : Bool)
    (A B C D OF : List (String × Json))
    (hm : m ∈ operationMethods)
    (hC : ∀ kv ∈ C, kv.1 ≠ m)
    (hOF : ∀ kv ∈ OF, kv.1 ≠ "description")
    (hdlen : MIN_DESCRIPTION_LENGTH ≤ (jsTrim d).length)
    (hsum : hasValidDescription ((Json.obj OF).getProp "summary") = .ok b)
    (hblindAB : ∀ pv ∈ A ++ B, itemSitesBlind pv.2 = true)
    (hitem : itemSitesBlind (Json.obj (C ++ (m, Json.obj OF) :: D)) = true)
    (hpaths1 : spec.getProp "paths" =
      some (.obj (A ++ (p0, .obj (C ++ (m, .obj OF) :: D)) :: B)))
    (hpaths2 : spec2.getProp "paths" =
      some (.obj (A ++ (p0, .obj (C ++ (m, .obj (OF ++ [("description", .str d)])) :: D)) :: B)))
    (hinfo : spec2.getProp "info" = spec.getProp "info")
    (hcomp : spec2.getProp "components" = spec.getProp "components")
    (r r2 : RuleResult)
    (hr : evaluate spec = .ok r) (hr2 : evaluate spec2 = .ok r2) :
    r.score ≤ r2.score := by
  simp only [evaluate] at hr hr2
  rw [checkInfoDescription_congr hinfo] at hr2
  simp only [checkComponentSchemas_congr hcomp] at hr2
  obtain ⟨s1, hI, hr⟩ := JsOut.bind_eq_ok.mp hr
  obtain ⟨s2, hP, hr⟩ := JsOut.bind_eq_ok.mp hr
  obtain ⟨s3, hQ, hrF⟩ := JsOut.bind_eq_ok.mp hr
  obtain ⟨t1, hI2, hr2⟩ := JsOut.bind_eq_ok.mp hr2
  obtain ⟨t2, hP2, hr2⟩ := JsOut.bind_eq_ok.mp hr2
  obtain ⟨t3, hQ2, hr2F⟩ := JsOut.bind_eq_ok.mp hr2
  have ht1 : s1 = t1 := by
    rw [hI] at hI2
    exact JsOut.ok.inj hI2
  subst ht1
  have hg := checkPaths_grel p0 m d spec spec2 b A B C D OF hm hC hOF hdlen hsum
    hblindAB hitem hpaths1 hpaths2 s1
  rw [hP, hP2] at hg
  rcases hg with ⟨hx, _⟩ | ⟨hx, _⟩ | ⟨a, b2, ha, hb, hab⟩
  · simp at hx
  · simp at hx
  · obtain rfl : s2 = a := JsOut.ok.inj ha
    obtain rfl : t2 = b2 := JsOut.ok.inj hb
    have hrel3 : RelE (opMissingViolation p0 m) s3 t3 := by
      have hd := checkComponentSchemas_delta spec
      have h2 : checkComponentSchemas spec s2 =
          JsOut.bind (checkComponentSchemas spec DocsCount.zero)
            (fun dd => .ok (s2.add dd)) := hd s2
      have h2' : checkComponentSchemas spec t2 =
          JsOut.bind (checkComponentSchemas spec DocsCount.zero)
            (fun dd => .ok (t2.add dd)) := hd t2
      rw [hQ] at h2
      rw [hQ2] at h2'
      cases hcz : checkComponentSchemas spec DocsCount.zero with
      | err => rw [hcz] at h2; simp [JsOut.bind] at h2
      | diverge => rw [hcz] at h2; simp [JsOut.bind] at h2
      | ok dc =>
          rw [hcz] at h2 h2'
          have h2b : JsOut.ok s3 = JsOut.ok (s2.add dc) := h2
          have h2b' : JsOut.ok t3 = JsOut.ok (t2.add dc) := h2'
          rw [JsOut.ok.inj h2b, JsOut.ok.inj h2b']
          exact RelE_add hab dc
    have hsc : r.score = calculateScore s3.violations (s3.totalItems : ℚ)
        CRITERIA_WEIGHTS_description_docs := by
      have hrq : r = { score := calculateScore s3.violations (s3.totalItems : ℚ) CRITERIA_WEIGHTS_description_docs, maxScore := CRITERIA_WEIGHTS_description_docs, violations := s3.violations } := (JsOut.ok.inj hrF).symm
      rw [hrq]
    have hsc2 : r2.score = calculateScore t3.violations (t3.totalItems : ℚ)
        CRITERIA_WEIGHTS_description_docs := by
      have hrq2 : r2 = { score := calculateScore t3.violations (t3.totalItems : ℚ) CRITERIA_WEIGHTS_description_docs, maxScore := CRITERIA_WEIGHTS_description_docs, violations := t3.violations } := (JsOut.ok.inj hr2F).symm
      rw [hrq2]
    rw [hsc, hsc2]
    rcases hrel3 with rfl | ⟨W1, W2, hv3, hv3', ht, hwv⟩
    · exact le_rfl
    · rw [hv3, hv3', ht]
      exact calculateScore_insert_error_le W1 W2 (opMissingViolation p0 m) rfl _ _
        (by norm_num [CRITERIA_WEIGHTS_description_docs])

/-- The witness document: one path `/users` whose GET operation has no
description or summary; `info` carries a meaningful description. -/
def c8SpecBefore : Json :=
  Json.obj [
    ("info", Json.obj [("description", Json.str "A demo API for the witness")]),
    ("paths", Json.obj [("/users", Json.obj [("get", Json.obj [])])])]

/-- The same document after adding the description `hello world` to the
GET operation. -/
def c8SpecAfter : Json :=
  Json.obj [
    ("info", Json.obj [("description", Json.str "A demo API for the witness")]),
    ("paths", Json.obj [("/users", Json.obj [("get",
      Json.obj [("description", Json.str "hello world")])])])]

/-- Witness for the amended C8 theorem at a concrete pair of documents:
both runs return normally and the score does not decrease. -/
theorem docs_monotonicity_amended_witness :
    MIN_DESCRIPTION_LENGTH ≤ (jsTrim "hello world").length ∧
    ∃ r r2 : RuleResult, evaluate c8SpecBefore = .ok r ∧
      evaluate c8SpecAfter = .ok r2 ∧ r.score ≤ r2.score := by
  refine ⟨by decide, _, _, rfl, rfl, ?_⟩
  exact docs_monotonicity_amended c8SpecBefore c8SpecAfter "/users" "get"
    "hello world" false [] [] [] [] []
    (by decide) (by simp) (by simp) (by decide) rfl (by simp) rfl
    rfl rfl rfl rfl _ _ rfl rfl
